import Mathlib

/-!
# Game Boy to VGA converter (gb_vga.c): scanline compositor and settings

A shallow embedding of the scanline compositor (single_solid_line,
single_scanline, render_scanline), the coordinate maps (set_indexes), the
settings mutators (change_scheme_offset, change_border_color_index,
change_video_effect, change_scanline_color), the button handling
(button_was_released, command_check, gpio_callback), the controller driver
(nes_classic_controller) and the signal acquisition (video_stuff) of gb_vga.c,
followed by the properties established about them.

Machine integers are mathematical integers with explicit reductions where the
C code narrows a value (uint8_t, int8_t, uint16_t, size_t).  Static arrays are
functions from the cell index to the cell content.  A function that calls out
of gb_vga.c returns, next to the state it leaves, the list of those calls in
order; each function is taken as running without interleaving.
-/

namespace GbVga

/-! ## Constants of gb_vga.c -/

def MIN_RUN : Nat := 3
def PIXELS_X : Nat := 160
def PIXELS_Y : Nat := 144
def PIXEL_SCALE : Nat := 3
def BORDER_HORZ : Nat := 80
def BORDER_VERT : Nat := 24
def PIXEL_COUNT : Nat := PIXELS_X * PIXELS_Y

def VIDEO_EFFECT_NONE : Int := 0
def VIDEO_EFFECT_PIXEL_EFFECT : Int := 1
def VIDEO_EFFECT_SCANLINES : Int := 2
def VIDEO_EFFECT_COUNT : Int := 3

/-- Compile-time constants that gb_vga.c takes from headers outside the file:
the pixel shifts and the composable-scanline command words of the scanvideo
library, and the overlay dimensions of osd.h.  They are parameters of the
embedding. -/
structure Platform where
  PICO_SCANVIDEO_PIXEL_RSHIFT : Nat
  PICO_SCANVIDEO_PIXEL_GSHIFT : Nat
  PICO_SCANVIDEO_PIXEL_BSHIFT : Nat
  COMPOSABLE_COLOR_RUN : Nat
  COMPOSABLE_RAW_RUN : Nat
  COMPOSABLE_RAW_1P : Nat
  COMPOSABLE_EOL_ALIGN : Nat
  OSD_WIDTH : Nat
  OSD_HEIGHT : Nat

/-- Conversion to uint8_t. -/
def to_uint8 (v : Int) : Int := v % 256

/-- Conversion to int8_t (two's complement wrap). -/
def to_int8 (v : Int) : Int := (v + 128) % 256 - 128

/-- Conversion to uint16_t. -/
def to_uint16 (v : Int) : Int := v % 65536

/-- Conversion to a 32-bit unsigned integer (size_t on the target). -/
def to_uint32 (v : Int) : Int := v % 4294967296

/-- The macro RGB888_TO_RGB222(r, g, b). -/
def RGB888_TO_RGB222 (p : Platform) (r g b : Nat) : Nat :=
  ((b >>> 6) <<< p.PICO_SCANVIDEO_PIXEL_BSHIFT) |||
  ((g >>> 6) <<< p.PICO_SCANVIDEO_PIXEL_GSHIFT) |||
  ((r >>> 6) <<< p.PICO_SCANVIDEO_PIXEL_RSHIFT)

/-- The table border_colors; its cells are uint8_t. -/
def border_colors (p : Platform) : List Nat :=
  [RGB888_TO_RGB222 p 0x00 0x00 0x00, -- BLACK
   RGB888_TO_RGB222 p 0x00 0x00 0xFF, -- BLUE
   RGB888_TO_RGB222 p 0xFF 0xFF 0xFF, -- WHITE
   RGB888_TO_RGB222 p 0x80 0x80 0x80, -- LIGHT GREY
   RGB888_TO_RGB222 p 0x40 0x40 0x40, -- DARK GREY
   RGB888_TO_RGB222 p 0xFF 0x00 0x00, -- RED
   RGB888_TO_RGB222 p 0x00 0xFF 0x00, -- GREEN
   RGB888_TO_RGB222 p 0xFF 0xFF 0x00, -- YELLOW
   RGB888_TO_RGB222 p 0xFF 0x00 0xFF  -- PURPLE
  ].map (fun c => c % 256)

/-- The palette table colors; its cells are uint16_t. -/
def colors (p : Platform) : List Nat :=
  [
   -- Black and white
   RGB888_TO_RGB222 p 0xF7 0xF3 0xF7,
   RGB888_TO_RGB222 p 0xB5 0xB2 0xB5,
   RGB888_TO_RGB222 p 0x4E 0x4C 0x4E,
   RGB888_TO_RGB222 p 0x00 0x00 0x00,
   -- Inverted
   RGB888_TO_RGB222 p 0x00 0x00 0x00,
   RGB888_TO_RGB222 p 0x4E 0x4C 0x4E,
   RGB888_TO_RGB222 p 0xB5 0xB2 0xB5,
   RGB888_TO_RGB222 p 0xF7 0xF3 0xF7,
   -- DMG
   RGB888_TO_RGB222 p 0x7B 0x82 0x10,
   RGB888_TO_RGB222 p 0x5A 0x79 0x42,
   RGB888_TO_RGB222 p 0x39 0x59 0x4A,
   RGB888_TO_RGB222 p 0x29 0x41 0x39,
   -- Game Boy Pocket
   RGB888_TO_RGB222 p 0xC6 0xCB 0xA5,
   RGB888_TO_RGB222 p 0x8C 0x92 0x6B,
   RGB888_TO_RGB222 p 0x4A 0x51 0x39,
   RGB888_TO_RGB222 p 0x18 0x18 0x18,
   -- Game Boy Light
   RGB888_TO_RGB222 p 0x00 0xB2 0x84,
   RGB888_TO_RGB222 p 0x8C 0x92 0x6B,
   RGB888_TO_RGB222 p 0x00 0x69 0x4A,
   RGB888_TO_RGB222 p 0x00 0x51 0x39,
   -- SGB 1A
   RGB888_TO_RGB222 p 0xF7 0xE3 0xC6,
   RGB888_TO_RGB222 p 0xD6 0x92 0x4A,
   RGB888_TO_RGB222 p 0xA5 0x28 0x21,
   RGB888_TO_RGB222 p 0x31 0x18 0x52,
   -- SGB 2A
   RGB888_TO_RGB222 p 0xEF 0xC3 0x9C,
   RGB888_TO_RGB222 p 0xBD 0x8A 0x4A,
   RGB888_TO_RGB222 p 0x29 0x79 0x00,
   RGB888_TO_RGB222 p 0x00 0x00 0x00,
   -- SGB 3A
   RGB888_TO_RGB222 p 0xF7 0xCB 0x94,
   RGB888_TO_RGB222 p 0x73 0xBA 0xBD,
   RGB888_TO_RGB222 p 0xF7 0x61 0x29,
   RGB888_TO_RGB222 p 0x31 0x49 0x63,
   -- SGB 4A
   RGB888_TO_RGB222 p 0xEF 0xA2 0x6B,
   RGB888_TO_RGB222 p 0x7B 0xA2 0xF7,
   RGB888_TO_RGB222 p 0xCE 0x00 0xCE,
   RGB888_TO_RGB222 p 0x00 0x00 0x7B,
   -- SGB 1B
   RGB888_TO_RGB222 p 0xD6 0xD3 0xBD,
   RGB888_TO_RGB222 p 0xC6 0xAA 0x73,
   RGB888_TO_RGB222 p 0xAD 0x51 0x10,
   RGB888_TO_RGB222 p 0x00 0x00 0x00,
   -- SGB 2B
   RGB888_TO_RGB222 p 0xF7 0xF3 0xF7,
   RGB888_TO_RGB222 p 0xF7 0xE3 0x52,
   RGB888_TO_RGB222 p 0xF7 0x30 0x00,
   RGB888_TO_RGB222 p 0x52 0x00 0x5A,
   -- SGB 3B
   RGB888_TO_RGB222 p 0xD6 0xD3 0xBD,
   RGB888_TO_RGB222 p 0xDE 0x82 0x21,
   RGB888_TO_RGB222 p 0x00 0x51 0x00,
   RGB888_TO_RGB222 p 0x00 0x10 0x10,
   -- SGB 4B
   RGB888_TO_RGB222 p 0xEF 0xE3 0xEF,
   RGB888_TO_RGB222 p 0xE7 0x9A 0x63,
   RGB888_TO_RGB222 p 0x42 0x79 0x39,
   RGB888_TO_RGB222 p 0x18 0x08 0x08,
   -- SGB 1C
   RGB888_TO_RGB222 p 0xF7 0xBA 0xF7,
   RGB888_TO_RGB222 p 0xE7 0x92 0x52,
   RGB888_TO_RGB222 p 0x94 0x38 0x63,
   RGB888_TO_RGB222 p 0x39 0x38 0x94,
   -- SGB 2C
   RGB888_TO_RGB222 p 0xF7 0xF3 0xF7,
   RGB888_TO_RGB222 p 0xE7 0x8A 0x8C,
   RGB888_TO_RGB222 p 0x7B 0x30 0xE7,
   RGB888_TO_RGB222 p 0x29 0x28 0x94,
   -- SGB 3C
   RGB888_TO_RGB222 p 0xDE 0xA2 0xC6,
   RGB888_TO_RGB222 p 0xF7 0xF3 0x7B,
   RGB888_TO_RGB222 p 0x00 0xB2 0xF7,
   RGB888_TO_RGB222 p 0x21 0x20 0x5A,
   -- SGB 4C
   RGB888_TO_RGB222 p 0xF7 0xDB 0xDE,
   RGB888_TO_RGB222 p 0xF7 0xF3 0x7B,
   RGB888_TO_RGB222 p 0x94 0x9A 0xDE,
   RGB888_TO_RGB222 p 0x08 0x00 0x00,
   -- SGB 1D
   RGB888_TO_RGB222 p 0xF7 0xF3 0xA5,
   RGB888_TO_RGB222 p 0xBD 0x82 0x4A,
   RGB888_TO_RGB222 p 0xF7 0x00 0x00,
   RGB888_TO_RGB222 p 0x52 0x18 0x00,
   -- SGB 2D
   RGB888_TO_RGB222 p 0xF7 0xF3 0x9C,
   RGB888_TO_RGB222 p 0x00 0xF3 0x00,
   RGB888_TO_RGB222 p 0xF7 0x30 0x00,
   RGB888_TO_RGB222 p 0x00 0x00 0x52,
   -- SGB 3D
   RGB888_TO_RGB222 p 0xEF 0xF3 0xB5,
   RGB888_TO_RGB222 p 0xDE 0xA2 0x7B,
   RGB888_TO_RGB222 p 0x96 0xAD 0x52,
   RGB888_TO_RGB222 p 0x00 0x00 0x00,
   -- SGB 4D
   RGB888_TO_RGB222 p 0xF7 0xF3 0xB5,
   RGB888_TO_RGB222 p 0x94 0xC3 0xC6,
   RGB888_TO_RGB222 p 0x4A 0x69 0x7B,
   RGB888_TO_RGB222 p 0x08 0x20 0x4A,
   -- SGB 1E
   RGB888_TO_RGB222 p 0xF7 0xD3 0xAD,
   RGB888_TO_RGB222 p 0x7B 0xBA 0x7B,
   RGB888_TO_RGB222 p 0x6B 0x8A 0x42,
   RGB888_TO_RGB222 p 0x5A 0x38 0x21,
   -- SGB 2E
   RGB888_TO_RGB222 p 0xF7 0xC3 0x84,
   RGB888_TO_RGB222 p 0x94 0xAA 0xDE,
   RGB888_TO_RGB222 p 0x29 0x10 0x63,
   RGB888_TO_RGB222 p 0x10 0x08 0x10,
   -- SGB 3E
   RGB888_TO_RGB222 p 0xF7 0xF3 0xBD,
   RGB888_TO_RGB222 p 0xDE 0xAA 0x6B,
   RGB888_TO_RGB222 p 0xAD 0x79 0x21,
   RGB888_TO_RGB222 p 0x52 0x49 0x73,
   -- SGB 4E
   RGB888_TO_RGB222 p 0xF7 0xD3 0xA5,
   RGB888_TO_RGB222 p 0xDE 0xA2 0x7B,
   RGB888_TO_RGB222 p 0x7B 0x59 0x8C,
   RGB888_TO_RGB222 p 0x00 0x20 0x31,
   -- SGB 1F
   RGB888_TO_RGB222 p 0xD6 0xE3 0xF7,
   RGB888_TO_RGB222 p 0xDE 0x8A 0x52,
   RGB888_TO_RGB222 p 0xA5 0x00 0x00,
   RGB888_TO_RGB222 p 0x00 0x41 0x10,
   -- SGB 2F
   RGB888_TO_RGB222 p 0xCE 0xF3 0xF7,
   RGB888_TO_RGB222 p 0xF7 0x92 0x52,
   RGB888_TO_RGB222 p 0x9C 0x00 0x00,
   RGB888_TO_RGB222 p 0x18 0x00 0x00,
   -- SGB 3F
   RGB888_TO_RGB222 p 0x7B 0x79 0xC6,
   RGB888_TO_RGB222 p 0xF7 0x69 0xF7,
   RGB888_TO_RGB222 p 0xF7 0xCB 0x00,
   RGB888_TO_RGB222 p 0x42 0x41 0x42,
   -- SGB 4F
   RGB888_TO_RGB222 p 0xB5 0xCB 0xCE,
   RGB888_TO_RGB222 p 0xD6 0x82 0xD6,
   RGB888_TO_RGB222 p 0x84 0x00 0x9C,
   RGB888_TO_RGB222 p 0x39 0x00 0x00,
   -- SGB 1G
   RGB888_TO_RGB222 p 0x00 0x00 0x52,
   RGB888_TO_RGB222 p 0x00 0x9A 0xE7,
   RGB888_TO_RGB222 p 0x7B 0x79 0x00,
   RGB888_TO_RGB222 p 0xF7 0xF3 0x5A,
   -- SGB 2G
   RGB888_TO_RGB222 p 0x6B 0xB2 0x39,
   RGB888_TO_RGB222 p 0xDE 0x51 0x42,
   RGB888_TO_RGB222 p 0xDE 0xB2 0x84,
   RGB888_TO_RGB222 p 0x00 0x18 0x00,
   -- SGB 3G
   RGB888_TO_RGB222 p 0x63 0xD3 0x52,
   RGB888_TO_RGB222 p 0xF7 0xF3 0xF7,
   RGB888_TO_RGB222 p 0xC6 0x30 0x39,
   RGB888_TO_RGB222 p 0x39 0x00 0x00,
   -- SGB 4G
   RGB888_TO_RGB222 p 0xAD 0xDB 0x18,
   RGB888_TO_RGB222 p 0xB5 0x20 0x5A,
   RGB888_TO_RGB222 p 0x29 0x10 0x00,
   RGB888_TO_RGB222 p 0x00 0x82 0x63,
   -- SGB 1H
   RGB888_TO_RGB222 p 0xF7 0xE3 0xDE,
   RGB888_TO_RGB222 p 0xF7 0xB2 0x8C,
   RGB888_TO_RGB222 p 0x84 0x41 0x00,
   RGB888_TO_RGB222 p 0x31 0x18 0x00,
   -- SGB 2H
   RGB888_TO_RGB222 p 0xF7 0xF3 0xF7,
   RGB888_TO_RGB222 p 0xB5 0xB2 0xB5,
   RGB888_TO_RGB222 p 0x73 0x71 0x73,
   RGB888_TO_RGB222 p 0x00 0x00 0x00,
   -- SGB 3H
   RGB888_TO_RGB222 p 0xDE 0xF3 0x9C,
   RGB888_TO_RGB222 p 0x7B 0xC3 0x39,
   RGB888_TO_RGB222 p 0x4A 0x8A 0x18,
   RGB888_TO_RGB222 p 0x08 0x18 0x00,
   -- SGB 4H
   RGB888_TO_RGB222 p 0xF7 0xF3 0xC6,
   RGB888_TO_RGB222 p 0xB5 0xBA 0x5A,
   RGB888_TO_RGB222 p 0x84 0x8A 0x42,
   RGB888_TO_RGB222 p 0x42 0x51 0x29
  ].map (fun c => c % 65536)

/-- The value sizeof(border_colors): the cells are one byte each. -/
def sizeof_border_colors (p : Platform) : Nat := (border_colors p).length

/-- The value sizeof(colors)/sizeof(colors[0]): the number of palette cells. -/
def colors_count (p : Platform) : Nat := (colors p).length

/-- The read border_colors[i]. -/
def border_colors_at (p : Platform) (i : Int) : Nat := (border_colors p).getD i.toNat 0

/-- The read colors[i]. -/
def colors_at (p : Platform) (i : Int) : Nat := (colors p).getD i.toNat 0

/-! ## Settings and their mutators -/

/-- The settings globals of gb_vga.c: scheme_offset, scanline_color_offset and
video_effect are int, border_color_index is int8_t, scanline_color is
uint16_t. -/
structure Settings where
  scheme_offset : Int
  scanline_color_offset : Int
  video_effect : Int
  border_color_index : Int
  scanline_color : Nat

/-- The static initialisers of the settings globals. -/
def static_init (p : Platform) : Settings :=
  { scheme_offset := 0
    scanline_color_offset := 0
    video_effect := VIDEO_EFFECT_NONE
    border_color_index := 0
    scanline_color := RGB888_TO_RGB222 p 0x00 0x00 0x00 % 65536 }

/-- The function change_scheme_offset. -/
def change_scheme_offset (p : Platform) (s : Settings) (direction : Int) : Settings :=
  let max_offset : Int := (colors_count p : Int) - 4
  let so1 := s.scheme_offset + direction * 4
  let so2 := if so1 > max_offset then 0 else so1
  let so3 := if so2 < 0 then max_offset else so2
  { s with scheme_offset := so3 }

/-- The function change_border_color_index.  The first conditional has type
size_t (its second operand is sizeof(border_colors)-1), so the index is
converted to unsigned before it is stored back into the int8_t; the comparison
of the second statement is an unsigned comparison as well. -/
def change_border_color_index (p : Platform) (s : Settings) (direction : Int) : Settings :=
  let b1 := to_int8 (s.border_color_index + direction)
  let b2 := to_int8 (if b1 < 0 then (sizeof_border_colors p : Int) - 1 else to_uint32 b1)
  let b3 := to_int8 (if to_uint32 b2 ≥ (sizeof_border_colors p : Int) then 0 else b2)
  { s with border_color_index := b3 }

/-- The function change_video_effect. -/
def change_video_effect (s : Settings) (increment : Int) : Settings :=
  let v1 := s.video_effect + increment
  let v2 := if v1 ≥ VIDEO_EFFECT_COUNT then VIDEO_EFFECT_NONE else v1
  let v3 := if v2 < 0 then VIDEO_EFFECT_COUNT - 1 else v2
  { s with video_effect := v3 }

/-- The function change_scanline_color. -/
def change_scanline_color (p : Platform) (s : Settings) (increment : Int) : Settings :=
  let o1 := s.scanline_color_offset + increment
  let o2 := if o1 > 3 then 0 else o1
  let o3 := if o2 < 0 then 3 else o2
  { s with scanline_color_offset := o3
           scanline_color := colors_at p (s.scheme_offset + o3) }

/-- The settings when the main loop is entered: the static initialisers followed
by the call change_scanline_color(0) of main. -/
def boot (p : Platform) : Settings := change_scanline_color p (static_init p) 0

/-- One call of a settings mutator with its argument. -/
inductive SettingsCall where
  | scheme (direction : Int)
  | border (direction : Int)
  | effect (increment : Int)
  | accent (increment : Int)

/-- The argument of a call. -/
def SettingsCall.arg : SettingsCall → Int
  | .scheme d => d
  | .border d => d
  | .effect d => d
  | .accent d => d

/-- The effect of one call on the settings. -/
def SettingsCall.run (p : Platform) (s : Settings) : SettingsCall → Settings
  | .scheme d => change_scheme_offset p s d
  | .border d => change_border_color_index p s d
  | .effect d => change_video_effect s d
  | .accent d => change_scanline_color p s d

/-- The effect of a finite sequence of calls, first call first. -/
def run_calls (p : Platform) (s : Settings) (cs : List SettingsCall) : Settings :=
  cs.foldl (SettingsCall.run p) s

/-! ## Video memory and the overlay -/

/-- The static arrays the compositor reads: framebuffer, osd_framebuffer and
the two coordinate maps, each as the content of its cells by index. -/
structure VideoMem where
  framebuffer : Nat → Nat
  osd_framebuffer : Nat → Nat
  indexes_x : Nat → Nat
  indexes_y : Nat → Nat

/-- Modelled from the spec: the state of the overlay module (osd.c), which is
not part of gb_vga.c: whether the overlay is enabled and its active line. -/
structure Overlay where
  enabled : Bool
  active_line : Int := 0

/-- Modelled from the spec: OSD_is_enabled() of the overlay module. -/
def OSD_is_enabled (o : Overlay) : Bool := o.enabled

/-- Modelled from the spec: OSD_get_width() of the overlay module, the fixed
overlay pixel width. -/
def OSD_get_width (p : Platform) : Nat := p.OSD_WIDTH

/-- Modelled from the spec: OSD_get_height() of the overlay module, the fixed
overlay pixel height. -/
def OSD_get_height (p : Platform) : Nat := p.OSD_HEIGHT

/-! ## The coordinate maps -/

/-- The body of the inner loops of set_indexes: one store table[n++] = v into a
uint8_t cell, n being uint16_t. -/
def set_index_store (v : Nat) (st : (Nat → Nat) × Nat) (_i : Nat) : (Nat → Nat) × Nat :=
  (Function.update st.1 st.2 (v % 256), (st.2 + 1) % 65536)

/-- One iteration of an outer loop of set_indexes. -/
def set_index_outer (st : (Nat → Nat) × Nat) (v : Nat) : (Nat → Nat) × Nat :=
  (List.range PIXEL_SCALE).foldl (set_index_store v) st

/-- The function set_indexes: it fills indexes_x and then indexes_y. -/
def set_indexes (m : VideoMem) : VideoMem :=
  let rx := (List.range PIXELS_X).foldl set_index_outer (m.indexes_x, 0)
  let ry := (List.range PIXELS_Y).foldl set_index_outer (m.indexes_y, 0)
  { m with indexes_x := rx.1, indexes_y := ry.1 }

/-! ## The scanline compositor -/

/-- The function single_solid_line: the 16-bit words it writes, in order. -/
def single_solid_line (p : Platform) (s : Settings) (color : Nat) : List Nat :=
  [ -- left border
    p.COMPOSABLE_COLOR_RUN,
    border_colors_at p s.border_color_index,
    BORDER_HORZ - MIN_RUN - 1,
    p.COMPOSABLE_COLOR_RUN,
    color,
    PIXELS_X * PIXEL_SCALE - MIN_RUN,
    -- right border
    p.COMPOSABLE_COLOR_RUN,
    border_colors_at p s.border_color_index,
    BORDER_HORZ - MIN_RUN,
    -- black pixel to end line
    p.COMPOSABLE_RAW_1P,
    0,
    p.COMPOSABLE_EOL_ALIGN ]

/-- The local osd_start_x of single_scanline (uint8_t). -/
def osd_start_x (p : Platform) : Nat :=
  (to_uint8 (Int.tdiv ((PIXELS_X : Int) - (OSD_get_width p : Int)) 2)).toNat

/-- The local osd_end_x of single_scanline (uint8_t). -/
def osd_end_x (p : Platform) : Nat :=
  (to_uint8 ((osd_start_x p : Int) + (OSD_get_width p : Int))).toNat

/-- The local osd_start_y of single_scanline (uint8_t). -/
def osd_start_y (p : Platform) : Nat :=
  (to_uint8 (Int.tdiv ((PIXELS_Y : Int) - (OSD_get_height p : Int)) 2)).toNat

/-- The local osd_end_y of single_scanline (uint8_t). -/
def osd_end_y (p : Platform) : Nat :=
  (to_uint8 ((osd_start_y p : Int) + (OSD_get_height p : Int))).toNat

/-- The local osd_row of single_scanline. -/
def osd_row (p : Platform) (o : Overlay) (mapped_y : Nat) : Bool :=
  OSD_is_enabled o && decide (mapped_y ≥ osd_start_y p) && decide (mapped_y < osd_end_y p)

/-- The local nnn of single_scanline (uint16_t). -/
def osd_nnn (p : Platform) (mapped_y : Nat) : Nat :=
  (to_uint16 (((mapped_y : Int) - (osd_start_y p : Int)) * (p.OSD_WIDTH : Int))).toNat

/-- The variables that the loops of single_scanline change: the first-pixel
slot, the words written after the count field of the raw run, the pointer pbuff
as an index into framebuffer, in_osd and osd_pos. -/
structure ScanVars where
  first_pixel : Nat
  p16 : List Nat
  pbuff : Nat
  in_osd : Bool
  osd_pos : Int

/-- The body of the inner loop of single_scanline, for column x and
sub-pixel i. -/
def scan_sub (p : Platform) (s : Settings) (m : VideoMem) (mapped_y x : Nat)
    (v : ScanVars) (i : Nat) : ScanVars :=
  if x = 0 ∧ i = 0 then
    { v with first_pixel := colors_at p ((m.framebuffer v.pbuff : Int) + s.scheme_offset) }
  else
    let color :=
      if v.in_osd then
        m.osd_framebuffer ((osd_nnn p mapped_y : Int) + v.osd_pos).toNat
      else if s.video_effect = VIDEO_EFFECT_PIXEL_EFFECT ∧ i = 2 then
        s.scanline_color
      else
        colors_at p ((m.framebuffer v.pbuff : Int) + to_uint8 s.scheme_offset)
    { v with p16 := v.p16 ++ [color] }

/-- The body of the outer loop of single_scanline, for column x. -/
def scan_col (p : Platform) (s : Settings) (m : VideoMem) (o : Overlay) (mapped_y : Nat)
    (v : ScanVars) (x : Nat) : ScanVars :=
  let v1 :=
    if osd_row p o mapped_y = true ∧ v.osd_pos ≥ 0 then
      { v with in_osd := decide (x ≥ osd_start_x p) && decide (x < osd_end_x p) }
    else v
  let v2 := (List.range PIXEL_SCALE).foldl (scan_sub p s m mapped_y x) v1
  let v3 := if v2.in_osd then { v2 with osd_pos := v2.osd_pos + 1 } else v2
  { v3 with pbuff := v3.pbuff + 1 }

/-- The loop variables of single_scanline when the outer loop is entered. -/
def scan_init (p : Platform) (mapped_y : Nat) : ScanVars :=
  { first_pixel := RGB888_TO_RGB222 p 0x00 0xFF 0x00 % 65536
    p16 := []
    pbuff := mapped_y * PIXELS_X
    in_osd := false
    osd_pos := 0 }

/-- The outer loop of single_scanline. -/
def scan_loop (p : Platform) (s : Settings) (m : VideoMem) (o : Overlay) (mapped_y : Nat) :
    ScanVars :=
  (List.range PIXELS_X).foldl (scan_col p s m o mapped_y) (scan_init p mapped_y)

/-- The function single_scanline: the 16-bit words it writes, in order.  The
parameter mapped_y is a uint8_t; render_scanline passes a cell of indexes_y. -/
def single_scanline (p : Platform) (s : Settings) (m : VideoMem) (o : Overlay)
    (mapped_y : Nat) : List Nat :=
  let v := scan_loop p s m o mapped_y
  [ -- left border
    p.COMPOSABLE_COLOR_RUN,
    border_colors_at p s.border_color_index,
    BORDER_HORZ - MIN_RUN - 1,
    -- play area
    p.COMPOSABLE_RAW_RUN,
    v.first_pixel,
    PIXELS_X * PIXEL_SCALE - MIN_RUN ]
  ++ v.p16 ++
  [ -- right border
    p.COMPOSABLE_COLOR_RUN,
    border_colors_at p s.border_color_index,
    BORDER_HORZ - MIN_RUN,
    -- black pixel to end line
    p.COMPOSABLE_RAW_1P,
    0,
    p.COMPOSABLE_EOL_ALIGN ]

/-- The value both line functions return, ((uint32_t *) p16) - buf: the number
of whole 32-bit words between the start of the buffer and the write pointer. -/
def words_used (written : List Nat) : Nat := written.length / 2

/-- The fields of the scanline buffer that render_scanline fills. -/
structure ScanlineBuffer where
  data : List Nat
  data_used : Nat

/-- The function render_scanline, for the line number line_num of the
requested scanline. -/
def render_scanline (p : Platform) (s : Settings) (m : VideoMem) (o : Overlay)
    (line_num : Nat) : ScanlineBuffer :=
  if line_num < BORDER_VERT ∨ line_num ≥ PIXELS_Y * PIXEL_SCALE + BORDER_VERT then
    let w := single_solid_line p s (border_colors_at p s.border_color_index)
    { data := w, data_used := words_used w }
  else if (s.video_effect = VIDEO_EFFECT_PIXEL_EFFECT ∨ s.video_effect = VIDEO_EFFECT_SCANLINES)
      ∧ line_num % PIXEL_SCALE = 0 then
    let w := single_solid_line p s s.scanline_color
    { data := w, data_used := words_used w }
  else
    let mapped_y := m.indexes_y (line_num - BORDER_VERT)
    let w := single_scanline p s m o mapped_y
    { data := w, data_used := words_used w }

/-! ## Decoding a composed line -/

/-- Modelled from the spec: the pixel runs that a composed line draws, read
command by command.  COLOR_RUN(color, count) draws count + MIN_RUN pixels of
one colour; RAW_RUN(first, count, pixels...) draws count + MIN_RUN listed
pixels, the first of them given inline before the count; RAW_1P(color) draws
one pixel; EOL_ALIGN ends the line.  The result is none when the words are not
a well-formed line. -/
def decode_runs (p : Platform) : Nat → List Nat → Option (List (List Nat))
  | 0, _ => none
  | _ + 1, [] => none
  | fuel + 1, cmd :: rest =>
    if cmd = p.COMPOSABLE_COLOR_RUN then
      match rest with
      | color :: count :: rest2 =>
        (decode_runs p fuel rest2).map (fun rs => List.replicate (count + MIN_RUN) color :: rs)
      | _ => none
    else if cmd = p.COMPOSABLE_RAW_RUN then
      match rest with
      | first :: count :: rest2 =>
        if count + MIN_RUN - 1 ≤ rest2.length then
          (decode_runs p fuel (rest2.drop (count + MIN_RUN - 1))).map
            (fun rs => (first :: rest2.take (count + MIN_RUN - 1)) :: rs)
        else none
      | _ => none
    else if cmd = p.COMPOSABLE_RAW_1P then
      match rest with
      | color :: rest2 => (decode_runs p fuel rest2).map (fun rs => [color] :: rs)
      | _ => none
    else if cmd = p.COMPOSABLE_EOL_ALIGN then some []
    else none

/-- The pixel runs of a composed line; the number of words bounds the number
of commands. -/
def decode_line (p : Platform) (words : List Nat) : Option (List (List Nat)) :=
  decode_runs p words.length words

/-- The number of pixels a composed line draws. -/
def decoded_width (p : Platform) (words : List Nat) : Option Nat :=
  (decode_line p words).map (fun rs => (rs.map List.length).sum)

/-- The pixel that a textured line shows at game-area column k: pixel k of the
second run (the raw run) of single_scanline. -/
def emitted_pixel (p : Platform) (s : Settings) (m : VideoMem) (o : Overlay)
    (mapped_y k : Nat) : Option Nat :=
  (decode_line p (single_scanline p s m o mapped_y)).bind
    (fun rs => (rs.getD 1 []).get? k)

/-- The command words are pairwise different, so a line can be decoded. -/
def Platform.commands_distinct (p : Platform) : Prop :=
  [p.COMPOSABLE_COLOR_RUN, p.COMPOSABLE_RAW_RUN, p.COMPOSABLE_RAW_1P,
   p.COMPOSABLE_EOL_ALIGN].Nodup

instance (p : Platform) : Decidable p.commands_distinct := by
  unfold Platform.commands_distinct; infer_instance

/-- A sample platform: six colour pins (two bits per channel), command words
0 to 3 and an 8 by 8 overlay. -/
def sample_platform : Platform :=
  { PICO_SCANVIDEO_PIXEL_RSHIFT := 0
    PICO_SCANVIDEO_PIXEL_GSHIFT := 2
    PICO_SCANVIDEO_PIXEL_BSHIFT := 4
    COMPOSABLE_COLOR_RUN := 0
    COMPOSABLE_RAW_RUN := 1
    COMPOSABLE_RAW_1P := 2
    COMPOSABLE_EOL_ALIGN := 3
    OSD_WIDTH := 8
    OSD_HEIGHT := 8 }

/-- A sample memory: every framebuffer and overlay cell holds 0, the
coordinate maps are the ones set_indexes builds. -/
def sample_mem : VideoMem :=
  set_indexes
    { framebuffer := fun _ => 0
      osd_framebuffer := fun _ => 0
      indexes_x := fun _ => 0
      indexes_y := fun _ => 0 }

/-! ## The loops of single_scanline in closed form -/

/-- The value of in_osd while column x is written. -/
def in_overlay (p : Platform) (o : Overlay) (mapped_y x : Nat) : Bool :=
  osd_row p o mapped_y && decide (x ≥ osd_start_x p) && decide (x < osd_end_x p)

/-- The value of osd_pos when column x is entered: the number of earlier
columns inside the overlay. -/
def overlay_pos (p : Platform) (o : Overlay) (mapped_y x : Nat) : Nat :=
  if osd_row p o mapped_y = true then min x (osd_end_x p) - min x (osd_start_x p) else 0

/-- The colour of sub-pixel i of column x, read off the branches of the inner
loop body. -/
def scan_pixel (p : Platform) (s : Settings) (m : VideoMem) (o : Overlay)
    (mapped_y x i : Nat) : Nat :=
  if x = 0 ∧ i = 0 then
    colors_at p ((m.framebuffer (mapped_y * PIXELS_X + x) : Int) + s.scheme_offset)
  else if in_overlay p o mapped_y x = true then
    m.osd_framebuffer ((osd_nnn p mapped_y : Int) + (overlay_pos p o mapped_y x : Int)).toNat
  else if s.video_effect = VIDEO_EFFECT_PIXEL_EFFECT ∧ i = 2 then
    s.scanline_color
  else
    colors_at p ((m.framebuffer (mapped_y * PIXELS_X + x) : Int) + to_uint8 s.scheme_offset)

/-- The loop variables after the first n columns. -/
def scan_after (p : Platform) (s : Settings) (m : VideoMem) (o : Overlay)
    (mapped_y n : Nat) : ScanVars :=
  (List.range n).foldl (scan_col p s m o mapped_y) (scan_init p mapped_y)

/-- The colour of game-area column k of a textured line. -/
def line_pixel (p : Platform) (s : Settings) (m : VideoMem) (o : Overlay)
    (mapped_y k : Nat) : Nat :=
  scan_pixel p s m o mapped_y (k / PIXEL_SCALE) (k % PIXEL_SCALE)

/-- The loop invariant of the outer loop of single_scanline, after n columns. -/
structure ScanInv (p : Platform) (s : Settings) (m : VideoMem) (o : Overlay)
    (y n : Nat) (v : ScanVars) : Prop where
  pbuff_eq : v.pbuff = y * PIXELS_X + n
  osd_pos_eq : v.osd_pos = (overlay_pos p o y n : Int)
  in_osd_off : osd_row p o y = false → v.in_osd = false
  p16_eq : v.p16 = (List.range (PIXEL_SCALE * n - 1)).map (fun j => line_pixel p s m o y (j + 1))
  first_eq : 0 < n → v.first_pixel = line_pixel p s m o y 0

/-- The centred overlay rectangle as the specification states it, for source
row y and source column x: start_x = (PIXELS_X - OSD width)/2 and
start_y = (PIXELS_Y - OSD height)/2. -/
def centred_rect (p : Platform) (y x : Nat) : Prop :=
  (PIXELS_Y - p.OSD_HEIGHT) / 2 ≤ y ∧ y < (PIXELS_Y - p.OSD_HEIGHT) / 2 + p.OSD_HEIGHT
    ∧ (PIXELS_X - p.OSD_WIDTH) / 2 ≤ x ∧ x < (PIXELS_X - p.OSD_WIDTH) / 2 + p.OSD_WIDTH

instance (p : Platform) (y x : Nat) : Decidable (centred_rect p y x) := by
  unfold centred_rect; infer_instance

/-! ## Buttons, the controller and the command dispatcher -/

def BUTTON_A : Nat := 0
def BUTTON_B : Nat := 1
def BUTTON_SELECT : Nat := 2
def BUTTON_START : Nat := 3
def BUTTON_UP : Nat := 4
def BUTTON_DOWN : Nat := 5
def BUTTON_LEFT : Nat := 6
def BUTTON_RIGHT : Nat := 7
def BUTTON_HOME : Nat := 8
def BUTTON_COUNT : Nat := 9

def OSD_LINE_COLOR_SCHEME : Int := 0
def OSD_LINE_BORDER_COLOR : Int := 1
def OSD_LINE_EFFECTS : Int := 2
def OSD_LINE_FX_SCHEME : Int := 3
def OSD_LINE_RESET_GAMEBOY : Int := 4
def OSD_LINE_EXIT : Int := 5
def OSD_LINE_COUNT : Int := 6

def ONBOARD_LED_PIN : Nat := 25
def BUTTONS_DPAD_PIN : Nat := 19
def BUTTONS_OTHER_PIN : Nat := 20
def BUTTONS_LEFT_B_PIN : Nat := 26
def BUTTONS_DOWN_START_PIN : Nat := 21
def BUTTONS_UP_SELECT_PIN : Nat := 22
def BUTTONS_RIGHT_A_PIN : Nat := 27
def GAMEBOY_RESET_PIN : Nat := 28

/-- A call that leaves gb_vga.c: gpio_put (its value parameter is a bool),
sleep_ms, the two blocking bus transfers, the overlay calls OSD_toggle and
OSD_change_line, and update_osd, which rewrites the six overlay text lines and
refreshes the overlay buffer. -/
inductive Effect where
  | gpio_put (pin : Nat) (value : Bool)
  | sleep_ms (ms : Nat)
  | i2c_write (bytes : List Nat)
  | i2c_read (len : Nat)
  | OSD_toggle
  | OSD_change_line (direction : Int)
  | update_osd
  deriving DecidableEq

/-- The state of the main-loop side: the settings, the overlay, the two button
state vectors, and the statics last_micros, initialized and i2c_buffer of
nes_classic_controller.  A button state is 0 for pressed and 1 for released. -/
structure Console where
  settings : Settings
  overlay : Overlay
  button_states : Nat → Nat
  button_states_previous : Nat → Nat
  last_micros : Nat
  initialized : Bool
  i2c_buffer : Nat → Nat

/-- Modelled from the spec: OSD_toggle() of the overlay module, which switches
the overlay between enabled and disabled. -/
def OSD_toggle (o : Overlay) : Overlay := { o with enabled := !o.enabled }

/-- Modelled from the spec: OSD_get_active_line() of the overlay module. -/
def OSD_get_active_line (o : Overlay) : Int := o.active_line

/-- The conversion of an integer to bool, as for the value parameter of
gpio_put. -/
def to_bool (v : Nat) : Bool := decide (v ≠ 0)

/-- The function button_is_pressed. -/
def button_is_pressed (c : Console) (button : Nat) : Bool :=
  decide (c.button_states button = 0)

/-- The function button_was_released. -/
def button_was_released (c : Console) (button : Nat) : Bool :=
  decide (c.button_states button = 1) && decide (c.button_states_previous button = 0)

/-- The function gameboy_reset: the calls it makes. -/
def gameboy_reset : List Effect :=
  [Effect.gpio_put GAMEBOY_RESET_PIN false, Effect.sleep_ms 50,
   Effect.gpio_put GAMEBOY_RESET_PIN true]

/-- The switch of command_check on the active overlay line, for the step
leftbtn ? -1 : 1. -/
def command_line_action (p : Platform) (c : Console) (leftbtn : Bool) :
    Console × List Effect :=
  let step : Int := if leftbtn then -1 else 1
  let line := OSD_get_active_line c.overlay
  if line = OSD_LINE_COLOR_SCHEME then
    ({ c with settings := change_scheme_offset p c.settings step }, [Effect.update_osd])
  else if line = OSD_LINE_BORDER_COLOR then
    ({ c with settings := change_border_color_index p c.settings step }, [Effect.update_osd])
  else if line = OSD_LINE_EFFECTS then
    ({ c with settings := change_video_effect c.settings step }, [Effect.update_osd])
  else if line = OSD_LINE_FX_SCHEME then
    ({ c with settings := change_scanline_color p c.settings step }, [Effect.update_osd])
  else if line = OSD_LINE_RESET_GAMEBOY then
    (c, gameboy_reset)
  else if line = OSD_LINE_EXIT then
    ({ c with overlay := OSD_toggle c.overlay }, [Effect.OSD_toggle])
  else
    (c, [])

/-- The dispatch of command_check, before the button states are copied.  The
cursor rule of OSD_change_line belongs to the overlay module and is the
parameter change_line. -/
def command_dispatch (p : Platform) (change_line : Overlay → Int → Overlay) (c : Console) :
    Console × List Effect :=
  if button_was_released c BUTTON_HOME then
    ({ c with overlay := OSD_toggle c.overlay }, [Effect.OSD_toggle])
  else if OSD_is_enabled c.overlay then
    if button_was_released c BUTTON_DOWN then
      ({ c with overlay := change_line c.overlay 1 }, [Effect.OSD_change_line 1])
    else if button_was_released c BUTTON_UP then
      ({ c with overlay := change_line c.overlay (-1) }, [Effect.OSD_change_line (-1)])
    else if button_was_released c BUTTON_RIGHT || button_was_released c BUTTON_LEFT
        || button_was_released c BUTTON_A then
      command_line_action p c (button_was_released c BUTTON_LEFT)
    else (c, [])
  else (c, [])

/-- The body of the last loop of command_check. -/
def copy_button_state (c : Console) (i : Nat) : Console :=
  { c with button_states_previous :=
      Function.update c.button_states_previous i (c.button_states i) }

/-- The function command_check: the state it leaves and the calls it makes. -/
def command_check (p : Platform) (change_line : Overlay → Int → Overlay) (c : Console) :
    Console × List Effect :=
  let r := command_dispatch p change_line c
  ((List.range BUTTON_COUNT).foldl copy_button_state r.1, r.2)

/-- The four gpio_put calls that drive the button-matrix output lines. -/
def put_matrix (right_a left_b up_select down_start : Bool) : List Effect :=
  [Effect.gpio_put BUTTONS_RIGHT_A_PIN right_a,
   Effect.gpio_put BUTTONS_LEFT_B_PIN left_b,
   Effect.gpio_put BUTTONS_UP_SELECT_PIN up_select,
   Effect.gpio_put BUTTONS_DOWN_START_PIN down_start]

/-- The function gpio_callback: the state it leaves and the gpio_put calls it
makes, in order. -/
def gpio_callback (c : Console) (gpio events : Nat) : Console × List Effect :=
  if OSD_is_enabled c.overlay then (c, [])
  else
    let r1 : Console × List Effect :=
      if gpio = BUTTONS_DPAD_PIN then
        let fall : List Effect :=
          if events &&& (1 <<< 2) ≠ 0 then
            put_matrix (to_bool (c.button_states BUTTON_RIGHT))
              (to_bool (c.button_states BUTTON_LEFT))
              (to_bool (c.button_states BUTTON_UP))
              (to_bool (c.button_states BUTTON_DOWN))
          else []
        if events &&& (1 <<< 3) ≠ 0 then
          let rise : List Effect :=
            put_matrix (to_bool (c.button_states BUTTON_A))
              (to_bool (c.button_states BUTTON_B))
              (to_bool (c.button_states BUTTON_SELECT))
              (to_bool (c.button_states BUTTON_START))
          let c2 : Console :=
            if (c.button_states BUTTON_A ||| c.button_states BUTTON_B
                ||| c.button_states BUTTON_SELECT ||| c.button_states BUTTON_START) = 0 then
              { c with button_states :=
                  Function.update (Function.update (Function.update
                    (Function.update c.button_states BUTTON_A 1) BUTTON_B 1)
                    BUTTON_SELECT 1) BUTTON_START 1 }
            else c
          (c2, fall ++ rise)
        else (c, fall)
      else (c, [])
    let high : List Effect :=
      if gpio = BUTTONS_OTHER_PIN ∧ events &&& (1 <<< 3) ≠ 0 then
        put_matrix true true true true
      else []
    (r1.1, r1.2 ++ high)

/-- What one call of nes_classic_controller reads from outside: time_us_32()
at entry, the result of i2c_read_blocking and the eight bytes the read leaves
in i2c_buffer, and time_us_32() when it is read a second time. -/
structure PollInput where
  current_micros : Nat
  ret : Int
  data : Nat → Nat
  later_micros : Nat

/-- The expression (~byte & (1 << bit)) > 0 ? 0 : 1 on a uint8_t byte. -/
def report_state (byte bit : Nat) : Nat :=
  if Int.land (Int.not (byte : Int)) ((1 <<< bit : Nat) : Int) > 0 then 0 else 1

/-- The body of the byte loop of nes_classic_controller: the flag valid and the
button states after byte i. -/
def controller_byte (buf : Nat → Nat) (st : Bool × (Nat → Nat)) (i : Nat) :
    Bool × (Nat → Nat) :=
  let valid := if i < 4 ∧ buf i ≠ 0xFF then true else st.1
  if valid then
    if i = 4 then
      let b1 := Function.update st.2 BUTTON_START (report_state (buf i) 2)
      let b2 := Function.update b1 BUTTON_SELECT (report_state (buf i) 4)
      let b3 := Function.update b2 BUTTON_DOWN (report_state (buf i) 6)
      let b4 := Function.update b3 BUTTON_RIGHT (report_state (buf i) 7)
      (valid, Function.update b4 BUTTON_HOME (report_state (buf i) 3))
    else if i = 5 then
      let b1 := Function.update st.2 BUTTON_UP (report_state (buf i) 0)
      let b2 := Function.update b1 BUTTON_LEFT (report_state (buf i) 1)
      let b3 := Function.update b2 BUTTON_A (report_state (buf i) 4)
      (valid, Function.update b3 BUTTON_B (report_state (buf i) 6))
    else (valid, st.2)
  else (valid, st.2)

/-- The last loop of nes_classic_controller: whether a button is down. -/
def any_button_down (states : Nat → Nat) : Bool :=
  (List.range BUTTON_COUNT).foldl (fun down i => if states i = 0 then true else down) false

/-- A poll is rejected when less than 20000 microseconds (in 32-bit unsigned
arithmetic) have passed since last_micros. -/
def poll_rejected (c : Console) (inp : PollInput) : Bool :=
  decide (to_uint32 ((inp.current_micros : Int) - (c.last_micros : Int)) < 20000)

/-- The initialization sequence of nes_classic_controller: the calls it
makes. -/
def controller_init_sequence : List Effect :=
  [Effect.sleep_ms 2000, Effect.i2c_write [0xF0, 0x55], Effect.sleep_ms 10,
   Effect.i2c_write [0xFB, 0x00], Effect.sleep_ms 20]

/-- The function nes_classic_controller: the state it leaves and the calls it
makes. -/
def nes_classic_controller (c : Console) (inp : PollInput) : Console × List Effect :=
  if poll_rejected c inp then (c, [])
  else
    let init : List Effect := if c.initialized then [] else controller_init_sequence
    let buf0 : Nat → Nat :=
      if c.initialized then c.i2c_buffer
      else Function.update (Function.update c.i2c_buffer 0 0xFB) 1 0x00
    let buf1 : Nat → Nat := fun i => if i < 8 then inp.data i else buf0 i
    let calls : List Effect :=
      init ++ [Effect.i2c_write [0x00], Effect.sleep_ms 1, Effect.i2c_read 8]
    if inp.ret < 0 then
      ({ c with initialized := true, last_micros := inp.later_micros, i2c_buffer := buf1 },
        calls)
    else
      let r := (List.range 8).foldl (controller_byte buf1) (false, c.button_states)
      let c1 : Console :=
        { c with initialized := true, last_micros := inp.current_micros, i2c_buffer := buf1,
                 button_states := r.2 }
      if r.1 then
        (c1, calls ++ [Effect.gpio_put ONBOARD_LED_PIN (any_button_down r.2)])
      else
        ({ c1 with initialized := false, last_micros := inp.later_micros },
          calls ++ [Effect.sleep_ms 1000,
            Effect.gpio_put ONBOARD_LED_PIN (any_button_down r.2)])

/-! ## Signal acquisition -/

/-- The signals one call of video_stuff samples: the frame-sync level read at
the end of each row and the two data lines read for each pixel of each row. -/
structure VideoSignal where
  vsync_after_row : Nat → Bool
  data_0 : Nat → Nat → Bool
  data_1 : Nat → Nat → Bool

/-- The value (gpio_get(DATA_0_PIN) << 1) + gpio_get(DATA_1_PIN) for pixel x of
row y. -/
def sample (sig : VideoSignal) (y x : Nat) : Nat :=
  ((sig.data_0 y x).toNat <<< 1) + (sig.data_1 y x).toNat

/-- The variables of video_stuff: the framebuffer, the pointer p as an index
into it, the flag vsync_reset and the number of rows captured. -/
structure Capture where
  framebuffer : Nat → Nat
  p : Nat
  vsync_reset : Bool
  rows : Nat

/-- The store *p++ = sample of video_stuff, for pixel x of row y. -/
def capture_pixel (sig : VideoSignal) (y : Nat) (k : Capture) (x : Nat) : Capture :=
  { k with framebuffer := Function.update k.framebuffer k.p (sample sig y x % 256)
           p := k.p + 1 }

/-- The pixels of row y: the first one after the line-sync pulse, the other
PIXELS_X - 1 after one pixel-clock pulse each. -/
def capture_row (sig : VideoSignal) (y : Nat) (k : Capture) : Capture :=
  (List.range (PIXELS_X - 1)).foldl (fun k x => capture_pixel sig y k (x + 1))
    (capture_pixel sig y k 0)

/-- The row loop of video_stuff from row y on, with n rows left; it ends early
at the break. -/
def capture_rows (sig : VideoSignal) : Nat → Nat → Capture → Capture
  | _, 0, k => k
  | y, n + 1, k =>
    let k1 := capture_row sig y k
    let vsync := sig.vsync_after_row y
    let k2 : Capture :=
      { k1 with vsync_reset := if !vsync then true else k1.vsync_reset, rows := y + 1 }
    if vsync && k2.vsync_reset then k2 else capture_rows sig (y + 1) n k2

/-- The function video_stuff, once the frame-sync line is active. -/
def video_stuff (sig : VideoSignal) (framebuffer : Nat → Nat) : Capture :=
  capture_rows sig 0 PIXELS_Y
    { framebuffer := framebuffer, p := 0, vsync_reset := false, rows := 0 }

/-- A sample main-loop state: the boot settings, the overlay disabled, every
button released, the controller not yet initialized. -/
def sample_console : Console :=
  { settings := boot sample_platform
    overlay := { enabled := false }
    button_states := fun _ => 1
    button_states_previous := fun _ => 1
    last_micros := 0
    initialized := false
    i2c_buffer := fun _ => 0 }

/-- A sample cursor rule for OSD_change_line: the cursor wraps around the
OSD_LINE_COUNT lines. -/
def sample_change_line (o : Overlay) (direction : Int) : Overlay :=
  { o with active_line := (o.active_line + direction) % OSD_LINE_COUNT }

/-- The row after which a call of video_stuff stops, as the specification states
it: the frame-sync level is active at the end of row y and was inactive at the
end of an earlier row of the call. -/
def stop_row (sig : VideoSignal) (y : Nat) : Prop :=
  sig.vsync_after_row y = true ∧ ∃ z, z < y ∧ sig.vsync_after_row z = false

/-- A sample signal: frame-sync is inactive at the end of row 3 only, DATA_0 is
high and DATA_1 low throughout. -/
def sample_signal : VideoSignal :=
  { vsync_after_row := fun y => y != 3
    data_0 := fun _ _ => true
    data_1 := fun _ _ => false }

/-- The value of bit number bit of a report byte. -/
def report_bit (byte bit : Nat) : Nat := byte / 2 ^ bit % 2

/-! ## Lemmas on the loops of single_scanline -/

theorem scan_after_succ (p : Platform) (s : Settings) (m : VideoMem) (o : Overlay)
    (y n : Nat) :
    scan_after p s m o y (n + 1) = scan_col p s m o y (scan_after p s m o y n) n := by
  simp [scan_after, List.range_succ, List.foldl_append]

theorem overlay_pos_succ (p : Platform) (o : Overlay) (y x : Nat) :
    overlay_pos p o y (x + 1)
      = if in_overlay p o y x = true then overlay_pos p o y x + 1 else overlay_pos p o y x := by
  unfold overlay_pos in_overlay
  cases h : osd_row p o y <;> simp
  split <;> omega

/-- The inner loop at a column other than the first appends three pixels. -/
theorem scan_sub_fold_pos (p : Platform) (s : Settings) (m : VideoMem) (o : Overlay)
    (y x : Nat) (v : ScanVars) (hx : x ≠ 0) (hb : v.pbuff = y * PIXELS_X + x)
    (hi : v.in_osd = in_overlay p o y x) (hp : v.osd_pos = (overlay_pos p o y x : Int)) :
    (List.range PIXEL_SCALE).foldl (scan_sub p s m y x) v
      = { v with p16 := v.p16 ++ [scan_pixel p s m o y x 0, scan_pixel p s m o y x 1,
                                  scan_pixel p s m o y x 2] } := by
  have hr : List.range PIXEL_SCALE = [0, 1, 2] := by decide
  rw [hr]
  simp [scan_sub, scan_pixel, hx, hb, hi, hp]

/-- The inner loop at the first column fills the first-pixel slot and appends
two pixels. -/
theorem scan_sub_fold_zero (p : Platform) (s : Settings) (m : VideoMem) (o : Overlay)
    (y : Nat) (v : ScanVars) (hb : v.pbuff = y * PIXELS_X + 0)
    (hi : v.in_osd = in_overlay p o y 0) (hp : v.osd_pos = (overlay_pos p o y 0 : Int)) :
    (List.range PIXEL_SCALE).foldl (scan_sub p s m y 0) v
      = { v with first_pixel := scan_pixel p s m o y 0 0
                 p16 := v.p16 ++ [scan_pixel p s m o y 0 1, scan_pixel p s m o y 0 2] } := by
  have hr : List.range PIXEL_SCALE = [0, 1, 2] := by decide
  rw [hr]
  simp [scan_sub, scan_pixel, hb, hi, hp]

theorem scan_init_inv (p : Platform) (s : Settings) (m : VideoMem) (o : Overlay) (y : Nat) :
    ScanInv p s m o y 0 (scan_init p y) := by
  constructor <;> simp [scan_init, overlay_pos, PIXEL_SCALE]

theorem scan_col_inv (p : Platform) (s : Settings) (m : VideoMem) (o : Overlay)
    (y n : Nat) (v : ScanVars) (h : ScanInv p s m o y n v) :
    ScanInv p s m o y (n + 1) (scan_col p s m o y v n) := by
  obtain ⟨hb, hp, hi, h16, hf⟩ := h
  have hpos : v.osd_pos ≥ 0 := by rw [hp]; exact Int.ofNat_nonneg _
  have hv1 : (if osd_row p o y = true ∧ v.osd_pos ≥ 0 then
        { v with in_osd := decide (n ≥ osd_start_x p) && decide (n < osd_end_x p) }
      else v) = { v with in_osd := in_overlay p o y n } := by
    cases hr : osd_row p o y
    · have := hi hr
      cases v
      simp_all [in_overlay]
    · simp [in_overlay, hr, hpos]
  unfold scan_col
  simp only [hv1]
  rcases Nat.eq_zero_or_pos n with hn | hn
  · subst hn
    rw [scan_sub_fold_zero p s m o y { v with in_osd := in_overlay p o y 0 } hb rfl hp]
    have hs := overlay_pos_succ p o y 0
    have hoff : osd_row p o y = false → in_overlay p o y 0 = false := by
      intro hr; simp [in_overlay, hr]
    cases hio : in_overlay p o y 0
    all_goals
      simp only [hio, if_true, if_false, Bool.false_eq_true] at hs hoff ⊢
      constructor
      · simp [hb]
      · simp [hs, hp]
      · first | exact hoff | simp
      · simp [h16, PIXEL_SCALE, line_pixel, List.range_succ]
      · intro _; simp [line_pixel, PIXEL_SCALE]
  · rw [scan_sub_fold_pos p s m o y n { v with in_osd := in_overlay p o y n } (by omega) hb rfl hp]
    have hs := overlay_pos_succ p o y n
    have hoff : osd_row p o y = false → in_overlay p o y n = false := by
      intro hr; simp [in_overlay, hr]
    have e : PIXEL_SCALE * (n + 1) - 1 = (PIXEL_SCALE * n - 1) + 1 + 1 + 1 := by
      simp [PIXEL_SCALE]; omega
    have e0 : (PIXEL_SCALE * n - 1 + 1) / PIXEL_SCALE = n := by simp [PIXEL_SCALE]; omega
    have e0m : (PIXEL_SCALE * n - 1 + 1) % PIXEL_SCALE = 0 := by simp [PIXEL_SCALE]; omega
    have e1 : (PIXEL_SCALE * n - 1 + 1 + 1) / PIXEL_SCALE = n := by simp [PIXEL_SCALE]; omega
    have e1m : (PIXEL_SCALE * n - 1 + 1 + 1) % PIXEL_SCALE = 1 := by simp [PIXEL_SCALE]; omega
    have e2 : (PIXEL_SCALE * n - 1 + 1 + 1 + 1) / PIXEL_SCALE = n := by simp [PIXEL_SCALE]; omega
    have e2m : (PIXEL_SCALE * n - 1 + 1 + 1 + 1) % PIXEL_SCALE = 2 := by
      simp [PIXEL_SCALE]; omega
    cases hio : in_overlay p o y n
    all_goals
      simp only [hio, if_true, if_false, Bool.false_eq_true] at hs hoff ⊢
      constructor
      · simp [hb]; omega
      · simp [hs, hp]
      · first | exact hoff | simp
      · rw [e]
        simp [List.range_succ, h16, line_pixel, e0, e0m, e1, e1m, e2, e2m]
      · intro _; simpa using hf hn

theorem scan_after_inv (p : Platform) (s : Settings) (m : VideoMem) (o : Overlay) (y n : Nat) :
    ScanInv p s m o y n (scan_after p s m o y n) := by
  induction n with
  | zero => exact scan_init_inv p s m o y
  | succ k ih =>
    rw [scan_after_succ]
    exact scan_col_inv p s m o y k _ ih

/-- The first-pixel slot after the loops of single_scanline. -/
theorem scan_loop_first (p : Platform) (s : Settings) (m : VideoMem) (o : Overlay) (y : Nat) :
    (scan_loop p s m o y).first_pixel = line_pixel p s m o y 0 :=
  (scan_after_inv p s m o y PIXELS_X).first_eq (by decide)

/-- The words appended after the count field by the loops of single_scanline. -/
theorem scan_loop_p16 (p : Platform) (s : Settings) (m : VideoMem) (o : Overlay) (y : Nat) :
    (scan_loop p s m o y).p16
      = (List.range (PIXELS_X * PIXEL_SCALE - 1)).map (fun j => line_pixel p s m o y (j + 1)) := by
  have h := (scan_after_inv p s m o y PIXELS_X).p16_eq
  rw [Nat.mul_comm PIXEL_SCALE PIXELS_X] at h
  exact h

/-! ## Decoding the two kinds of line -/

theorem distinct_raw_run {p : Platform} (h : p.commands_distinct) :
    p.COMPOSABLE_RAW_RUN ≠ p.COMPOSABLE_COLOR_RUN := by
  simp [Platform.commands_distinct] at h
  omega

theorem distinct_raw_1p {p : Platform} (h : p.commands_distinct) :
    p.COMPOSABLE_RAW_1P ≠ p.COMPOSABLE_COLOR_RUN ∧ p.COMPOSABLE_RAW_1P ≠ p.COMPOSABLE_RAW_RUN := by
  simp [Platform.commands_distinct] at h
  omega

theorem distinct_eol {p : Platform} (h : p.commands_distinct) :
    p.COMPOSABLE_EOL_ALIGN ≠ p.COMPOSABLE_COLOR_RUN
      ∧ p.COMPOSABLE_EOL_ALIGN ≠ p.COMPOSABLE_RAW_RUN
      ∧ p.COMPOSABLE_EOL_ALIGN ≠ p.COMPOSABLE_RAW_1P := by
  simp [Platform.commands_distinct] at h
  omega

theorem decode_runs_color_run (p : Platform) (f color count : Nat) (rest : List Nat) :
    decode_runs p (f + 1) (p.COMPOSABLE_COLOR_RUN :: color :: count :: rest)
      = (decode_runs p f rest).map
          (fun rs => List.replicate (count + MIN_RUN) color :: rs) := by
  simp [decode_runs]

theorem decode_runs_raw_run {p : Platform} (h : p.commands_distinct) (f first count : Nat)
    (px rest : List Nat) (hlen : px.length = count + MIN_RUN - 1) :
    decode_runs p (f + 1) (p.COMPOSABLE_RAW_RUN :: first :: count :: (px ++ rest))
      = (decode_runs p f rest).map (fun rs => (first :: px) :: rs) := by
  have h1 := distinct_raw_run h
  simp only [decode_runs, h1, if_false, if_true]
  rw [if_pos (by simp [hlen]), ← hlen, List.drop_left, List.take_left]

theorem decode_runs_tail {p : Platform} (h : p.commands_distinct) (f color : Nat) :
    decode_runs p (f + 2) [p.COMPOSABLE_RAW_1P, color, p.COMPOSABLE_EOL_ALIGN]
      = some [[color]] := by
  obtain ⟨h1, h2⟩ := distinct_raw_1p h
  obtain ⟨h3, h4, h5⟩ := distinct_eol h
  simp [decode_runs, h1, h2, h3, h4, h5]

/-- The pixel runs of a solid line. -/
theorem decode_single_solid_line {p : Platform} (h : p.commands_distinct) (s : Settings)
    (color : Nat) :
    decode_line p (single_solid_line p s color)
      = some [List.replicate (BORDER_HORZ - 1) (border_colors_at p s.border_color_index),
              List.replicate (PIXELS_X * PIXEL_SCALE) color,
              List.replicate BORDER_HORZ (border_colors_at p s.border_color_index),
              [0]] := by
  have hl : (single_solid_line p s color).length = 7 + 1 + 1 + 1 + 1 + 1 := rfl
  unfold decode_line
  rw [hl]
  unfold single_solid_line
  rw [decode_runs_color_run, decode_runs_color_run, decode_runs_color_run,
    decode_runs_tail h]
  rfl

/-- The number of words of a textured line. -/
theorem single_scanline_length (p : Platform) (s : Settings) (m : VideoMem) (o : Overlay)
    (y : Nat) : (single_scanline p s m o y).length = 491 := by
  simp [single_scanline, scan_loop_p16, PIXELS_X, PIXEL_SCALE]

/-- The pixel runs of a textured line. -/
theorem decode_single_scanline {p : Platform} (h : p.commands_distinct) (s : Settings)
    (m : VideoMem) (o : Overlay) (y : Nat) :
    decode_line p (single_scanline p s m o y)
      = some [List.replicate (BORDER_HORZ - 1) (border_colors_at p s.border_color_index),
              (List.range (PIXELS_X * PIXEL_SCALE)).map (line_pixel p s m o y),
              List.replicate BORDER_HORZ (border_colors_at p s.border_color_index),
              [0]] := by
  have hl : (single_scanline p s m o y).length = 486 + 1 + 1 + 1 + 1 + 1 :=
    single_scanline_length p s m o y
  have hp16 : (scan_loop p s m o y).p16.length
      = (PIXELS_X * PIXEL_SCALE - MIN_RUN) + MIN_RUN - 1 := by
    simp [scan_loop_p16, PIXELS_X, PIXEL_SCALE, MIN_RUN]
  have hgame : (scan_loop p s m o y).first_pixel :: (scan_loop p s m o y).p16
      = (List.range (PIXELS_X * PIXEL_SCALE)).map (line_pixel p s m o y) := by
    have e : PIXELS_X * PIXEL_SCALE = (PIXELS_X * PIXEL_SCALE - 1) + 1 := by decide
    rw [scan_loop_first, scan_loop_p16]
    conv_rhs => rw [e, List.range_succ_eq_map]
    simp [List.map_map, Function.comp_def]
  unfold decode_line
  rw [hl]
  unfold single_scanline
  simp only [List.cons_append, List.nil_append, List.append_assoc]
  rw [decode_runs_color_run, decode_runs_raw_run h _ _ _ _ _ hp16, decode_runs_color_run,
    decode_runs_tail h, hgame]
  rfl

/-! ## The coordinate maps in closed form -/

theorem colors_length (p : Platform) : (colors p).length = 148 := rfl

theorem border_colors_length (p : Platform) : (border_colors p).length = 9 := rfl

/-- The table an outer loop of set_indexes has built after k iterations. -/
theorem set_index_fold (t : Nat → Nat) (k : Nat) (hk : k ≤ 256) :
    ((List.range k).foldl set_index_outer (t, 0)).2 = PIXEL_SCALE * k
      ∧ ∀ n, ((List.range k).foldl set_index_outer (t, 0)).1 n
          = if n < PIXEL_SCALE * k then n / PIXEL_SCALE else t n := by
  induction k with
  | zero => simp
  | succ j ih =>
    obtain ⟨h2, h1⟩ := ih (by omega)
    have hr : List.range PIXEL_SCALE = [0, 1, 2] := by decide
    rw [List.range_succ, List.foldl_append]
    simp only [List.foldl_cons, List.foldl_nil, set_index_outer, hr, set_index_store, h2]
    simp only [PIXEL_SCALE] at h1 ⊢
    constructor
    · omega
    · intro n
      have e0 : (3 * j) % 65536 = 3 * j := by omega
      have e1 : (3 * j + 1) % 65536 = 3 * j + 1 := by omega
      have ej : j % 256 = j := by omega
      simp only [Function.update_apply, h1, e1, ej]
      split_ifs <;> omega

/-- The vertical coordinate map that set_indexes builds. -/
theorem set_indexes_y (m : VideoMem) (n : Nat) (hn : n < PIXELS_Y * PIXEL_SCALE) :
    (set_indexes m).indexes_y n = n / PIXEL_SCALE := by
  have h := (set_index_fold m.indexes_y PIXELS_Y (by decide)).2 n
  have hn2 : n < PIXEL_SCALE * PIXELS_Y := by rw [Nat.mul_comm]; exact hn
  simpa [set_indexes, hn2] using h


/-! ## Pixels of a textured line -/

/-- The pixel a textured line shows at a game-area column, in closed form. -/
theorem emitted_pixel_eq {p : Platform} (h : p.commands_distinct) (s : Settings)
    (m : VideoMem) (o : Overlay) (y k : Nat) (hk : k < PIXELS_X * PIXEL_SCALE) :
    emitted_pixel p s m o y k = some (line_pixel p s m o y k) := by
  simp [emitted_pixel, decode_single_scanline h, List.getElem?_range hk]

/-- A textured line shows no game-area pixel beyond the last column. -/
theorem emitted_pixel_none {p : Platform} (h : p.commands_distinct) (s : Settings)
    (m : VideoMem) (o : Overlay) (y k : Nat) (hk : PIXELS_X * PIXEL_SCALE ≤ k) :
    emitted_pixel p s m o y k = none := by
  simp [emitted_pixel, decode_single_scanline h, hk]

theorem to_uint8_of_range (v : Int) (h0 : 0 ≤ v) (h1 : v < 256) : to_uint8 v = v := by
  unfold to_uint8; omega

theorem in_overlay_disabled (p : Platform) (o : Overlay) (y x : Nat) (h : o.enabled = false) :
    in_overlay p o y x = false := by
  simp [in_overlay, osd_row, OSD_is_enabled, h]

/-! ## Properties of the compositor -/

/-- C1: for every line number and every settings, framebuffer and overlay state,
the line that render_scanline composes decodes to exactly
2*BORDER_HORZ + PIXELS_X*PIXEL_SCALE = 640 pixels, a COLOR_RUN or RAW_RUN
counting for its count field plus MIN_RUN pixels and a RAW_1P for one; the
solid line and the textured line both have that width. -/
theorem render_scanline_width (p : Platform) (h : p.commands_distinct) (s : Settings)
    (m : VideoMem) (o : Overlay) (line_num : Nat) :
    decoded_width p (render_scanline p s m o line_num).data
        = some (2 * BORDER_HORZ + PIXELS_X * PIXEL_SCALE)
      ∧ 2 * BORDER_HORZ + PIXELS_X * PIXEL_SCALE = 640
      ∧ (∀ color, decoded_width p (single_solid_line p s color) = some 640)
      ∧ (∀ y, decoded_width p (single_scanline p s m o y) = some 640) := by
  have hsolid : ∀ color, decoded_width p (single_solid_line p s color) = some 640 := by
    intro color
    simp only [decoded_width, decode_single_solid_line h, Option.map_some', List.map_cons,
      List.map_nil, List.length_replicate, List.sum_cons, List.sum_nil, List.length_cons,
      List.length_nil]
    rfl
  have htex : ∀ y, decoded_width p (single_scanline p s m o y) = some 640 := by
    intro y
    simp only [decoded_width, decode_single_scanline h, Option.map_some', List.map_cons,
      List.map_nil, List.length_replicate, List.length_map, List.length_range, List.sum_cons,
      List.sum_nil, List.length_cons, List.length_nil]
    rfl
  refine ⟨?_, by decide, hsolid, htex⟩
  have e : 2 * BORDER_HORZ + PIXELS_X * PIXEL_SCALE = 640 := by decide
  rw [e]
  unfold render_scanline
  split_ifs
  · exact hsolid _
  · exact hsolid _
  · exact htex _

/-- Witness of C1: active-window line 100 of the boot settings on the sample
platform. -/
theorem render_scanline_width_witness :
    decoded_width sample_platform
      (render_scanline sample_platform (boot sample_platform) sample_mem
        { enabled := true } 100).data = some 640 :=
  (render_scanline_width sample_platform (by decide) (boot sample_platform) sample_mem
    { enabled := true } 100).1

/-- Counterexample to C2 as stated: the count field of the left border run is
76 in a solid line and in a textured line, not BORDER_HORZ - MIN_RUN = 77. -/
theorem left_border_count_counterexample :
    (single_solid_line sample_platform (boot sample_platform) 0)[2]? = some 76
      ∧ (single_scanline sample_platform (boot sample_platform) sample_mem
          { enabled := false } 0)[2]? = some 76
      ∧ (76 : Nat) ≠ BORDER_HORZ - MIN_RUN := by
  refine ⟨by decide, ?_, by decide⟩
  simp [single_scanline, BORDER_HORZ, MIN_RUN]

/-- C2 (amended): in every line written by single_solid_line and by
single_scanline the count field of a run is the number of pixels of the run
minus MIN_RUN; the fields are BORDER_HORZ - MIN_RUN - 1 = 76 for the left border
run (79 pixels), PIXELS_X*PIXEL_SCALE - MIN_RUN = 477 for the centre run
(480 pixels) and BORDER_HORZ - MIN_RUN = 77 for the right border run
(80 pixels). -/
theorem run_count_fields (p : Platform) (s : Settings) (m : VideoMem) (o : Overlay)
    (y color : Nat) :
    single_solid_line p s color
        = [p.COMPOSABLE_COLOR_RUN, border_colors_at p s.border_color_index,
            BORDER_HORZ - MIN_RUN - 1]
          ++ [p.COMPOSABLE_COLOR_RUN, color, PIXELS_X * PIXEL_SCALE - MIN_RUN]
          ++ [p.COMPOSABLE_COLOR_RUN, border_colors_at p s.border_color_index,
               BORDER_HORZ - MIN_RUN]
          ++ [p.COMPOSABLE_RAW_1P, 0, p.COMPOSABLE_EOL_ALIGN]
      ∧ (∃ first pixels, pixels.length = PIXELS_X * PIXEL_SCALE - 1
          ∧ single_scanline p s m o y
            = [p.COMPOSABLE_COLOR_RUN, border_colors_at p s.border_color_index,
                BORDER_HORZ - MIN_RUN - 1]
              ++ [p.COMPOSABLE_RAW_RUN, first, PIXELS_X * PIXEL_SCALE - MIN_RUN]
              ++ pixels
              ++ [p.COMPOSABLE_COLOR_RUN, border_colors_at p s.border_color_index,
                   BORDER_HORZ - MIN_RUN]
              ++ [p.COMPOSABLE_RAW_1P, 0, p.COMPOSABLE_EOL_ALIGN])
      ∧ BORDER_HORZ - MIN_RUN - 1 = 76
      ∧ PIXELS_X * PIXEL_SCALE - MIN_RUN = 477
      ∧ BORDER_HORZ - MIN_RUN = 77 := by
  refine ⟨rfl, ⟨(scan_loop p s m o y).first_pixel, (scan_loop p s m o y).p16, ?_, ?_⟩,
    by decide, by decide, by decide⟩
  · simp [scan_loop_p16]
  · simp [single_scanline]

/-- C3: with the overlay disabled and the effect mode not Pixel-effect, for every
source row y < PIXELS_Y, every framebuffer with samples in 0..3 and every valid
scheme_offset (a multiple of 4 in 0..144), the game-area run of single_scanline
decodes to exactly PIXELS_X*PIXEL_SCALE = 480 pixels, pixel k being
colors[framebuffer[y*PIXELS_X + k/PIXEL_SCALE] + scheme_offset], a read inside
the palette table; the first pixel sits in the inline first-pixel slot of the
RAW_RUN and exactly PIXELS_X*PIXEL_SCALE - 1 colours follow the count field. -/
theorem textured_line_pixels (p : Platform) (h : p.commands_distinct) (s : Settings)
    (m : VideoMem) (o : Overlay) (y : Nat)
    (hosd : o.enabled = false)
    (heff : s.video_effect ≠ VIDEO_EFFECT_PIXEL_EFFECT)
    (hy : y < PIXELS_Y)
    (hfb : ∀ i, i < PIXEL_COUNT → m.framebuffer i ≤ 3)
    (hso : s.scheme_offset % 4 = 0 ∧ 0 ≤ s.scheme_offset ∧ s.scheme_offset ≤ 144) :
    (∀ k, k < PIXELS_X * PIXEL_SCALE →
        emitted_pixel p s m o y k
            = some (colors_at p
                ((m.framebuffer (y * PIXELS_X + k / PIXEL_SCALE) : Int) + s.scheme_offset))
          ∧ ((m.framebuffer (y * PIXELS_X + k / PIXEL_SCALE) : Int) + s.scheme_offset).toNat
              < (colors p).length)
      ∧ emitted_pixel p s m o y (PIXELS_X * PIXEL_SCALE) = none
      ∧ (∃ pixels, pixels.length = PIXELS_X * PIXEL_SCALE - 1
          ∧ (∀ j, j < PIXELS_X * PIXEL_SCALE - 1 →
              pixels[j]? = some (colors_at p
                ((m.framebuffer (y * PIXELS_X + (j + 1) / PIXEL_SCALE) : Int)
                  + s.scheme_offset)))
          ∧ single_scanline p s m o y
            = [p.COMPOSABLE_COLOR_RUN, border_colors_at p s.border_color_index,
                BORDER_HORZ - MIN_RUN - 1]
              ++ [p.COMPOSABLE_RAW_RUN,
                  colors_at p ((m.framebuffer (y * PIXELS_X) : Int) + s.scheme_offset),
                  PIXELS_X * PIXEL_SCALE - MIN_RUN]
              ++ pixels
              ++ [p.COMPOSABLE_COLOR_RUN, border_colors_at p s.border_color_index,
                   BORDER_HORZ - MIN_RUN]
              ++ [p.COMPOSABLE_RAW_1P, 0, p.COMPOSABLE_EOL_ALIGN]) := by
  have hu : to_uint8 s.scheme_offset = s.scheme_offset :=
    to_uint8_of_range _ hso.2.1 (by omega)
  have hpix : ∀ k, line_pixel p s m o y k
      = colors_at p ((m.framebuffer (y * PIXELS_X + k / PIXEL_SCALE) : Int)
          + s.scheme_offset) := by
    intro k
    simp only [line_pixel, scan_pixel, in_overlay_disabled p o y _ hosd, hu]
    split_ifs <;> first | rfl | (exfalso; simp_all)
  refine ⟨?_, emitted_pixel_none h s m o y _ (Nat.le_refl _), ?_⟩
  · intro k hk
    refine ⟨by rw [emitted_pixel_eq h s m o y k hk, hpix], ?_⟩
    have hx : k / PIXEL_SCALE < PIXELS_X := by
      simp only [PIXELS_X, PIXEL_SCALE] at hk ⊢; omega
    have hi : y * PIXELS_X + k / PIXEL_SCALE < PIXEL_COUNT := by
      simp only [PIXELS_X, PIXELS_Y, PIXEL_COUNT] at hx hy ⊢; omega
    have := hfb _ hi
    rw [colors_length]
    omega
  · refine ⟨(scan_loop p s m o y).p16, by simp [scan_loop_p16], ?_, ?_⟩
    · intro j hj
      rw [scan_loop_p16, List.getElem?_map, List.getElem?_range hj]
      simp [hpix]
    · have h0 := scan_loop_first p s m o y
      rw [hpix] at h0
      simp [single_scanline, h0, PIXEL_SCALE]

/-- Witness of C3: source row 5 of the sample memory under the boot settings. -/
theorem textured_line_pixels_witness :
    emitted_pixel sample_platform (boot sample_platform) sample_mem { enabled := false } 5 7
      = some (colors_at sample_platform
          ((sample_mem.framebuffer (5 * PIXELS_X + 7 / PIXEL_SCALE) : Int)
            + (boot sample_platform).scheme_offset)) :=
  ((textured_line_pixels sample_platform (by decide) (boot sample_platform) sample_mem
    { enabled := false } 5 rfl (by decide) (by decide) (fun _ _ => Nat.zero_le _)
    (by decide)).1 7 (by decide)).1

/-- C4: with scheme_offset = 0, border index 0, effect None, the overlay disabled
and a source row whose samples are all 0, single_scanline writes exactly the
left border run in border_colors[0], the raw run of PIXELS_X*PIXEL_SCALE = 480
pixels all equal to colors[0], the right border run in border_colors[0], the
black terminator pixel (RAW_1P, 0) and the EOL_ALIGN marker; no overlay pixel
appears in it. -/
theorem all_zero_row_line (p : Platform) (h : p.commands_distinct) (s : Settings)
    (m : VideoMem) (o : Overlay) (y : Nat)
    (hso : s.scheme_offset = 0)
    (hb : s.border_color_index = 0)
    (heff : s.video_effect = VIDEO_EFFECT_NONE)
    (hosd : o.enabled = false)
    (hrow : ∀ x, x < PIXELS_X → m.framebuffer (y * PIXELS_X + x) = 0) :
    single_scanline p s m o y
        = [p.COMPOSABLE_COLOR_RUN, border_colors_at p 0, BORDER_HORZ - MIN_RUN - 1]
          ++ [p.COMPOSABLE_RAW_RUN, colors_at p 0, PIXELS_X * PIXEL_SCALE - MIN_RUN]
          ++ List.replicate (PIXELS_X * PIXEL_SCALE - 1) (colors_at p 0)
          ++ [p.COMPOSABLE_COLOR_RUN, border_colors_at p 0, BORDER_HORZ - MIN_RUN]
          ++ [p.COMPOSABLE_RAW_1P, 0, p.COMPOSABLE_EOL_ALIGN]
      ∧ decode_line p (single_scanline p s m o y)
        = some [List.replicate (BORDER_HORZ - 1) (border_colors_at p 0),
                List.replicate (PIXELS_X * PIXEL_SCALE) (colors_at p 0),
                List.replicate BORDER_HORZ (border_colors_at p 0),
                [0]] := by
  have hpix : ∀ k, k < PIXELS_X * PIXEL_SCALE → line_pixel p s m o y k = colors_at p 0 := by
    intro k hk
    have hx : k / PIXEL_SCALE < PIXELS_X := by
      simp only [PIXELS_X, PIXEL_SCALE] at hk ⊢; omega
    simp only [line_pixel, scan_pixel, in_overlay_disabled p o y _ hosd, hso, heff,
      hrow _ hx]
    simp [to_uint8, VIDEO_EFFECT_NONE, VIDEO_EFFECT_PIXEL_EFFECT]
  have hgame : (List.range (PIXELS_X * PIXEL_SCALE)).map (line_pixel p s m o y)
      = List.replicate (PIXELS_X * PIXEL_SCALE) (colors_at p 0) := by
    apply List.ext_getElem?
    intro k
    by_cases hk : k < PIXELS_X * PIXEL_SCALE
    · simp [List.getElem?_range hk, List.getElem?_replicate, hk, hpix k hk]
    · simp [List.getElem?_replicate, hk, Nat.le_of_not_lt hk]
  have hp16 : (scan_loop p s m o y).p16
      = List.replicate (PIXELS_X * PIXEL_SCALE - 1) (colors_at p 0) := by
    rw [scan_loop_p16]
    apply List.ext_getElem?
    intro k
    by_cases hk : k < PIXELS_X * PIXEL_SCALE - 1
    · have hk1 : k + 1 < PIXELS_X * PIXEL_SCALE := by
        simp only [PIXELS_X, PIXEL_SCALE] at hk ⊢; omega
      simp [List.getElem?_range hk, List.getElem?_replicate, hk, hpix _ hk1]
    · simp [List.getElem?_replicate, hk, Nat.le_of_not_lt hk]
  constructor
  · have h0 := scan_loop_first p s m o y
    rw [hpix 0 (by decide)] at h0
    simp [single_scanline, h0, hp16, hb]
  · rw [decode_single_scanline h, hgame, hb]

/-- Witness of C4: source row 0 of the sample memory, whose cells are all 0,
under the boot settings. -/
theorem all_zero_row_line_witness :
    decode_line sample_platform
        (single_scanline sample_platform (boot sample_platform) sample_mem
          { enabled := false } 0)
      = some [List.replicate (BORDER_HORZ - 1) (border_colors_at sample_platform 0),
              List.replicate (PIXELS_X * PIXEL_SCALE) (colors_at sample_platform 0),
              List.replicate BORDER_HORZ (border_colors_at sample_platform 0),
              [0]] :=
  (all_zero_row_line sample_platform (by decide) (boot sample_platform) sample_mem
    { enabled := false } 0 rfl rfl rfl rfl (fun _ _ => rfl)).2

/-! ## The overlay rectangle -/

theorem osd_start_x_eq (p : Platform) (hw : p.OSD_WIDTH ≤ PIXELS_X) :
    osd_start_x p = (PIXELS_X - p.OSD_WIDTH) / 2
      ∧ osd_end_x p = (PIXELS_X - p.OSD_WIDTH) / 2 + p.OSD_WIDTH := by
  have h0 : (0 : Int) ≤ (PIXELS_X : Int) - (p.OSD_WIDTH : Int) := by omega
  have hs : osd_start_x p = (PIXELS_X - p.OSD_WIDTH) / 2 := by
    simp only [osd_start_x, OSD_get_width, to_uint8, Int.tdiv_eq_ediv h0 (by decide : (0 : Int) ≤ 2)]
    simp only [PIXELS_X] at hw ⊢
    omega
  refine ⟨hs, ?_⟩
  simp only [osd_end_x, hs, OSD_get_width, to_uint8]
  simp only [PIXELS_X] at hw ⊢
  omega

theorem osd_start_y_eq (p : Platform) (hh : p.OSD_HEIGHT ≤ PIXELS_Y) :
    osd_start_y p = (PIXELS_Y - p.OSD_HEIGHT) / 2
      ∧ osd_end_y p = (PIXELS_Y - p.OSD_HEIGHT) / 2 + p.OSD_HEIGHT := by
  have h0 : (0 : Int) ≤ (PIXELS_Y : Int) - (p.OSD_HEIGHT : Int) := by omega
  have hs : osd_start_y p = (PIXELS_Y - p.OSD_HEIGHT) / 2 := by
    simp only [osd_start_y, OSD_get_height, to_uint8, Int.tdiv_eq_ediv h0 (by decide : (0 : Int) ≤ 2)]
    simp only [PIXELS_Y] at hh ⊢
    omega
  refine ⟨hs, ?_⟩
  simp only [osd_end_y, hs, OSD_get_height, to_uint8]
  simp only [PIXELS_Y] at hh ⊢
  omega

/-- The overlay cell read at a column inside the rectangle, for an overlay no
larger than the game image: no 8-bit or 16-bit conversion changes a value. -/
theorem overlay_index_eq (p : Platform) (o : Overlay) (y x : Nat)
    (hw : p.OSD_WIDTH ≤ PIXELS_X) (hh : p.OSD_HEIGHT ≤ PIXELS_Y)
    (hin : in_overlay p o y x = true) :
    ((osd_nnn p y : Int) + (overlay_pos p o y x : Int)).toNat
      = (y - (PIXELS_Y - p.OSD_HEIGHT) / 2) * p.OSD_WIDTH
          + (x - (PIXELS_X - p.OSD_WIDTH) / 2) := by
  obtain ⟨hsx, hex⟩ := osd_start_x_eq p hw
  obtain ⟨hsy, hey⟩ := osd_start_y_eq p hh
  simp only [in_overlay, osd_row, Bool.and_eq_true, decide_eq_true_eq, hsx, hex, hsy, hey,
    and_assoc] at hin
  obtain ⟨hen, hy1, hy2, hx1, hx2⟩ := hin
  have hrow : osd_row p o y = true := by
    simp [osd_row, hen, hsy, hey, hy1, hy2]
  have hpos : overlay_pos p o y x = x - (PIXELS_X - p.OSD_WIDTH) / 2 := by
    simp only [overlay_pos, hrow, if_true, hsx, hex]
    omega
  have hprod : (y - (PIXELS_Y - p.OSD_HEIGHT) / 2) * p.OSD_WIDTH ≤ 144 * 160 := by
    apply Nat.mul_le_mul
    · simp only [PIXELS_Y] at hh hy2 ⊢; omega
    · simpa [PIXELS_X] using hw
  have hnnn : osd_nnn p y = (y - (PIXELS_Y - p.OSD_HEIGHT) / 2) * p.OSD_WIDTH := by
    have hc : ((y : Int) - ((PIXELS_Y - p.OSD_HEIGHT) / 2 : Nat)) * (p.OSD_WIDTH : Int)
        = (((y - (PIXELS_Y - p.OSD_HEIGHT) / 2) * p.OSD_WIDTH : Nat) : Int) := by
      rw [Nat.cast_mul, Nat.cast_sub hy1]
    simp only [osd_nnn, hsy, to_uint16, hc]
    omega
  rw [hnnn, hpos]
  omega

theorem in_overlay_iff (p : Platform) (o : Overlay) (y x : Nat)
    (hw : p.OSD_WIDTH ≤ PIXELS_X) (hh : p.OSD_HEIGHT ≤ PIXELS_Y) :
    in_overlay p o y x = true ↔ o.enabled = true ∧ centred_rect p y x := by
  obtain ⟨hsx, hex⟩ := osd_start_x_eq p hw
  obtain ⟨hsy, hey⟩ := osd_start_y_eq p hh
  simp only [in_overlay, osd_row, OSD_is_enabled, Bool.and_eq_true, decide_eq_true_eq, hsx,
    hex, hsy, hey, and_assoc, centred_rect, ge_iff_le]

/-- Overlay substitution at every column but the inline first-pixel slot: with
the overlay enabled and no larger than the game image, a pixel of column
k >= 1 inside the centred rectangle is the overlay cell, and a pixel outside
the rectangle is the pixel of the same state with the overlay disabled. -/
theorem overlay_substitution (p : Platform) (h : p.commands_distinct) (s : Settings)
    (m : VideoMem) (o : Overlay) (y k : Nat)
    (hen : o.enabled = true)
    (hw : p.OSD_WIDTH ≤ PIXELS_X) (hh : p.OSD_HEIGHT ≤ PIXELS_Y)
    (hk : k < PIXELS_X * PIXEL_SCALE) :
    (centred_rect p y (k / PIXEL_SCALE) → 1 ≤ k →
        emitted_pixel p s m o y k
          = some (m.osd_framebuffer
              ((y - (PIXELS_Y - p.OSD_HEIGHT) / 2) * p.OSD_WIDTH
                + (k / PIXEL_SCALE - (PIXELS_X - p.OSD_WIDTH) / 2))))
      ∧ (¬ centred_rect p y (k / PIXEL_SCALE) →
        emitted_pixel p s m o y k
          = emitted_pixel p s m { o with enabled := false } y k) := by
  rw [emitted_pixel_eq h s m o y k hk, emitted_pixel_eq h s m _ y k hk]
  constructor
  · intro hr hk1
    have hin : in_overlay p o y (k / PIXEL_SCALE) = true :=
      (in_overlay_iff p o y _ hw hh).2 ⟨hen, hr⟩
    have hne : ¬ (k / PIXEL_SCALE = 0 ∧ k % PIXEL_SCALE = 0) := by
      simp only [PIXEL_SCALE]; omega
    simp only [line_pixel, scan_pixel, hne, if_false, hin, if_true,
      overlay_index_eq p o y _ hw hh hin]
  · intro hr
    have hout : in_overlay p o y (k / PIXEL_SCALE) = false := by
      cases hc : in_overlay p o y (k / PIXEL_SCALE)
      · rfl
      · exact absurd ((in_overlay_iff p o y _ hw hh).1 hc).2 hr
    have hoff : in_overlay p { o with enabled := false } y (k / PIXEL_SCALE) = false :=
      in_overlay_disabled p _ y _ rfl
    simp only [line_pixel, scan_pixel, hout, hoff, Bool.false_eq_true, if_false]

/-- Counterexample to C6 as stated: in Pixel-effect mode with the overlay
enabled, the third sub-pixel of source column 78 of row 70 (output column 236)
shows the overlay cell, which holds 0, not the accent colour 63. -/
theorem pixel_effect_overlay_counterexample :
    (run_calls sample_platform (boot sample_platform) [.effect 1]).video_effect
        = VIDEO_EFFECT_PIXEL_EFFECT
      ∧ (run_calls sample_platform (boot sample_platform) [.effect 1]).scanline_color = 63
      ∧ emitted_pixel sample_platform
          (run_calls sample_platform (boot sample_platform) [.effect 1]) sample_mem
          { enabled := true } 70 (PIXEL_SCALE * 78 + 2) = some 0 := by
  refine ⟨by decide, by decide, ?_⟩
  rw [emitted_pixel_eq (by decide) _ _ _ _ _ (by decide)]
  rfl

/-- C6 (amended): in Pixel-effect mode, for every textured line and every source
column x < PIXELS_X that the enabled overlay's rectangle does not cover (every
column when the overlay is disabled), the third sub-pixel of the horizontal
triple, output column 3*x + 2, is the accent colour scanline_color, whatever
the source sample is. -/
theorem pixel_effect_accent (p : Platform) (h : p.commands_distinct) (s : Settings)
    (m : VideoMem) (o : Overlay) (y x : Nat)
    (heff : s.video_effect = VIDEO_EFFECT_PIXEL_EFFECT)
    (hx : x < PIXELS_X)
    (hout : ¬ (o.enabled = true ∧ osd_start_y p ≤ y ∧ y < osd_end_y p
                ∧ osd_start_x p ≤ x ∧ x < osd_end_x p)) :
    emitted_pixel p s m o y (PIXEL_SCALE * x + 2) = some s.scanline_color := by
  have hk : PIXEL_SCALE * x + 2 < PIXELS_X * PIXEL_SCALE := by
    simp only [PIXELS_X, PIXEL_SCALE] at hx ⊢; omega
  have hd : (PIXEL_SCALE * x + 2) / PIXEL_SCALE = x := by simp only [PIXEL_SCALE]; omega
  have hm : (PIXEL_SCALE * x + 2) % PIXEL_SCALE = 2 := by simp only [PIXEL_SCALE]; omega
  have hin : in_overlay p o y x = false := by
    cases hc : in_overlay p o y x
    · rfl
    · exfalso
      apply hout
      simpa [in_overlay, osd_row, OSD_is_enabled, and_assoc] using hc
  rw [emitted_pixel_eq h s m o y _ hk]
  simp [line_pixel, scan_pixel, hd, hm, hin, heff]

/-- Witness of C6 (amended): source column 10 of row 70, outside the overlay
rectangle of the sample platform. -/
theorem pixel_effect_accent_witness :
    emitted_pixel sample_platform
        (run_calls sample_platform (boot sample_platform) [.effect 1]) sample_mem
        { enabled := true } 70 (PIXEL_SCALE * 10 + 2)
      = some (run_calls sample_platform (boot sample_platform) [.effect 1]).scanline_color :=
  pixel_effect_accent sample_platform (by decide)
    (run_calls sample_platform (boot sample_platform) [.effect 1]) sample_mem
    { enabled := true } 70 10 (by decide) (by decide) (by decide)

/-- C7: render_scanline classifies line L (coordinate maps built by
set_indexes) as follows: above or below the active window it writes the solid
line whose middle run is the border colour; inside the window, when the effect
mode is Pixel-effect or Scanlines and (L - BORDER_VERT) is 0 modulo
PIXEL_SCALE, the solid line whose middle run is the accent colour; otherwise
the textured line of source row (L - BORDER_VERT) / PIXEL_SCALE.  With effect
None every window line is textured, and with an effect on the first of the
three output rows of each source row is the accent row and the other two are
textured. -/
theorem render_scanline_classes (p : Platform) (s : Settings) (m : VideoMem) (o : Overlay)
    (L : Nat) :
    ((L < BORDER_VERT ∨ L ≥ BORDER_VERT + PIXELS_Y * PIXEL_SCALE) →
        (render_scanline p s (set_indexes m) o L).data
          = single_solid_line p s (border_colors_at p s.border_color_index))
      ∧ (BORDER_VERT ≤ L → L < BORDER_VERT + PIXELS_Y * PIXEL_SCALE →
          (s.video_effect = VIDEO_EFFECT_PIXEL_EFFECT
            ∨ s.video_effect = VIDEO_EFFECT_SCANLINES) →
          (L - BORDER_VERT) % PIXEL_SCALE = 0 →
          (render_scanline p s (set_indexes m) o L).data
            = single_solid_line p s s.scanline_color)
      ∧ (BORDER_VERT ≤ L → L < BORDER_VERT + PIXELS_Y * PIXEL_SCALE →
          ¬ ((s.video_effect = VIDEO_EFFECT_PIXEL_EFFECT
                ∨ s.video_effect = VIDEO_EFFECT_SCANLINES)
              ∧ (L - BORDER_VERT) % PIXEL_SCALE = 0) →
          (render_scanline p s (set_indexes m) o L).data
            = single_scanline p s (set_indexes m) o ((L - BORDER_VERT) / PIXEL_SCALE))
      ∧ (BORDER_VERT ≤ L → L < BORDER_VERT + PIXELS_Y * PIXEL_SCALE →
          s.video_effect = VIDEO_EFFECT_NONE →
          (render_scanline p s (set_indexes m) o L).data
            = single_scanline p s (set_indexes m) o ((L - BORDER_VERT) / PIXEL_SCALE))
      ∧ (∀ r, r < PIXELS_Y →
          (s.video_effect = VIDEO_EFFECT_PIXEL_EFFECT
            ∨ s.video_effect = VIDEO_EFFECT_SCANLINES) →
          (render_scanline p s (set_indexes m) o (BORDER_VERT + PIXEL_SCALE * r)).data
              = single_solid_line p s s.scanline_color
            ∧ (render_scanline p s (set_indexes m) o (BORDER_VERT + PIXEL_SCALE * r + 1)).data
              = single_scanline p s (set_indexes m) o r
            ∧ (render_scanline p s (set_indexes m) o (BORDER_VERT + PIXEL_SCALE * r + 2)).data
              = single_scanline p s (set_indexes m) o r)
      ∧ (∀ color, ((single_solid_line p s color).drop 3).take 3
          = [p.COMPOSABLE_COLOR_RUN, color, PIXELS_X * PIXEL_SCALE - MIN_RUN]) := by
  have hborder : ∀ n, (n < BORDER_VERT ∨ n ≥ BORDER_VERT + PIXELS_Y * PIXEL_SCALE) →
      (render_scanline p s (set_indexes m) o n).data
        = single_solid_line p s (border_colors_at p s.border_color_index) := by
    intro n hn
    have hc : n < BORDER_VERT ∨ n ≥ PIXELS_Y * PIXEL_SCALE + BORDER_VERT := by omega
    simp [render_scanline, hc]
  have haccent : ∀ n, BORDER_VERT ≤ n → n < BORDER_VERT + PIXELS_Y * PIXEL_SCALE →
      (s.video_effect = VIDEO_EFFECT_PIXEL_EFFECT
        ∨ s.video_effect = VIDEO_EFFECT_SCANLINES) →
      (n - BORDER_VERT) % PIXEL_SCALE = 0 →
      (render_scanline p s (set_indexes m) o n).data
        = single_solid_line p s s.scanline_color := by
    intro n h1 h2 he hm
    have hc : ¬ (n < BORDER_VERT ∨ n ≥ PIXELS_Y * PIXEL_SCALE + BORDER_VERT) := by omega
    have hm2 : n % PIXEL_SCALE = 0 := by
      simp only [BORDER_VERT, PIXEL_SCALE] at h1 hm ⊢; omega
    simp [render_scanline, hc, he, hm2]
  have htex : ∀ n, BORDER_VERT ≤ n → n < BORDER_VERT + PIXELS_Y * PIXEL_SCALE →
      ¬ ((s.video_effect = VIDEO_EFFECT_PIXEL_EFFECT
            ∨ s.video_effect = VIDEO_EFFECT_SCANLINES)
          ∧ (n - BORDER_VERT) % PIXEL_SCALE = 0) →
      (render_scanline p s (set_indexes m) o n).data
        = single_scanline p s (set_indexes m) o ((n - BORDER_VERT) / PIXEL_SCALE) := by
    intro n h1 h2 hne
    have hc : ¬ (n < BORDER_VERT ∨ n ≥ PIXELS_Y * PIXEL_SCALE + BORDER_VERT) := by omega
    have hne2 : ¬ ((s.video_effect = VIDEO_EFFECT_PIXEL_EFFECT
          ∨ s.video_effect = VIDEO_EFFECT_SCANLINES) ∧ n % PIXEL_SCALE = 0) := by
      intro hh
      apply hne
      refine ⟨hh.1, ?_⟩
      have := hh.2
      simp only [BORDER_VERT, PIXEL_SCALE] at h1 this ⊢; omega
    have hidx : (set_indexes m).indexes_y (n - BORDER_VERT) = (n - BORDER_VERT) / PIXEL_SCALE :=
      set_indexes_y m _ (by omega)
    simp only [render_scanline, if_neg hc, if_neg hne2, hidx]
  refine ⟨hborder L, haccent L, htex L, ?_, ?_, ?_⟩
  · intro h1 h2 he
    apply htex L h1 h2
    rw [he]
    simp [VIDEO_EFFECT_NONE, VIDEO_EFFECT_PIXEL_EFFECT, VIDEO_EFFECT_SCANLINES]
  · intro r hr he
    have hb : BORDER_VERT + PIXEL_SCALE * r + 2 < BORDER_VERT + PIXELS_Y * PIXEL_SCALE := by
      simp only [PIXELS_Y, PIXEL_SCALE] at hr ⊢; omega
    refine ⟨haccent _ (by omega) (by omega) he ?_, ?_, ?_⟩
    · simp only [PIXEL_SCALE]; omega
    · have e : (BORDER_VERT + PIXEL_SCALE * r + 1 - BORDER_VERT) / PIXEL_SCALE = r := by
        simp only [PIXEL_SCALE]; omega
      rw [htex _ (by omega) (by omega) ?_, e]
      intro hh
      have := hh.2
      simp only [PIXEL_SCALE] at this; omega
    · have e : (BORDER_VERT + PIXEL_SCALE * r + 2 - BORDER_VERT) / PIXEL_SCALE = r := by
        simp only [PIXEL_SCALE]; omega
      rw [htex _ (by omega) (by omega) ?_, e]
      intro hh
      have := hh.2
      simp only [PIXEL_SCALE] at this; omega
  · intro color
    rfl

/-- Witness of C7: line 100 under the boot settings (effect None) is the
textured line of source row (100 - BORDER_VERT) / PIXEL_SCALE = 25. -/
theorem render_scanline_classes_witness :
    (render_scanline sample_platform (boot sample_platform) (set_indexes sample_mem)
        { enabled := false } 100).data
      = single_scanline sample_platform (boot sample_platform) (set_indexes sample_mem)
          { enabled := false } ((100 - BORDER_VERT) / PIXEL_SCALE) :=
  (render_scanline_classes sample_platform (boot sample_platform) sample_mem
    { enabled := false } 100).2.2.1 (by decide) (by decide) (by decide)

/-! ## Properties of the settings -/

theorem run_calls_snoc (p : Platform) (s : Settings) (cs : List SettingsCall)
    (c : SettingsCall) :
    run_calls p s (cs ++ [c]) = SettingsCall.run p (run_calls p s cs) c := by
  simp [run_calls, List.foldl_append]

/-- The ranges of the four settings are kept by every mutator call with
argument -1 or +1. -/
theorem settings_range_step (p : Platform) (s : Settings) (c : SettingsCall)
    (hc : c.arg = 1 ∨ c.arg = -1)
    (h : s.scheme_offset % 4 = 0 ∧ 0 ≤ s.scheme_offset ∧ s.scheme_offset < 148
      ∧ 0 ≤ s.border_color_index ∧ s.border_color_index < 9
      ∧ 0 ≤ s.video_effect ∧ s.video_effect < 3
      ∧ 0 ≤ s.scanline_color_offset ∧ s.scanline_color_offset ≤ 3) :
    (SettingsCall.run p s c).scheme_offset % 4 = 0
      ∧ 0 ≤ (SettingsCall.run p s c).scheme_offset
      ∧ (SettingsCall.run p s c).scheme_offset < 148
      ∧ 0 ≤ (SettingsCall.run p s c).border_color_index
      ∧ (SettingsCall.run p s c).border_color_index < 9
      ∧ 0 ≤ (SettingsCall.run p s c).video_effect
      ∧ (SettingsCall.run p s c).video_effect < 3
      ∧ 0 ≤ (SettingsCall.run p s c).scanline_color_offset
      ∧ (SettingsCall.run p s c).scanline_color_offset ≤ 3 := by
  obtain ⟨h1, h2, h3, h4, h5, h6, h7, h8, h9⟩ := h
  cases c with
  | scheme d =>
    simp only [SettingsCall.arg] at hc
    simp only [SettingsCall.run, change_scheme_offset, colors_count, colors_length]
    refine ⟨?_, ?_, ?_, h4, h5, h6, h7, h8, h9⟩ <;> rcases hc with rfl | rfl <;>
      split_ifs <;> omega
  | border d =>
    simp only [SettingsCall.arg] at hc
    simp only [SettingsCall.run, change_border_color_index, sizeof_border_colors,
      border_colors_length, to_int8, to_uint32]
    refine ⟨h1, h2, h3, ?_, ?_, h6, h7, h8, h9⟩ <;> rcases hc with rfl | rfl <;>
      split_ifs <;> omega
  | effect d =>
    simp only [SettingsCall.arg] at hc
    simp only [SettingsCall.run, change_video_effect, VIDEO_EFFECT_COUNT, VIDEO_EFFECT_NONE]
    refine ⟨h1, h2, h3, h4, h5, ?_, ?_, h8, h9⟩ <;> rcases hc with rfl | rfl <;>
      split_ifs <;> omega
  | accent d =>
    simp only [SettingsCall.arg] at hc
    simp only [SettingsCall.run, change_scanline_color]
    refine ⟨h1, h2, h3, h4, h5, h6, h7, ?_, ?_⟩ <;> rcases hc with rfl | rfl <;>
      split_ifs <;> omega

/-- C8: starting from settings with scheme_offset 0, border index 0, effect None
and accent offset 0, after any finite sequence of calls of
change_scheme_offset, change_border_color_index, change_video_effect and
change_scanline_color with arguments -1 or +1, scheme_offset is a multiple of
4 with 0 <= scheme_offset < length of colors = 148, 0 <= border_color_index <
length of border_colors = 9, 0 <= video_effect < VIDEO_EFFECT_COUNT = 3 and
0 <= scanline_color_offset <= 3. -/
theorem settings_ranges (p : Platform) (s0 : Settings) (cs : List SettingsCall)
    (hso : s0.scheme_offset = 0) (hb : s0.border_color_index = 0)
    (he : s0.video_effect = VIDEO_EFFECT_NONE) (ha : s0.scanline_color_offset = 0)
    (hcs : ∀ c ∈ cs, c.arg = 1 ∨ c.arg = -1) :
    (run_calls p s0 cs).scheme_offset % 4 = 0
      ∧ 0 ≤ (run_calls p s0 cs).scheme_offset
      ∧ (run_calls p s0 cs).scheme_offset < ((colors p).length : Int)
      ∧ 0 ≤ (run_calls p s0 cs).border_color_index
      ∧ (run_calls p s0 cs).border_color_index < ((border_colors p).length : Int)
      ∧ 0 ≤ (run_calls p s0 cs).video_effect
      ∧ (run_calls p s0 cs).video_effect < VIDEO_EFFECT_COUNT
      ∧ 0 ≤ (run_calls p s0 cs).scanline_color_offset
      ∧ (run_calls p s0 cs).scanline_color_offset ≤ 3
      ∧ (colors p).length = 148 ∧ (border_colors p).length = 9 := by
  rw [colors_length, border_colors_length]
  refine ⟨?_, ?_, ?_, ?_, ?_, ?_, ?_, ?_, ?_, rfl, rfl⟩
  all_goals
    have key : (run_calls p s0 cs).scheme_offset % 4 = 0
        ∧ 0 ≤ (run_calls p s0 cs).scheme_offset
        ∧ (run_calls p s0 cs).scheme_offset < 148
        ∧ 0 ≤ (run_calls p s0 cs).border_color_index
        ∧ (run_calls p s0 cs).border_color_index < 9
        ∧ 0 ≤ (run_calls p s0 cs).video_effect
        ∧ (run_calls p s0 cs).video_effect < 3
        ∧ 0 ≤ (run_calls p s0 cs).scanline_color_offset
        ∧ (run_calls p s0 cs).scanline_color_offset ≤ 3 := by
      induction cs using List.reverseRecOn with
      | nil =>
        simp [run_calls, hso, hb, he, ha, VIDEO_EFFECT_NONE]
      | append_singleton l c ih =>
        rw [run_calls_snoc]
        apply settings_range_step p _ c (hcs c (by simp))
        exact ih (fun d hd => hcs d (by simp [hd]))
    obtain ⟨k1, k2, k3, k4, k5, k6, k7, k8, k9⟩ := key
    first
      | exact k1 | exact k2 | exact k3 | exact k4 | exact k5 | exact k6 | exact k7
      | exact k8 | exact k9

/-- Witness of C8: four calls from the boot settings, two of them wrapping
around. -/
theorem settings_ranges_witness :
    (run_calls sample_platform (boot sample_platform)
        [.scheme (-1), .border (-1), .effect (-1), .accent (-1)]).scheme_offset % 4 = 0
      ∧ (run_calls sample_platform (boot sample_platform)
          [.scheme (-1), .border (-1), .effect (-1), .accent (-1)]).scheme_offset
          < ((colors sample_platform).length : Int) :=
  have h := settings_ranges sample_platform (boot sample_platform)
    [.scheme (-1), .border (-1), .effect (-1), .accent (-1)] rfl rfl rfl rfl (by decide)
  ⟨h.1, h.2.2.1⟩

/-- C9: for every valid scheme_offset (a multiple of 4 in 0..144),
change_scheme_offset(+1) followed by change_scheme_offset(-1) restores the
settings, and for every valid border_color_index (0..8),
change_border_color_index(+1) followed by change_border_color_index(-1)
restores them; at the wrap-around boundaries the last value goes to 0 and
back to the last value. -/
theorem change_inverse (p : Platform) (s : Settings)
    (hso : s.scheme_offset % 4 = 0 ∧ 0 ≤ s.scheme_offset ∧ s.scheme_offset ≤ 144)
    (hb : 0 ≤ s.border_color_index ∧ s.border_color_index ≤ 8) :
    change_scheme_offset p (change_scheme_offset p s 1) (-1) = s
      ∧ change_border_color_index p (change_border_color_index p s 1) (-1) = s
      ∧ (s.scheme_offset = 144 → (change_scheme_offset p s 1).scheme_offset = 0)
      ∧ (s.border_color_index = 8 →
          (change_border_color_index p s 1).border_color_index = 0) := by
  obtain ⟨h1, h2, h3⟩ := hso
  obtain ⟨h4, h5⟩ := hb
  refine ⟨?_, ?_, ?_, ?_⟩
  · have e : (change_scheme_offset p (change_scheme_offset p s 1) (-1)).scheme_offset
        = s.scheme_offset := by
      simp only [change_scheme_offset, colors_count, colors_length]
      split_ifs <;> omega
    cases s
    simp only [change_scheme_offset] at e ⊢
    simp only [e]
  · have e : (change_border_color_index p (change_border_color_index p s 1)
        (-1)).border_color_index = s.border_color_index := by
      simp only [change_border_color_index, sizeof_border_colors, border_colors_length,
        to_int8, to_uint32]
      split_ifs <;> omega
    cases s
    simp only [change_border_color_index] at e ⊢
    simp only [e]
  · intro h
    simp only [change_scheme_offset, colors_count, colors_length]
    split_ifs <;> omega
  · intro h
    simp only [change_border_color_index, sizeof_border_colors, border_colors_length,
      to_int8, to_uint32]
    split_ifs <;> omega

/-- Witness of C9: the last scheme and the last border colour, where both steps
wrap around. -/
theorem change_inverse_witness :
    change_scheme_offset sample_platform
        (change_scheme_offset sample_platform
          { boot sample_platform with scheme_offset := 144, border_color_index := 8 } 1) (-1)
      = { boot sample_platform with scheme_offset := 144, border_color_index := 8 } :=
  (change_inverse sample_platform
    { boot sample_platform with scheme_offset := 144, border_color_index := 8 }
    (by decide) (by decide)).1

/-- C10, the code at the failing input: after change_scheme_offset(+1) from the
boot settings the scheme offset is 4 and the accent offset 0, the accent
colour is still colors[0] = 63, and colors[4 + 0] is 0. -/
theorem accent_stale_after_scheme_change :
    (run_calls sample_platform (boot sample_platform) [.scheme 1]).scheme_offset = 4
      ∧ (run_calls sample_platform (boot sample_platform) [.scheme 1]).scanline_color_offset
          = 0
      ∧ (run_calls sample_platform (boot sample_platform) [.scheme 1]).scanline_color = 63
      ∧ colors_at sample_platform
          ((run_calls sample_platform (boot sample_platform) [.scheme 1]).scheme_offset
            + (run_calls sample_platform (boot sample_platform)
                [.scheme 1]).scanline_color_offset) = 0 := by
  refine ⟨?_, rfl, rfl, ?_⟩
  · simp [run_calls, SettingsCall.run, change_scheme_offset, colors_count, colors_length,
      boot, change_scanline_color, static_init]
  · have e : (run_calls sample_platform (boot sample_platform) [.scheme 1]).scheme_offset
        = 4 := by
      simp [run_calls, SettingsCall.run, change_scheme_offset, colors_count, colors_length,
        boot, change_scanline_color, static_init]
    rw [e]
    rfl


/-! ## Properties of the buttons and the command dispatcher -/

/-- The last loop of command_check copies the nine button states and touches
nothing else. -/
theorem copy_button_fold (c : Console) :
    ((List.range BUTTON_COUNT).foldl copy_button_state c).settings = c.settings
      ∧ ((List.range BUTTON_COUNT).foldl copy_button_state c).overlay = c.overlay
      ∧ ((List.range BUTTON_COUNT).foldl copy_button_state c).button_states = c.button_states
      ∧ (∀ i, ((List.range BUTTON_COUNT).foldl copy_button_state c).button_states_previous i
          = if i < BUTTON_COUNT then c.button_states i else c.button_states_previous i) := by
  have hr : List.range BUTTON_COUNT = [0, 1, 2, 3, 4, 5, 6, 7, 8] := by decide
  rw [hr]
  simp only [List.foldl_cons, List.foldl_nil, copy_button_state]
  refine ⟨trivial, trivial, trivial, ?_⟩
  intro i
  simp only [Function.update_apply, BUTTON_COUNT]
  split_ifs <;> first | rfl | omega | (subst_vars; rfl)

/-- C11: for every button, button_was_released is true exactly when the
previous-poll state is pressed (0) and the current-poll state is released (1);
it is false when the button is held, idle, or on the press edge. -/
theorem button_was_released_iff (c : Console) (button : Nat) :
    (button_was_released c button = true
        ↔ c.button_states_previous button = 0 ∧ c.button_states button = 1)
      ∧ (c.button_states_previous button = 0 → c.button_states button = 0 →
          button_was_released c button = false)
      ∧ (c.button_states_previous button = 1 → c.button_states button = 1 →
          button_was_released c button = false)
      ∧ (c.button_states_previous button = 1 → c.button_states button = 0 →
          button_was_released c button = false) := by
  refine ⟨?_, ?_, ?_, ?_⟩
  · simp [button_was_released, and_comm]
  · intro h1 h2; simp [button_was_released, h1, h2]
  · intro h1 h2; simp [button_was_released, h1, h2]
  · intro h1 h2; simp [button_was_released, h1, h2]

/-- Witness of C11: Home released in this poll after being pressed in the
previous one. -/
theorem button_was_released_iff_witness :
    button_was_released
      { sample_console with button_states_previous := fun _ => 0 } BUTTON_HOME = true :=
  (button_was_released_iff
    { sample_console with button_states_previous := fun _ => 0 } BUTTON_HOME).1.2 ⟨rfl, rfl⟩

/-- Counterexample to C12 as stated: with the overlay disabled and A, B, Select
and Start all pressed, the action-key request drives the four output lines
with pressed (low), not with released. -/
theorem reset_combo_lines_counterexample :
    (gpio_callback
        { sample_console with button_states := fun i => if i < 4 then 0 else 1 }
        BUTTONS_DPAD_PIN 8).2 = put_matrix false false false false
      ∧ (gpio_callback
          { sample_console with button_states := fun i => if i < 4 then 0 else 1 }
          BUTTONS_DPAD_PIN 8).2 ≠ put_matrix true true true true := by
  decide

/-- C12 (amended): with the overlay disabled, when gpio_callback handles the
action-key request (rising edge on the DPAD select line) while A, B, Select
and Start are all pressed, the four output lines driven for that request carry
the states as they were, pressed (0); the four button states are released (1)
afterwards and the other states are unchanged, so the next action-key request
drives released on all four lines. -/
theorem reset_combo_release (c : Console) (events : Nat)
    (hosd : c.overlay.enabled = false)
    (hrise : events &&& (1 <<< 3) ≠ 0)
    (ha : c.button_states BUTTON_A = 0) (hb : c.button_states BUTTON_B = 0)
    (hsel : c.button_states BUTTON_SELECT = 0) (hst : c.button_states BUTTON_START = 0) :
    (∃ fall, (gpio_callback c BUTTONS_DPAD_PIN events).2
        = fall ++ put_matrix false false false false)
      ∧ (gpio_callback c BUTTONS_DPAD_PIN events).1.button_states BUTTON_A = 1
      ∧ (gpio_callback c BUTTONS_DPAD_PIN events).1.button_states BUTTON_B = 1
      ∧ (gpio_callback c BUTTONS_DPAD_PIN events).1.button_states BUTTON_SELECT = 1
      ∧ (gpio_callback c BUTTONS_DPAD_PIN events).1.button_states BUTTON_START = 1
      ∧ (∀ i, 4 ≤ i →
          (gpio_callback c BUTTONS_DPAD_PIN events).1.button_states i = c.button_states i)
      ∧ (gpio_callback (gpio_callback c BUTTONS_DPAD_PIN events).1 BUTTONS_DPAD_PIN 8).2
          = put_matrix true true true true := by
  have hor : (c.button_states BUTTON_A ||| c.button_states BUTTON_B
      ||| c.button_states BUTTON_SELECT ||| c.button_states BUTTON_START) = 0 := by
    rw [ha, hb, hsel, hst]; rfl
  have hdo : BUTTONS_DPAD_PIN ≠ BUTTONS_OTHER_PIN := by decide
  have hrise8 : events &&& 8 ≠ 0 := hrise
  have h84 : (8 : Nat) &&& 4 = 0 := by decide
  have h88 : (8 : Nat) &&& 8 = 8 := by decide
  have hcall : gpio_callback c BUTTONS_DPAD_PIN events
      = ({ c with button_states :=
              Function.update (Function.update (Function.update
                (Function.update c.button_states BUTTON_A 1) BUTTON_B 1)
                BUTTON_SELECT 1) BUTTON_START 1 },
          (if events &&& (1 <<< 2) ≠ 0 then
              put_matrix (to_bool (c.button_states BUTTON_RIGHT))
                (to_bool (c.button_states BUTTON_LEFT))
                (to_bool (c.button_states BUTTON_UP))
                (to_bool (c.button_states BUTTON_DOWN))
            else []) ++ put_matrix false false false false) := by
    simp [gpio_callback, OSD_is_enabled, hosd, hrise8, hor, hdo, ha, hb, hsel, hst, to_bool]
  rw [hcall]
  refine ⟨⟨_, rfl⟩, ?_, ?_, ?_, ?_, ?_, ?_⟩
  · simp [Function.update_apply, BUTTON_A, BUTTON_B, BUTTON_SELECT, BUTTON_START]
  · simp [Function.update_apply, BUTTON_A, BUTTON_B, BUTTON_SELECT, BUTTON_START]
  · simp [Function.update_apply, BUTTON_A, BUTTON_B, BUTTON_SELECT, BUTTON_START]
  · simp [Function.update_apply, BUTTON_A, BUTTON_B, BUTTON_SELECT, BUTTON_START]
  · intro i hi
    simp only [Function.update_apply, BUTTON_A, BUTTON_B, BUTTON_SELECT, BUTTON_START]
    split_ifs <;> first | rfl | omega
  · simp [gpio_callback, OSD_is_enabled, hosd, hdo, to_bool, Function.update_apply,
      BUTTON_A, BUTTON_B, BUTTON_SELECT, BUTTON_START, put_matrix, h84, h88]

/-- Witness of C12 (amended): A, B, Select and Start pressed, the other buttons
released, and a rising edge on the DPAD select line. -/
theorem reset_combo_release_witness :
    (gpio_callback
        (gpio_callback
          { sample_console with button_states := fun i => if i < 4 then 0 else 1 }
          BUTTONS_DPAD_PIN 8).1 BUTTONS_DPAD_PIN 8).2 = put_matrix true true true true :=
  (reset_combo_release
    { sample_console with button_states := fun i => if i < 4 then 0 else 1 } 8
    rfl (by decide) rfl rfl rfl rfl).2.2.2.2.2.2

/-- The settings, the overlay and the calls of command_check are those of its
dispatch; the copy loop changes none of them. -/
theorem command_check_fields (p : Platform) (change_line : Overlay → Int → Overlay)
    (c : Console) :
    (command_check p change_line c).1.settings = (command_dispatch p change_line c).1.settings
      ∧ (command_check p change_line c).1.overlay
          = (command_dispatch p change_line c).1.overlay
      ∧ (command_check p change_line c).2 = (command_dispatch p change_line c).2 := by
  obtain ⟨h1, h2, _, _⟩ := copy_button_fold (command_dispatch p change_line c).1
  simp only [command_check]
  exact ⟨h1, h2, trivial⟩

/-- C13: whenever a Home release edge is detected, whatever the overlay state
and the edges of the other eight buttons, command_check calls OSD_toggle
exactly once and makes no other call (so the console reset line is not
pulsed), the enabled flag of the overlay is flipped, and scheme_offset,
border_color_index, video_effect, scanline_color_offset, scanline_color and
the active line of the overlay are unchanged. -/
theorem home_priority (p : Platform) (change_line : Overlay → Int → Overlay) (c : Console)
    (hhome : button_was_released c BUTTON_HOME = true) :
    (command_check p change_line c).2 = [Effect.OSD_toggle]
      ∧ (command_check p change_line c).1.overlay.enabled = !c.overlay.enabled
      ∧ (command_check p change_line c).1.overlay.active_line = c.overlay.active_line
      ∧ (command_check p change_line c).1.settings = c.settings
      ∧ (∀ v, Effect.gpio_put GAMEBOY_RESET_PIN v ∉ (command_check p change_line c).2) := by
  obtain ⟨h1, h2, h3⟩ := command_check_fields p change_line c
  have hd : command_dispatch p change_line c
      = ({ c with overlay := OSD_toggle c.overlay }, [Effect.OSD_toggle]) := by
    simp [command_dispatch, hhome]
  rw [h1, h2, h3, hd]
  simp [OSD_toggle]

/-- Witness of C13: a Home release edge together with release edges of all
other buttons, the overlay enabled. -/
theorem home_priority_witness :
    (command_check sample_platform sample_change_line
        { sample_console with button_states_previous := fun _ => 0
                              overlay := { enabled := true } }).2 = [Effect.OSD_toggle] :=
  (home_priority sample_platform sample_change_line
    { sample_console with button_states_previous := fun _ => 0
                          overlay := { enabled := true } } rfl).1

/-- One menu step of the scheme offset, for a valid offset. -/
theorem change_scheme_offset_step (p : Platform) (s : Settings) (left : Bool)
    (h : s.scheme_offset % 4 = 0 ∧ 0 ≤ s.scheme_offset ∧ s.scheme_offset ≤ 144) :
    (change_scheme_offset p s (if left = true then -1 else 1)).scheme_offset
      = (if left = true then (if s.scheme_offset = 0 then 144 else s.scheme_offset - 4)
          else (if s.scheme_offset = 144 then 0 else s.scheme_offset + 4)) := by
  obtain ⟨h1, h2, h3⟩ := h
  cases left <;> simp only [change_scheme_offset, colors_count, colors_length,
    Bool.false_eq_true, if_false, if_true] <;> split_ifs <;> omega

/-- One menu step of the border index, for a valid index. -/
theorem change_border_color_index_step (p : Platform) (s : Settings) (left : Bool)
    (h : 0 ≤ s.border_color_index ∧ s.border_color_index ≤ 8) :
    (change_border_color_index p s (if left = true then -1 else 1)).border_color_index
      = (if left = true then
            (if s.border_color_index = 0 then 8 else s.border_color_index - 1)
          else (if s.border_color_index = 8 then 0 else s.border_color_index + 1)) := by
  obtain ⟨h1, h2⟩ := h
  cases left <;> simp only [change_border_color_index, sizeof_border_colors,
    border_colors_length, to_int8, to_uint32, Bool.false_eq_true, if_false, if_true] <;>
    split_ifs <;> omega

/-- One menu step of the effect mode, for a valid mode. -/
theorem change_video_effect_step (s : Settings) (left : Bool)
    (h : 0 ≤ s.video_effect ∧ s.video_effect ≤ 2) :
    (change_video_effect s (if left = true then -1 else 1)).video_effect
      = (if left = true then (if s.video_effect = 0 then 2 else s.video_effect - 1)
          else (if s.video_effect = 2 then 0 else s.video_effect + 1)) := by
  obtain ⟨h1, h2⟩ := h
  cases left <;> simp only [change_video_effect, VIDEO_EFFECT_COUNT, VIDEO_EFFECT_NONE,
    Bool.false_eq_true, if_false, if_true] <;> split_ifs <;> omega

/-- One menu step of the accent offset, for a valid offset. -/
theorem change_scanline_color_step (p : Platform) (s : Settings) (left : Bool)
    (h : 0 ≤ s.scanline_color_offset ∧ s.scanline_color_offset ≤ 3) :
    (change_scanline_color p s (if left = true then -1 else 1)).scanline_color_offset
      = (if left = true then
            (if s.scanline_color_offset = 0 then 3 else s.scanline_color_offset - 1)
          else (if s.scanline_color_offset = 3 then 0 else s.scanline_color_offset + 1)) := by
  obtain ⟨h1, h2⟩ := h
  cases left <;> simp only [change_scanline_color, Bool.false_eq_true, if_false, if_true] <;>
    split_ifs <;> omega

/-- The dispatch of command_check without a Home release edge, by the mutator
applied: the settings it leaves and the calls it makes. -/
theorem menu_dispatch_core (p : Platform) (change_line : Overlay → Int → Overlay) (c : Console)
    (hhome : button_was_released c BUTTON_HOME = false) :
    (c.overlay.enabled = true →
      button_was_released c BUTTON_UP = false →
      button_was_released c BUTTON_DOWN = false →
      (button_was_released c BUTTON_LEFT = true ∨ button_was_released c BUTTON_RIGHT = true
        ∨ button_was_released c BUTTON_A = true) →
      (c.overlay.active_line = OSD_LINE_COLOR_SCHEME →
          (command_check p change_line c).1.settings
              = change_scheme_offset p c.settings
                  (if button_was_released c BUTTON_LEFT = true then -1 else 1)
            ∧ (command_check p change_line c).1.settings.border_color_index
                = c.settings.border_color_index
            ∧ (command_check p change_line c).1.settings.video_effect
                = c.settings.video_effect
            ∧ (command_check p change_line c).1.settings.scanline_color_offset
                = c.settings.scanline_color_offset)
        ∧ (c.overlay.active_line = OSD_LINE_BORDER_COLOR →
          (command_check p change_line c).1.settings
              = change_border_color_index p c.settings
                  (if button_was_released c BUTTON_LEFT = true then -1 else 1)
            ∧ (command_check p change_line c).1.settings.scheme_offset
                = c.settings.scheme_offset
            ∧ (command_check p change_line c).1.settings.video_effect
                = c.settings.video_effect
            ∧ (command_check p change_line c).1.settings.scanline_color_offset
                = c.settings.scanline_color_offset)
        ∧ (c.overlay.active_line = OSD_LINE_EFFECTS →
          (command_check p change_line c).1.settings
              = change_video_effect c.settings
                  (if button_was_released c BUTTON_LEFT = true then -1 else 1)
            ∧ (command_check p change_line c).1.settings.scheme_offset
                = c.settings.scheme_offset
            ∧ (command_check p change_line c).1.settings.border_color_index
                = c.settings.border_color_index
            ∧ (command_check p change_line c).1.settings.scanline_color_offset
                = c.settings.scanline_color_offset)
        ∧ (c.overlay.active_line = OSD_LINE_FX_SCHEME →
          (command_check p change_line c).1.settings
              = change_scanline_color p c.settings
                  (if button_was_released c BUTTON_LEFT = true then -1 else 1)
            ∧ (command_check p change_line c).1.settings.scheme_offset
                = c.settings.scheme_offset
            ∧ (command_check p change_line c).1.settings.border_color_index
                = c.settings.border_color_index
            ∧ (command_check p change_line c).1.settings.video_effect
                = c.settings.video_effect)
        ∧ (c.overlay.active_line = OSD_LINE_RESET_GAMEBOY →
          (command_check p change_line c).1.settings = c.settings
            ∧ (command_check p change_line c).2
                = [Effect.gpio_put GAMEBOY_RESET_PIN false, Effect.sleep_ms 50,
                   Effect.gpio_put GAMEBOY_RESET_PIN true])
        ∧ (c.overlay.active_line = OSD_LINE_EXIT →
          (command_check p change_line c).1.settings = c.settings
            ∧ (command_check p change_line c).1.overlay.enabled = false
            ∧ (command_check p change_line c).2 = [Effect.OSD_toggle]))
      ∧ (c.overlay.enabled = false →
          (command_check p change_line c).1.settings = c.settings
            ∧ (command_check p change_line c).2 = []) := by
  obtain ⟨h1, h2, h3⟩ := command_check_fields p change_line c
  rw [h1, h2, h3]
  constructor
  · intro hen hup hdown hedge
    have hor : (button_was_released c BUTTON_RIGHT || button_was_released c BUTTON_LEFT
        || button_was_released c BUTTON_A) = true := by
      rcases hedge with h | h | h <;> simp [h]
    have hd : command_dispatch p change_line c
        = command_line_action p c (button_was_released c BUTTON_LEFT) := by
      simp only [command_dispatch, hhome, OSD_is_enabled, hen, hup, hdown, hor,
        Bool.false_eq_true, if_false, if_true]
    rw [hd]
    have hstep : (if button_was_released c BUTTON_LEFT = true then (-1 : Int) else 1)
        = (if button_was_released c BUTTON_LEFT then (-1 : Int) else 1) := rfl
    refine ⟨?_, ?_, ?_, ?_, ?_, ?_⟩ <;> intro hline
    · simp [command_line_action, OSD_get_active_line, hline, change_scheme_offset]
    · simp [command_line_action, OSD_get_active_line, hline, change_border_color_index,
        OSD_LINE_BORDER_COLOR, OSD_LINE_COLOR_SCHEME]
    · simp [command_line_action, OSD_get_active_line, hline, change_video_effect,
        OSD_LINE_BORDER_COLOR, OSD_LINE_COLOR_SCHEME, OSD_LINE_EFFECTS]
    · simp [command_line_action, OSD_get_active_line, hline, change_scanline_color,
        OSD_LINE_BORDER_COLOR, OSD_LINE_COLOR_SCHEME, OSD_LINE_EFFECTS, OSD_LINE_FX_SCHEME]
    · simp [command_line_action, OSD_get_active_line, hline, gameboy_reset,
        OSD_LINE_BORDER_COLOR, OSD_LINE_COLOR_SCHEME, OSD_LINE_EFFECTS, OSD_LINE_FX_SCHEME,
        OSD_LINE_RESET_GAMEBOY]
    · simp [command_line_action, OSD_get_active_line, hline, OSD_toggle, hen,
        OSD_LINE_BORDER_COLOR, OSD_LINE_COLOR_SCHEME, OSD_LINE_EFFECTS, OSD_LINE_FX_SCHEME,
        OSD_LINE_RESET_GAMEBOY, OSD_LINE_EXIT]
  · intro hen
    simp [command_dispatch, hhome, OSD_is_enabled, hen]

/-- C14: without a Home release edge, (a) with the overlay enabled, no Up or
Down release edge and a Left, Right or A release edge, command_check applies
one step, -1 when Left shows a release edge and +1 otherwise, to the setting
bound to the active line (line 0: scheme offset, 1: border index, 2: effect
mode, 3: accent offset) and leaves the other three settings unchanged; on the
reset line it pulses the console reset line and on the exit line it toggles
the overlay off, changing no setting; (b) with the overlay disabled it changes
no setting and makes no call; (c) for a valid value the stepped setting is the
old value minus one step for Left and plus one step otherwise (a step of the
scheme offset is 4), wrapping from the first value to the last and from the
last to the first. -/
theorem menu_dispatch (p : Platform) (change_line : Overlay → Int → Overlay) (c : Console)
    (hhome : button_was_released c BUTTON_HOME = false) :
    (c.overlay.enabled = true →
      button_was_released c BUTTON_UP = false →
      button_was_released c BUTTON_DOWN = false →
      (button_was_released c BUTTON_LEFT = true ∨ button_was_released c BUTTON_RIGHT = true
        ∨ button_was_released c BUTTON_A = true) →
      (c.overlay.active_line = OSD_LINE_COLOR_SCHEME →
          (command_check p change_line c).1.settings
              = change_scheme_offset p c.settings
                  (if button_was_released c BUTTON_LEFT = true then -1 else 1)
            ∧ (command_check p change_line c).1.settings.border_color_index
                = c.settings.border_color_index
            ∧ (command_check p change_line c).1.settings.video_effect
                = c.settings.video_effect
            ∧ (command_check p change_line c).1.settings.scanline_color_offset
                = c.settings.scanline_color_offset)
        ∧ (c.overlay.active_line = OSD_LINE_BORDER_COLOR →
          (command_check p change_line c).1.settings
              = change_border_color_index p c.settings
                  (if button_was_released c BUTTON_LEFT = true then -1 else 1)
            ∧ (command_check p change_line c).1.settings.scheme_offset
                = c.settings.scheme_offset
            ∧ (command_check p change_line c).1.settings.video_effect
                = c.settings.video_effect
            ∧ (command_check p change_line c).1.settings.scanline_color_offset
                = c.settings.scanline_color_offset)
        ∧ (c.overlay.active_line = OSD_LINE_EFFECTS →
          (command_check p change_line c).1.settings
              = change_video_effect c.settings
                  (if button_was_released c BUTTON_LEFT = true then -1 else 1)
            ∧ (command_check p change_line c).1.settings.scheme_offset
                = c.settings.scheme_offset
            ∧ (command_check p change_line c).1.settings.border_color_index
                = c.settings.border_color_index
            ∧ (command_check p change_line c).1.settings.scanline_color_offset
                = c.settings.scanline_color_offset)
        ∧ (c.overlay.active_line = OSD_LINE_FX_SCHEME →
          (command_check p change_line c).1.settings
              = change_scanline_color p c.settings
                  (if button_was_released c BUTTON_LEFT = true then -1 else 1)
            ∧ (command_check p change_line c).1.settings.scheme_offset
                = c.settings.scheme_offset
            ∧ (command_check p change_line c).1.settings.border_color_index
                = c.settings.border_color_index
            ∧ (command_check p change_line c).1.settings.video_effect
                = c.settings.video_effect)
        ∧ (c.overlay.active_line = OSD_LINE_RESET_GAMEBOY →
          (command_check p change_line c).1.settings = c.settings
            ∧ (command_check p change_line c).2
                = [Effect.gpio_put GAMEBOY_RESET_PIN false, Effect.sleep_ms 50,
                   Effect.gpio_put GAMEBOY_RESET_PIN true])
        ∧ (c.overlay.active_line = OSD_LINE_EXIT →
          (command_check p change_line c).1.settings = c.settings
            ∧ (command_check p change_line c).1.overlay.enabled = false
            ∧ (command_check p change_line c).2 = [Effect.OSD_toggle]))
      ∧ (c.overlay.enabled = false →
          (command_check p change_line c).1.settings = c.settings
            ∧ (command_check p change_line c).2 = [])
      ∧ (c.overlay.enabled = true →
          button_was_released c BUTTON_UP = false →
          button_was_released c BUTTON_DOWN = false →
          (button_was_released c BUTTON_LEFT = true
            ∨ button_was_released c BUTTON_RIGHT = true
            ∨ button_was_released c BUTTON_A = true) →
          (c.overlay.active_line = OSD_LINE_COLOR_SCHEME →
            c.settings.scheme_offset % 4 = 0 ∧ 0 ≤ c.settings.scheme_offset
              ∧ c.settings.scheme_offset ≤ 144 →
            (command_check p change_line c).1.settings.scheme_offset
                = (if button_was_released c BUTTON_LEFT = true then
                      (if c.settings.scheme_offset = 0 then 144
                        else c.settings.scheme_offset - 4)
                    else
                      (if c.settings.scheme_offset = 144 then 0
                        else c.settings.scheme_offset + 4))
              ∧ (command_check p change_line c).1.settings.scanline_color
                  = c.settings.scanline_color)
            ∧ (c.overlay.active_line = OSD_LINE_BORDER_COLOR →
              0 ≤ c.settings.border_color_index ∧ c.settings.border_color_index ≤ 8 →
              (command_check p change_line c).1.settings.border_color_index
                  = (if button_was_released c BUTTON_LEFT = true then
                        (if c.settings.border_color_index = 0 then 8
                          else c.settings.border_color_index - 1)
                      else
                        (if c.settings.border_color_index = 8 then 0
                          else c.settings.border_color_index + 1))
                ∧ (command_check p change_line c).1.settings.scanline_color
                    = c.settings.scanline_color)
            ∧ (c.overlay.active_line = OSD_LINE_EFFECTS →
              0 ≤ c.settings.video_effect ∧ c.settings.video_effect ≤ 2 →
              (command_check p change_line c).1.settings.video_effect
                  = (if button_was_released c BUTTON_LEFT = true then
                        (if c.settings.video_effect = 0 then 2
                          else c.settings.video_effect - 1)
                      else
                        (if c.settings.video_effect = 2 then 0
                          else c.settings.video_effect + 1))
                ∧ (command_check p change_line c).1.settings.scanline_color
                    = c.settings.scanline_color)
            ∧ (c.overlay.active_line = OSD_LINE_FX_SCHEME →
              0 ≤ c.settings.scanline_color_offset ∧ c.settings.scanline_color_offset ≤ 3 →
              (command_check p change_line c).1.settings.scanline_color_offset
                  = (if button_was_released c BUTTON_LEFT = true then
                        (if c.settings.scanline_color_offset = 0 then 3
                          else c.settings.scanline_color_offset - 1)
                      else
                        (if c.settings.scanline_color_offset = 3 then 0
                          else c.settings.scanline_color_offset + 1))
                ∧ (command_check p change_line c).1.settings.scanline_color
                    = colors_at p (c.settings.scheme_offset
                        + (command_check p change_line c).1.settings.scanline_color_offset))) := by
  have hcore := menu_dispatch_core p change_line c hhome
  refine ⟨hcore.1, hcore.2, ?_⟩
  intro hen hup hdown hedge
  obtain ⟨k0, k1, k2, k3, _, _⟩ := hcore.1 hen hup hdown hedge
  refine ⟨?_, ?_, ?_, ?_⟩
  · intro hline hvalid
    rw [(k0 hline).1]
    exact ⟨change_scheme_offset_step p c.settings _ hvalid, rfl⟩
  · intro hline hvalid
    rw [(k1 hline).1]
    exact ⟨change_border_color_index_step p c.settings _ hvalid, rfl⟩
  · intro hline hvalid
    rw [(k2 hline).1]
    exact ⟨change_video_effect_step c.settings _ hvalid, rfl⟩
  · intro hline hvalid
    rw [(k3 hline).1]
    exact ⟨change_scanline_color_step p c.settings _ hvalid, rfl⟩

/-- Witness of C14: the overlay enabled on the border-colour line with border
index 0, and a release edge of Left alone: the border index becomes 8. -/
theorem menu_dispatch_witness :
    (command_check sample_platform sample_change_line
        { sample_console with
            overlay := { enabled := true, active_line := 1 }
            button_states_previous := fun i => if i = BUTTON_LEFT then 0 else 1
        }).1.settings.border_color_index = 8 :=
  ((((menu_dispatch sample_platform sample_change_line
    { sample_console with
        overlay := { enabled := true, active_line := 1 }
        button_states_previous := fun i => if i = BUTTON_LEFT then 0 else 1 }
    rfl).2.2 rfl rfl rfl (Or.inl rfl)).2.1) rfl (by decide)).1

/-- C15: when the overlay is enabled, gpio_callback, for every pin and every
event mask, makes no gpio_put call, so it drives none of the four
button-matrix output lines, and leaves the state, every entry of button_states
included, unchanged. -/
theorem overlay_blocks_input (c : Console) (gpio events : Nat)
    (hosd : c.overlay.enabled = true) :
    (gpio_callback c gpio events).2 = []
      ∧ (gpio_callback c gpio events).1 = c
      ∧ (∀ i, (gpio_callback c gpio events).1.button_states i = c.button_states i) := by
  have h : gpio_callback c gpio events = (c, []) := by
    simp [gpio_callback, OSD_is_enabled, hosd]
  rw [h]
  exact ⟨rfl, rfl, fun _ => rfl⟩

/-- Witness of C15: a rising edge on the DPAD select line while the overlay is
enabled and every button is pressed. -/
theorem overlay_blocks_input_witness :
    (gpio_callback
      { sample_console with overlay := { enabled := true }, button_states := fun _ => 0 }
      BUTTONS_DPAD_PIN 8).2 = [] :=
  (overlay_blocks_input
    { sample_console with overlay := { enabled := true }, button_states := fun _ => 0 }
    BUTTONS_DPAD_PIN 8 rfl).1

/-- C16: with the overlay disabled, the gpio_put calls of gpio_callback are, in
order: on a falling edge of the DPAD select line the four output lines
(RIGHT_A, LEFT_B, UP_SELECT, DOWN_START) driven with the current states of
(Right, Left, Up, Down); on a rising edge of that line the four lines driven
with the current states of (A, B, Select, Start); on a rising edge of the
other select line the four lines driven released (1); an event on any other
pin or edge drives no line. -/
theorem mirror_buttons (c : Console) (gpio events : Nat)
    (hosd : c.overlay.enabled = false) :
    (gpio_callback c gpio events).2
        = (if gpio = BUTTONS_DPAD_PIN ∧ events &&& (1 <<< 2) ≠ 0 then
              put_matrix (to_bool (c.button_states BUTTON_RIGHT))
                (to_bool (c.button_states BUTTON_LEFT))
                (to_bool (c.button_states BUTTON_UP))
                (to_bool (c.button_states BUTTON_DOWN))
            else [])
          ++ (if gpio = BUTTONS_DPAD_PIN ∧ events &&& (1 <<< 3) ≠ 0 then
              put_matrix (to_bool (c.button_states BUTTON_A))
                (to_bool (c.button_states BUTTON_B))
                (to_bool (c.button_states BUTTON_SELECT))
                (to_bool (c.button_states BUTTON_START))
            else [])
          ++ (if gpio = BUTTONS_OTHER_PIN ∧ events &&& (1 <<< 3) ≠ 0 then
              put_matrix true true true true
            else [])
      ∧ (gpio = BUTTONS_DPAD_PIN → events &&& (1 <<< 2) ≠ 0 → events &&& (1 <<< 3) = 0 →
          (gpio_callback c gpio events).2
            = [Effect.gpio_put BUTTONS_RIGHT_A_PIN (to_bool (c.button_states BUTTON_RIGHT)),
               Effect.gpio_put BUTTONS_LEFT_B_PIN (to_bool (c.button_states BUTTON_LEFT)),
               Effect.gpio_put BUTTONS_UP_SELECT_PIN (to_bool (c.button_states BUTTON_UP)),
               Effect.gpio_put BUTTONS_DOWN_START_PIN
                 (to_bool (c.button_states BUTTON_DOWN))])
      ∧ (gpio = BUTTONS_DPAD_PIN → events &&& (1 <<< 3) ≠ 0 → events &&& (1 <<< 2) = 0 →
          (gpio_callback c gpio events).2
            = [Effect.gpio_put BUTTONS_RIGHT_A_PIN (to_bool (c.button_states BUTTON_A)),
               Effect.gpio_put BUTTONS_LEFT_B_PIN (to_bool (c.button_states BUTTON_B)),
               Effect.gpio_put BUTTONS_UP_SELECT_PIN (to_bool (c.button_states BUTTON_SELECT)),
               Effect.gpio_put BUTTONS_DOWN_START_PIN
                 (to_bool (c.button_states BUTTON_START))])
      ∧ (gpio = BUTTONS_OTHER_PIN → events &&& (1 <<< 3) ≠ 0 →
          (gpio_callback c gpio events).2
            = [Effect.gpio_put BUTTONS_RIGHT_A_PIN true,
               Effect.gpio_put BUTTONS_LEFT_B_PIN true,
               Effect.gpio_put BUTTONS_UP_SELECT_PIN true,
               Effect.gpio_put BUTTONS_DOWN_START_PIN true])
      ∧ ((gpio ≠ BUTTONS_DPAD_PIN ∧ gpio ≠ BUTTONS_OTHER_PIN)
          ∨ (gpio = BUTTONS_DPAD_PIN ∧ events &&& (1 <<< 2) = 0 ∧ events &&& (1 <<< 3) = 0)
          ∨ (gpio = BUTTONS_OTHER_PIN ∧ events &&& (1 <<< 3) = 0) →
          (gpio_callback c gpio events).2 = [])
      ∧ to_bool 0 = false ∧ to_bool 1 = true := by
  have hdo : BUTTONS_DPAD_PIN ≠ BUTTONS_OTHER_PIN := by decide
  have e2 : (1 <<< 2 : Nat) = 4 := rfl
  have e3 : (1 <<< 3 : Nat) = 8 := rfl
  simp only [e2, e3]
  have hmain : (gpio_callback c gpio events).2
        = (if gpio = BUTTONS_DPAD_PIN ∧ events &&& 4 ≠ 0 then
              put_matrix (to_bool (c.button_states BUTTON_RIGHT))
                (to_bool (c.button_states BUTTON_LEFT))
                (to_bool (c.button_states BUTTON_UP))
                (to_bool (c.button_states BUTTON_DOWN))
            else [])
          ++ (if gpio = BUTTONS_DPAD_PIN ∧ events &&& 8 ≠ 0 then
              put_matrix (to_bool (c.button_states BUTTON_A))
                (to_bool (c.button_states BUTTON_B))
                (to_bool (c.button_states BUTTON_SELECT))
                (to_bool (c.button_states BUTTON_START))
            else [])
          ++ (if gpio = BUTTONS_OTHER_PIN ∧ events &&& 8 ≠ 0 then
              put_matrix true true true true
            else []) := by
    simp only [gpio_callback, OSD_is_enabled, hosd, Bool.false_eq_true, if_false, e2, e3]
    by_cases hg : gpio = BUTTONS_DPAD_PIN
    · have hg2 : gpio ≠ BUTTONS_OTHER_PIN := by rw [hg]; exact hdo
      by_cases hr : events &&& 8 = 0 <;> by_cases hf : events &&& 4 = 0 <;>
        simp [hg, hdo, hr, hf]
    · have hne : BUTTONS_OTHER_PIN ≠ BUTTONS_DPAD_PIN := by decide
      by_cases hg2 : gpio = BUTTONS_OTHER_PIN
      · subst hg2; simp [hne]
      · simp [hg, hg2]
  refine ⟨hmain, ?_, ?_, ?_, ?_, by decide, by decide⟩
  · intro hg hf hr
    rw [hmain]
    simp [hg, hdo, hf, hr, put_matrix]
  · intro hg hr hf
    rw [hmain]
    simp [hg, hdo, hf, hr, put_matrix]
  · intro hg hr
    rw [hmain]
    have hne : BUTTONS_OTHER_PIN ≠ BUTTONS_DPAD_PIN := by decide
    simp [hg, hne, hr, put_matrix]
  · intro h
    rw [hmain]
    rcases h with ⟨h1, h2⟩ | ⟨h1, h2, h3⟩ | ⟨h1, h2⟩
    · simp [h1, h2]
    · simp [h1, hdo, h2, h3]
    · have hne : BUTTONS_OTHER_PIN ≠ BUTTONS_DPAD_PIN := by decide
      simp [h1, hne, h2]

/-- Witness of C16: a falling edge on the DPAD select line with Right pressed. -/
theorem mirror_buttons_witness :
    (gpio_callback
        { sample_console with button_states := fun i => if i = BUTTON_RIGHT then 0 else 1 }
        BUTTONS_DPAD_PIN 4).2
      = [Effect.gpio_put BUTTONS_RIGHT_A_PIN false,
         Effect.gpio_put BUTTONS_LEFT_B_PIN true,
         Effect.gpio_put BUTTONS_UP_SELECT_PIN true,
         Effect.gpio_put BUTTONS_DOWN_START_PIN true] :=
  (mirror_buttons
    { sample_console with button_states := fun i => if i = BUTTON_RIGHT then 0 else 1 }
    BUTTONS_DPAD_PIN 4 rfl).2.1 rfl (by decide) (by decide)

/-! ## Properties of the controller driver -/

/-- The byte loop leaves the button states alone and the flag valid clear when
the identification bytes 0..3 are all 0xFF. -/
theorem controller_bytes_invalid (buf states : Nat → Nat)
    (h : ∀ i, i < 4 → buf i = 0xFF) :
    (List.range 8).foldl (controller_byte buf) (false, states) = (false, states) := by
  have hr : List.range 8 = [0, 1, 2, 3, 4, 5, 6, 7] := by decide
  have h0 := h 0 (by decide)
  have h1 := h 1 (by decide)
  have h2 := h 2 (by decide)
  have h3 := h 3 (by decide)
  rw [hr]
  simp [controller_byte, h0, h1, h2, h3]

/-- Counterexample to C17 as stated: an accepted poll whose bus read returns an
error leaves the initialized flag set. -/
theorem read_error_keeps_initialized_counterexample :
    poll_rejected { sample_console with initialized := true }
        { current_micros := 30000, ret := -1, data := fun _ => 0, later_micros := 31000 }
        = false
      ∧ (nes_classic_controller { sample_console with initialized := true }
          { current_micros := 30000, ret := -1, data := fun _ => 0,
            later_micros := 31000 }).1.initialized = true := by
  decide

/-- C17 (amended): for an accepted poll of nes_classic_controller, (a) when the
bus read returns an error (ret < 0), every entry of button_states is left
unchanged and the initialized flag is set, so the next accepted poll starts
with the read request and not with the initialization sequence; (b) when the
read succeeds and the identification bytes 0..3 are all 0xFF, every entry of
button_states is left unchanged and the initialized flag is cleared, so the
next accepted poll re-runs the initialization sequence. -/
theorem failed_poll (c : Console) (inp : PollInput)
    (hacc : poll_rejected c inp = false) :
    (inp.ret < 0 →
        (nes_classic_controller c inp).1.button_states = c.button_states
          ∧ (nes_classic_controller c inp).1.initialized = true
          ∧ (∀ next, poll_rejected (nes_classic_controller c inp).1 next = false →
              ∃ rest, (nes_classic_controller (nes_classic_controller c inp).1 next).2
                = [Effect.i2c_write [0x00], Effect.sleep_ms 1, Effect.i2c_read 8] ++ rest))
      ∧ (0 ≤ inp.ret → (∀ i, i < 4 → inp.data i = 0xFF) →
        (nes_classic_controller c inp).1.button_states = c.button_states
          ∧ (nes_classic_controller c inp).1.initialized = false
          ∧ (∀ next, poll_rejected (nes_classic_controller c inp).1 next = false →
              ∃ rest, (nes_classic_controller (nes_classic_controller c inp).1 next).2
                = controller_init_sequence ++ rest)) := by
  have hnext : ∀ (d : Console) (next : PollInput), poll_rejected d next = false →
      ∃ rest, (nes_classic_controller d next).2
        = (if d.initialized = true then [] else controller_init_sequence)
            ++ [Effect.i2c_write [0x00], Effect.sleep_ms 1, Effect.i2c_read 8] ++ rest := by
    intro d next hd
    simp only [nes_classic_controller, hd, Bool.false_eq_true, if_false]
    split_ifs <;> simp
  constructor
  · intro hret
    have hc : nes_classic_controller c inp
        = ({ c with initialized := true, last_micros := inp.later_micros,
                    i2c_buffer := fun i => if i < 8 then inp.data i else
                      (if c.initialized = true then c.i2c_buffer
                        else Function.update (Function.update c.i2c_buffer 0 0xFB) 1 0x00) i },
            (if c.initialized = true then [] else controller_init_sequence)
              ++ [Effect.i2c_write [0x00], Effect.sleep_ms 1, Effect.i2c_read 8]) := by
      simp only [nes_classic_controller, hacc, Bool.false_eq_true, if_false, hret, if_true]
    rw [hc]
    refine ⟨rfl, rfl, ?_⟩
    intro next hn
    obtain ⟨rest, hrest⟩ := hnext _ next hn
    exact ⟨rest, by simpa using hrest⟩
  · intro hret hff
    have hnot : ¬ inp.ret < 0 := by omega
    have hbuf : ∀ i, i < 4 →
        (fun i => if i < 8 then inp.data i else
          (if c.initialized = true then c.i2c_buffer
            else Function.update (Function.update c.i2c_buffer 0 0xFB) 1 0x00) i) i = 0xFF := by
      intro i hi
      have : i < 8 := by omega
      simp [this, hff i hi]
    have hfold := controller_bytes_invalid _ c.button_states hbuf
    have hc : (nes_classic_controller c inp).1.button_states = c.button_states
        ∧ (nes_classic_controller c inp).1.initialized = false := by
      simp only [nes_classic_controller, hacc, Bool.false_eq_true, if_false, hnot, hfold]
      exact ⟨trivial, trivial⟩
    refine ⟨hc.1, hc.2, ?_⟩
    intro next hn
    obtain ⟨rest, hrest⟩ := hnext _ next hn
    rw [hc.2] at hrest
    exact ⟨[Effect.i2c_write [0x00], Effect.sleep_ms 1, Effect.i2c_read 8] ++ rest,
      by simpa using hrest⟩

/-- Witness of C17 (amended): an accepted poll whose read returns eight bytes
0xFF clears the initialized flag. -/
theorem failed_poll_witness :
    (nes_classic_controller { sample_console with initialized := true }
        { current_micros := 30000, ret := 8, data := fun _ => 0xFF,
          later_micros := 31000 }).1.initialized = false :=
  ((failed_poll { sample_console with initialized := true }
    { current_micros := 30000, ret := 8, data := fun _ => 0xFF, later_micros := 31000 }
    (by decide)).2 (by decide) (fun _ _ => rfl)).2.1

/-! ## Properties of the coordinate maps and of the cyclic settings -/

/-- The horizontal coordinate map that set_indexes builds. -/
theorem set_indexes_x (m : VideoMem) (n : Nat) (hn : n < PIXELS_X * PIXEL_SCALE) :
    (set_indexes m).indexes_x n = n / PIXEL_SCALE := by
  have h := (set_index_fold m.indexes_x PIXELS_X (by decide)).2 n
  have hn2 : n < PIXEL_SCALE * PIXELS_X := by rw [Nat.mul_comm]; exact hn
  simpa [set_indexes, hn2] using h

/-- C18: after set_indexes, indexes_x[n] = n / PIXEL_SCALE for every
n < PIXELS_X*PIXEL_SCALE = 480 and indexes_y[n] = n / PIXEL_SCALE for every
n < PIXELS_Y*PIXEL_SCALE = 432; each stored value is below 256, so the 8-bit
cell holds it without truncation, and is a valid source coordinate
(below PIXELS_X, below PIXELS_Y); hence the framebuffer row that
render_scanline selects for a line of the active window lies inside the
framebuffer. -/
theorem set_indexes_maps (m : VideoMem) :
    (∀ n, n < PIXELS_X * PIXEL_SCALE →
        (set_indexes m).indexes_x n = n / PIXEL_SCALE
          ∧ (n / PIXEL_SCALE) % 256 = n / PIXEL_SCALE
          ∧ (set_indexes m).indexes_x n < PIXELS_X)
      ∧ (∀ n, n < PIXELS_Y * PIXEL_SCALE →
        (set_indexes m).indexes_y n = n / PIXEL_SCALE
          ∧ (n / PIXEL_SCALE) % 256 = n / PIXEL_SCALE
          ∧ (set_indexes m).indexes_y n < PIXELS_Y)
      ∧ (∀ line_num x, BORDER_VERT ≤ line_num →
          line_num < PIXELS_Y * PIXEL_SCALE + BORDER_VERT → x < PIXELS_X →
          (set_indexes m).indexes_y (line_num - BORDER_VERT) * PIXELS_X + x < PIXEL_COUNT)
      ∧ PIXELS_X * PIXEL_SCALE = 480 ∧ PIXELS_Y * PIXEL_SCALE = 432 := by
  refine ⟨?_, ?_, ?_, by decide, by decide⟩
  · intro n hn
    rw [set_indexes_x m n hn]
    simp only [PIXELS_X, PIXEL_SCALE] at hn ⊢
    refine ⟨trivial, ?_, ?_⟩ <;> omega
  · intro n hn
    rw [set_indexes_y m n hn]
    simp only [PIXELS_Y, PIXEL_SCALE] at hn ⊢
    refine ⟨trivial, ?_, ?_⟩ <;> omega
  · intro line_num x h1 h2 hx
    rw [set_indexes_y m _ (by omega)]
    simp only [PIXELS_X, PIXELS_Y, PIXEL_SCALE, BORDER_VERT, PIXEL_COUNT] at h1 h2 hx ⊢
    omega

/-- Witness of C18: cell 100 of the vertical map of the sample memory. -/
theorem set_indexes_maps_witness :
    (set_indexes sample_mem).indexes_y 100 = 100 / PIXEL_SCALE :=
  ((set_indexes_maps sample_mem).2.1 100 (by decide)).1

/-- C19: for every valid video_effect, change_video_effect(+1) maps None to
Pixel-effect, Pixel-effect to Scanlines and Scanlines to None,
change_video_effect(-1) maps in the reverse order, three +1 steps and +1
followed by -1 restore the settings; for every accent offset in 0..3,
change_scanline_color(+1) maps 0 to 1, 1 to 2, 2 to 3 and 3 to 0, and
change_scanline_color(-1) undoes it on the accent offset, in either order. -/
theorem cyclic_settings (p : Platform) (s : Settings)
    (hv : 0 ≤ s.video_effect ∧ s.video_effect < VIDEO_EFFECT_COUNT)
    (ha : 0 ≤ s.scanline_color_offset ∧ s.scanline_color_offset ≤ 3) :
    (s.video_effect = VIDEO_EFFECT_NONE →
        (change_video_effect s 1).video_effect = VIDEO_EFFECT_PIXEL_EFFECT
          ∧ (change_video_effect s (-1)).video_effect = VIDEO_EFFECT_SCANLINES)
      ∧ (s.video_effect = VIDEO_EFFECT_PIXEL_EFFECT →
        (change_video_effect s 1).video_effect = VIDEO_EFFECT_SCANLINES
          ∧ (change_video_effect s (-1)).video_effect = VIDEO_EFFECT_NONE)
      ∧ (s.video_effect = VIDEO_EFFECT_SCANLINES →
        (change_video_effect s 1).video_effect = VIDEO_EFFECT_NONE
          ∧ (change_video_effect s (-1)).video_effect = VIDEO_EFFECT_PIXEL_EFFECT)
      ∧ change_video_effect (change_video_effect (change_video_effect s 1) 1) 1 = s
      ∧ change_video_effect (change_video_effect s 1) (-1) = s
      ∧ change_video_effect (change_video_effect s (-1)) 1 = s
      ∧ (change_scanline_color p s 1).scanline_color_offset
          = (if s.scanline_color_offset = 3 then 0 else s.scanline_color_offset + 1)
      ∧ (change_scanline_color p s (-1)).scanline_color_offset
          = (if s.scanline_color_offset = 0 then 3 else s.scanline_color_offset - 1)
      ∧ (change_scanline_color p (change_scanline_color p s 1) (-1)).scanline_color_offset
          = s.scanline_color_offset
      ∧ (change_scanline_color p (change_scanline_color p s (-1)) 1).scanline_color_offset
          = s.scanline_color_offset := by
  obtain ⟨hv1, hv2⟩ := hv
  obtain ⟨ha1, ha2⟩ := ha
  simp only [VIDEO_EFFECT_COUNT] at hv2
  have e3 : (change_video_effect (change_video_effect (change_video_effect s 1) 1)
      1).video_effect = s.video_effect := by
    simp only [change_video_effect, VIDEO_EFFECT_COUNT, VIDEO_EFFECT_NONE]
    split_ifs <;> omega
  have e2 : (change_video_effect (change_video_effect s 1) (-1)).video_effect
      = s.video_effect := by
    simp only [change_video_effect, VIDEO_EFFECT_COUNT, VIDEO_EFFECT_NONE]
    split_ifs <;> omega
  have e1 : (change_video_effect (change_video_effect s (-1)) 1).video_effect
      = s.video_effect := by
    simp only [change_video_effect, VIDEO_EFFECT_COUNT, VIDEO_EFFECT_NONE]
    split_ifs <;> omega
  refine ⟨?_, ?_, ?_, ?_, ?_, ?_, ?_, ?_, ?_, ?_⟩
  · intro h
    simp only [change_video_effect, VIDEO_EFFECT_COUNT, VIDEO_EFFECT_NONE,
      VIDEO_EFFECT_PIXEL_EFFECT, VIDEO_EFFECT_SCANLINES] at h ⊢
    constructor <;> split_ifs <;> omega
  · intro h
    simp only [change_video_effect, VIDEO_EFFECT_COUNT, VIDEO_EFFECT_NONE,
      VIDEO_EFFECT_PIXEL_EFFECT, VIDEO_EFFECT_SCANLINES] at h ⊢
    constructor <;> split_ifs <;> omega
  · intro h
    simp only [change_video_effect, VIDEO_EFFECT_COUNT, VIDEO_EFFECT_NONE,
      VIDEO_EFFECT_PIXEL_EFFECT, VIDEO_EFFECT_SCANLINES] at h ⊢
    constructor <;> split_ifs <;> omega
  · cases s
    simp only [change_video_effect] at e3 ⊢
    simp only [e3]
  · cases s
    simp only [change_video_effect] at e2 ⊢
    simp only [e2]
  · cases s
    simp only [change_video_effect] at e1 ⊢
    simp only [e1]
  · simp only [change_scanline_color]
    split_ifs <;> omega
  · simp only [change_scanline_color]
    split_ifs <;> omega
  · simp only [change_scanline_color]
    split_ifs <;> omega
  · simp only [change_scanline_color]
    split_ifs <;> omega

/-- Witness of C19: the boot settings, whose effect is None and whose accent
offset is 0. -/
theorem cyclic_settings_witness :
    change_video_effect (change_video_effect (change_video_effect
      (boot sample_platform) 1) 1) 1 = boot sample_platform :=
  (cyclic_settings sample_platform (boot sample_platform) (by decide) (by decide)).2.2.2.1

/-! ## Properties of the signal acquisition -/

theorem sample_eq (sig : VideoSignal) (y x : Nat) :
    sample sig y x = 2 * (sig.data_0 y x).toNat + (sig.data_1 y x).toNat
      ∧ sample sig y x ≤ 3 := by
  unfold sample
  cases sig.data_0 y x <;> cases sig.data_1 y x <;> decide

theorem capture_pixel_spec (sig : VideoSignal) (y x : Nat) (k : Capture) :
    (capture_pixel sig y k x).p = k.p + 1
      ∧ (capture_pixel sig y k x).vsync_reset = k.vsync_reset
      ∧ (capture_pixel sig y k x).rows = k.rows
      ∧ ∀ i, (capture_pixel sig y k x).framebuffer i
          = if i = k.p then sample sig y x else k.framebuffer i := by
  have hs := (sample_eq sig y x).2
  have hm : sample sig y x % 256 = sample sig y x := by omega
  refine ⟨rfl, rfl, rfl, ?_⟩
  intro i
  simp only [capture_pixel, Function.update_apply, hm]

theorem capture_pixels_fold (sig : VideoSignal) (y n : Nat) (k : Capture) :
    ((List.range n).foldl (fun k x => capture_pixel sig y k (x + 1)) k).p = k.p + n
      ∧ ((List.range n).foldl (fun k x => capture_pixel sig y k (x + 1)) k).vsync_reset
          = k.vsync_reset
      ∧ ((List.range n).foldl (fun k x => capture_pixel sig y k (x + 1)) k).rows = k.rows
      ∧ ∀ i, ((List.range n).foldl (fun k x => capture_pixel sig y k (x + 1)) k).framebuffer i
          = if k.p ≤ i ∧ i < k.p + n then sample sig y (i - k.p + 1) else k.framebuffer i := by
  induction n with
  | zero =>
    refine ⟨rfl, rfl, rfl, ?_⟩
    intro i
    have : ¬ (k.p ≤ i ∧ i < k.p + 0) := by omega
    simp only [this, if_false]
    rfl
  | succ j ih =>
    obtain ⟨h1, h2, h3, h4⟩ := ih
    rw [List.range_succ, List.foldl_append]
    simp only [List.foldl_cons, List.foldl_nil]
    generalize (List.range j).foldl (fun k x => capture_pixel sig y k (x + 1)) k = F
      at h1 h2 h3 h4 ⊢
    obtain ⟨q1, q2, q3, q4⟩ := capture_pixel_spec sig y (j + 1) F
    refine ⟨by omega, by rw [q2, h2], by rw [q3, h3], ?_⟩
    intro i
    rw [q4, h4, h1]
    by_cases hi : i = k.p + j
    · have e : i - k.p + 1 = j + 1 := by omega
      have hc : k.p ≤ i ∧ i < k.p + (j + 1) := by omega
      rw [if_pos hi, if_pos hc, e]
    · rw [if_neg hi]
      by_cases hc : k.p ≤ i ∧ i < k.p + j
      · have hc2 : k.p ≤ i ∧ i < k.p + (j + 1) := by omega
        rw [if_pos hc, if_pos hc2]
      · have hc2 : ¬ (k.p ≤ i ∧ i < k.p + (j + 1)) := by omega
        rw [if_neg hc, if_neg hc2]

/-- One row of video_stuff writes PIXELS_X cells from the pointer on. -/
theorem capture_row_spec (sig : VideoSignal) (y : Nat) (k : Capture) :
    (capture_row sig y k).p = k.p + PIXELS_X
      ∧ (capture_row sig y k).vsync_reset = k.vsync_reset
      ∧ (capture_row sig y k).rows = k.rows
      ∧ ∀ i, (capture_row sig y k).framebuffer i
          = if k.p ≤ i ∧ i < k.p + PIXELS_X then sample sig y (i - k.p)
            else k.framebuffer i := by
  obtain ⟨h1, h2, h3, h4⟩ :=
    capture_pixels_fold sig y (PIXELS_X - 1) (capture_pixel sig y k 0)
  obtain ⟨q1, q2, q3, q4⟩ := capture_pixel_spec sig y 0 k
  unfold capture_row
  refine ⟨?_, by rw [h2, q2], by rw [h3, q3], ?_⟩
  · rw [h1, q1]; simp only [PIXELS_X]
  · intro i
    rw [h4, q4, q1]
    simp only [PIXELS_X]
    by_cases hi : i = k.p
    · have hc : ¬ (k.p + 1 ≤ i ∧ i < k.p + 1 + (160 - 1)) := by omega
      have hc2 : k.p ≤ i ∧ i < k.p + 160 := by omega
      have e : i - k.p = 0 := by omega
      rw [if_neg hc, if_pos hi, if_pos hc2, e]
    · by_cases hc : k.p + 1 ≤ i ∧ i < k.p + 1 + (160 - 1)
      · have hc2 : k.p ≤ i ∧ i < k.p + 160 := by omega
        have e : i - (k.p + 1) + 1 = i - k.p := by omega
        rw [if_pos hc, if_pos hc2, e]
      · have hc2 : ¬ (k.p ≤ i ∧ i < k.p + 160) := by omega
        rw [if_neg hc, if_neg hi, if_neg hc2]

theorem capture_rows_break (sig : VideoSignal) (y n : Nat) (k : Capture)
    (hv : sig.vsync_after_row y = true) (hr : k.vsync_reset = true) :
    capture_rows sig y (n + 1) k
      = { capture_row sig y k with vsync_reset := true, rows := y + 1 } := by
  have h2 := (capture_row_spec sig y k).2.1
  simp [capture_rows, hv, h2, hr]

theorem capture_rows_continue (sig : VideoSignal) (y n : Nat) (k : Capture)
    (h : ¬ (sig.vsync_after_row y = true ∧ k.vsync_reset = true)) :
    capture_rows sig y (n + 1) k
      = capture_rows sig (y + 1) n
          { capture_row sig y k with
              vsync_reset := !sig.vsync_after_row y || k.vsync_reset, rows := y + 1 } := by
  have h2 := (capture_row_spec sig y k).2.1
  cases hv : sig.vsync_after_row y <;> cases hr : k.vsync_reset <;>
    simp_all [capture_rows]

/-- The row loop of video_stuff from row y on: the rows it captures and the
cells it writes. -/
theorem capture_rows_spec (sig : VideoSignal) (n : Nat) :
    ∀ (y : Nat) (k : Capture), k.p = y * PIXELS_X → k.rows = y →
      (k.vsync_reset = true ↔ ∃ z, z < y ∧ sig.vsync_after_row z = false) →
      (capture_rows sig y n k).p = (capture_rows sig y n k).rows * PIXELS_X
        ∧ y ≤ (capture_rows sig y n k).rows
        ∧ (capture_rows sig y n k).rows ≤ y + n
        ∧ (0 < n → y < (capture_rows sig y n k).rows)
        ∧ (∀ z, y ≤ z → z + 1 < (capture_rows sig y n k).rows → ¬ stop_row sig z)
        ∧ ((capture_rows sig y n k).rows < y + n →
            stop_row sig ((capture_rows sig y n k).rows - 1))
        ∧ (∀ i, (capture_rows sig y n k).framebuffer i
            = if y * PIXELS_X ≤ i ∧ i < (capture_rows sig y n k).rows * PIXELS_X then
                sample sig (i / PIXELS_X) (i % PIXELS_X)
              else k.framebuffer i) := by
  induction n with
  | zero =>
    intro y k hp hrows _
    simp only [capture_rows, hp, hrows]
    refine ⟨trivial, Nat.le_refl _, Nat.le_refl _, ?_, ?_, ?_, ?_⟩
    · intro h; omega
    · intro z h1 h2; omega
    · intro h; omega
    · intro i
      have : ¬ (y * PIXELS_X ≤ i ∧ i < y * PIXELS_X) := by omega
      simp only [this, if_false]
  | succ j ih =>
    intro y k hp hrows hflag
    obtain ⟨r1, r2, _, r4⟩ := capture_row_spec sig y k
    have hcell : ∀ i, (capture_row sig y k).framebuffer i
        = if y * PIXELS_X ≤ i ∧ i < (y + 1) * PIXELS_X then
            sample sig (i / PIXELS_X) (i % PIXELS_X)
          else k.framebuffer i := by
      intro i
      rw [r4, hp]
      simp only [PIXELS_X]
      by_cases hc : y * 160 ≤ i ∧ i < y * 160 + 160
      · have hc2 : y * 160 ≤ i ∧ i < (y + 1) * 160 := by omega
        have e1 : i / 160 = y := by omega
        have e2 : i % 160 = i - y * 160 := by omega
        rw [if_pos hc, if_pos hc2, e1, e2]
      · have hc2 : ¬ (y * 160 ≤ i ∧ i < (y + 1) * 160) := by omega
        rw [if_neg hc, if_neg hc2]
    by_cases hbreak : sig.vsync_after_row y = true ∧ k.vsync_reset = true
    · -- the loop breaks after row y
      rw [capture_rows_break sig y j k hbreak.1 hbreak.2]
      have hs : stop_row sig y := ⟨hbreak.1, hflag.1 hbreak.2⟩
      refine ⟨?_, ?_, ?_, ?_, ?_, ?_, ?_⟩
      · show (capture_row sig y k).p = (y + 1) * PIXELS_X
        rw [r1, hp]; simp only [PIXELS_X]; omega
      · show y ≤ y + 1
        omega
      · show y + 1 ≤ y + (j + 1)
        omega
      · intro _
        show y < y + 1
        omega
      · intro z h1 h2
        have h3 : z + 1 < y + 1 := h2
        omega
      · intro _
        show stop_row sig (y + 1 - 1)
        simpa using hs
      · intro i
        exact hcell i
    · -- the loop goes on with row y + 1
      rw [capture_rows_continue sig y j k hbreak]
      have hns : ¬ stop_row sig y := by
        intro h
        exact hbreak ⟨h.1, hflag.2 h.2⟩
      have hflag2 : (!sig.vsync_after_row y || k.vsync_reset) = true
          ↔ ∃ z, z < y + 1 ∧ sig.vsync_after_row z = false := by
        constructor
        · intro h
          cases hv : sig.vsync_after_row y
          · exact ⟨y, Nat.lt_succ_self y, hv⟩
          · rw [hv] at h
            obtain ⟨z, hz, hzv⟩ := hflag.1 (by simpa using h)
            exact ⟨z, by omega, hzv⟩
        · rintro ⟨z, hz, hzv⟩
          by_cases hzy : z = y
          · subst hzy; simp [hzv]
          · have := hflag.2 ⟨z, by omega, hzv⟩
            simp [this]
      generalize hK : ({ capture_row sig y k with
          vsync_reset := !sig.vsync_after_row y || k.vsync_reset, rows := y + 1 } : Capture)
        = K
      have hKp : K.p = (y + 1) * PIXELS_X := by
        rw [← hK]
        show (capture_row sig y k).p = (y + 1) * PIXELS_X
        rw [r1, hp]; simp only [PIXELS_X]; omega
      have hKrows : K.rows = y + 1 := by rw [← hK]
      have hKflag : K.vsync_reset = true
          ↔ ∃ z, z < y + 1 ∧ sig.vsync_after_row z = false := by
        rw [← hK]; exact hflag2
      have hKfb : K.framebuffer = (capture_row sig y k).framebuffer := by rw [← hK]
      obtain ⟨a1, a2, a3, a4, a5, a6, a7⟩ := ih (y + 1) K hKp hKrows hKflag
      generalize capture_rows sig (y + 1) j K = R at a1 a2 a3 a4 a5 a6 a7 ⊢
      refine ⟨a1, by omega, by omega, fun _ => by omega, ?_, ?_, ?_⟩
      · intro z h1 h2
        by_cases hz : z = y
        · subst hz; exact hns
        · exact a5 z (by omega) h2
      · intro h
        exact a6 (by omega)
      · intro i
        rw [a7, hKfb, hcell]
        have hmul := Nat.mul_le_mul_right PIXELS_X a2
        simp only [PIXELS_X] at hmul ⊢
        by_cases hc : (y + 1) * 160 ≤ i ∧ i < R.rows * 160
        · have hc2 : y * 160 ≤ i ∧ i < R.rows * 160 := by omega
          rw [if_pos hc, if_pos hc2]
        · by_cases hd : y * 160 ≤ i ∧ i < (y + 1) * 160
          · have hc2 : y * 160 ≤ i ∧ i < R.rows * 160 := by omega
            rw [if_neg hc, if_pos hd, if_pos hc2]
          · have hc2 : ¬ (y * 160 ≤ i ∧ i < R.rows * 160) := by omega
            rw [if_neg hc, if_neg hd, if_neg hc2]

/-- C20: one call of video_stuff, modelled by the frame-sync level sampled at the
end of each row and the two data bits sampled per pixel, stops after the first
row y at whose end the level is active after having been inactive at the end
of an earlier row of the call, and captures all PIXELS_Y rows when there is no
such row; having captured r rows it has advanced the write pointer by
r*PIXELS_X cells from index 0, cell y*PIXELS_X + x holds 2*DATA_0 + DATA_1 of
pixel x of row y, a value in 0..3, and every other framebuffer cell is
unchanged. -/
theorem video_stuff_capture (sig : VideoSignal) (framebuffer : Nat → Nat) :
    (∀ y, y < PIXELS_Y → stop_row sig y → (∀ z, z < y → ¬ stop_row sig z) →
        (video_stuff sig framebuffer).rows = y + 1)
      ∧ ((∀ y, y < PIXELS_Y → ¬ stop_row sig y) →
        (video_stuff sig framebuffer).rows = PIXELS_Y)
      ∧ (video_stuff sig framebuffer).p = (video_stuff sig framebuffer).rows * PIXELS_X
      ∧ (∀ i, i < (video_stuff sig framebuffer).rows * PIXELS_X →
          (video_stuff sig framebuffer).framebuffer i
              = 2 * (sig.data_0 (i / PIXELS_X) (i % PIXELS_X)).toNat
                  + (sig.data_1 (i / PIXELS_X) (i % PIXELS_X)).toNat
            ∧ (video_stuff sig framebuffer).framebuffer i ≤ 3)
      ∧ (∀ i, (video_stuff sig framebuffer).rows * PIXELS_X ≤ i →
          (video_stuff sig framebuffer).framebuffer i = framebuffer i) := by
  obtain ⟨a1, _, a3, a4, a5, a6, a7⟩ :=
    capture_rows_spec sig PIXELS_Y 0
      { framebuffer := framebuffer, p := 0, vsync_reset := false, rows := 0 }
      (by simp) rfl
      (by
        constructor
        · intro h; simp at h
        · rintro ⟨z, hz, _⟩; omega)
  have hpos := a4 (by decide)
  unfold video_stuff
  generalize capture_rows sig 0 PIXELS_Y
    { framebuffer := framebuffer, p := 0, vsync_reset := false, rows := 0 } = R
    at a1 a3 a4 a5 a6 a7 hpos ⊢
  refine ⟨?_, ?_, a1, ?_, ?_⟩
  · intro y hy hs hfirst
    by_cases h1 : R.rows < y + 1
    · have hstop := a6 (by omega)
      exact absurd hstop (hfirst _ (by omega))
    · by_cases h2 : y + 1 < R.rows
      · exact absurd hs (a5 y (Nat.zero_le y) h2)
      · omega
  · intro hnone
    by_cases h1 : R.rows < PIXELS_Y
    · have hstop := a6 (by omega)
      exact absurd hstop (hnone _ (by omega))
    · omega
  · intro i hi
    have hc : 0 * PIXELS_X ≤ i ∧ i < R.rows * PIXELS_X := ⟨by omega, hi⟩
    rw [a7, if_pos hc]
    exact sample_eq sig _ _
  · intro i hi
    have hc : ¬ (0 * PIXELS_X ≤ i ∧ i < R.rows * PIXELS_X) := by omega
    rw [a7, if_neg hc]

/-- Witness of C20: with the sample signal, frame-sync is inactive at the end of
row 3 and active again at the end of row 4, so the call captures 5 rows. -/
theorem video_stuff_capture_witness :
    (video_stuff sample_signal (fun _ => 7)).rows = 4 + 1 :=
  (video_stuff_capture sample_signal (fun _ => 7)).1 4 (by decide)
    ⟨rfl, 3, by decide, rfl⟩
    (by
      rintro z hz ⟨_, w, hw, hwv⟩
      have hw3 : w = 3 := by simpa [sample_signal] using hwv
      omega)


/-! ## Properties of the report decoding -/

theorem ldiff_two_pow (b k : Nat) :
    Nat.ldiff (2 ^ k) b = if b.testBit k = true then 0 else 2 ^ k := by
  apply Nat.eq_of_testBit_eq
  intro j
  rw [Nat.testBit_ldiff, Nat.testBit_two_pow]
  by_cases hb : b.testBit k = true
  · rw [if_pos hb]
    by_cases hj : k = j
    · subst hj; simp [hb]
    · simp [hj]
  · rw [if_neg hb, Nat.testBit_two_pow]
    by_cases hj : k = j
    · subst hj; simp [hb]
    · simp [hj]

/-- The expression (~byte & (1 << bit)) > 0 ? 0 : 1 is the value of the bit. -/
theorem report_state_eq (b k : Nat) : report_state b k = report_bit b k := by
  have h1 : Int.land (Int.not (b : Int)) ((1 <<< k : Nat) : Int)
      = ((Nat.ldiff (1 <<< k) b : Nat) : Int) := rfl
  have h2 : (1 <<< k : Nat) = 2 ^ k := by simp [Nat.shiftLeft_eq]
  have hpos : 0 < 2 ^ k := Nat.two_pow_pos k
  have ht := @Nat.testBit_to_div_mod k b
  have hm : b / 2 ^ k % 2 = 0 ∨ b / 2 ^ k % 2 = 1 := by omega
  unfold report_state report_bit
  rw [h1, h2, ldiff_two_pow]
  by_cases hb : b.testBit k = true
  · rw [if_pos hb]
    rw [hb] at ht
    have : b / 2 ^ k % 2 = 1 := by simpa using ht
    simp [this]
  · rw [if_neg hb]
    have hb2 : b.testBit k = false := by simpa using hb
    rw [hb2] at ht
    have : ¬ (b / 2 ^ k % 2 = 1) := by simpa using ht
    have h0 : b / 2 ^ k % 2 = 0 := by omega
    rw [h0]
    have : (0 : Int) < ((2 ^ k : Nat) : Int) := by exact_mod_cast hpos
    simp [this]

/-- The byte loop on a valid read: the flag valid is set within bytes 0..3, byte
4 and byte 5 are decoded, and nothing else is written. -/
theorem controller_bytes_valid (buf states : Nat → Nat)
    (h : ∃ i, i < 4 ∧ buf i ≠ 0xFF) :
    (List.range 8).foldl (controller_byte buf) (false, states)
      = (true,
          Function.update (Function.update (Function.update (Function.update
            (Function.update (Function.update (Function.update (Function.update
              (Function.update states BUTTON_START (report_state (buf 4) 2))
              BUTTON_SELECT (report_state (buf 4) 4))
              BUTTON_DOWN (report_state (buf 4) 6))
              BUTTON_RIGHT (report_state (buf 4) 7))
              BUTTON_HOME (report_state (buf 4) 3))
            BUTTON_UP (report_state (buf 5) 0))
            BUTTON_LEFT (report_state (buf 5) 1))
            BUTTON_A (report_state (buf 5) 4))
            BUTTON_B (report_state (buf 5) 6)) := by
  have hr : List.range 8 = [0, 1, 2, 3, 4, 5, 6, 7] := by decide
  have hfirst : (List.foldl (controller_byte buf) (false, states) [0, 1, 2, 3])
      = (true, states) := by
    obtain ⟨i, hi, hne⟩ := h
    by_cases h0 : buf 0 = 0xFF <;> by_cases h1 : buf 1 = 0xFF <;>
      by_cases h2 : buf 2 = 0xFF <;> by_cases h3 : buf 3 = 0xFF <;>
      first
        | (simp [controller_byte, h0, h1, h2, h3]; done)
        | (exfalso
           have hcases : i = 0 ∨ i = 1 ∨ i = 2 ∨ i = 3 := by omega
           rcases hcases with rfl | rfl | rfl | rfl <;> contradiction)
  have hsplit : ([0, 1, 2, 3, 4, 5, 6, 7] : List Nat) = [0, 1, 2, 3] ++ [4, 5, 6, 7] := rfl
  rw [hr, hsplit, List.foldl_append, hfirst]
  simp [controller_byte]

/-- C25: on an accepted poll whose read succeeds with at least one of the bytes
0..3 different from 0xFF, nes_classic_controller sets each button state to the
value of its report bit (0 = pressed when the bit is 0): Start = bit 2,
Home = bit 3, Select = bit 4, Down = bit 6, Right = bit 7 of byte 4; Up = bit 0,
Left = bit 1, A = bit 4, B = bit 6 of byte 5; every resulting state is 0 or 1
and nothing else of the report enters a button state. -/
theorem report_decoding (c : Console) (inp : PollInput)
    (hacc : poll_rejected c inp = false)
    (hret : 0 ≤ inp.ret)
    (hvalid : ∃ i, i < 4 ∧ inp.data i ≠ 0xFF) :
    (nes_classic_controller c inp).1.button_states BUTTON_START = report_bit (inp.data 4) 2
      ∧ (nes_classic_controller c inp).1.button_states BUTTON_HOME
          = report_bit (inp.data 4) 3
      ∧ (nes_classic_controller c inp).1.button_states BUTTON_SELECT
          = report_bit (inp.data 4) 4
      ∧ (nes_classic_controller c inp).1.button_states BUTTON_DOWN
          = report_bit (inp.data 4) 6
      ∧ (nes_classic_controller c inp).1.button_states BUTTON_RIGHT
          = report_bit (inp.data 4) 7
      ∧ (nes_classic_controller c inp).1.button_states BUTTON_UP = report_bit (inp.data 5) 0
      ∧ (nes_classic_controller c inp).1.button_states BUTTON_LEFT
          = report_bit (inp.data 5) 1
      ∧ (nes_classic_controller c inp).1.button_states BUTTON_A = report_bit (inp.data 5) 4
      ∧ (nes_classic_controller c inp).1.button_states BUTTON_B = report_bit (inp.data 5) 6
      ∧ (∀ b, b < BUTTON_COUNT →
          (nes_classic_controller c inp).1.button_states b = 0
            ∨ (nes_classic_controller c inp).1.button_states b = 1)
      ∧ (∀ b, BUTTON_COUNT ≤ b →
          (nes_classic_controller c inp).1.button_states b = c.button_states b)
      ∧ (∀ byte bit, report_bit byte bit = 0 ∨ report_bit byte bit = 1) := by
  have hnot : ¬ inp.ret < 0 := by omega
  have hbit : ∀ byte bit, report_bit byte bit = 0 ∨ report_bit byte bit = 1 := by
    intro byte bit
    unfold report_bit
    omega
  generalize hbuf : (fun i => if i < 8 then inp.data i else
      (if c.initialized = true then c.i2c_buffer
        else Function.update (Function.update c.i2c_buffer 0 0xFB) 1 0x00) i) = buf
  have hb4 : buf 4 = inp.data 4 := by rw [← hbuf]; rfl
  have hb5 : buf 5 = inp.data 5 := by rw [← hbuf]; rfl
  have hv : ∃ i, i < 4 ∧ buf i ≠ 0xFF := by
    obtain ⟨i, hi, hne⟩ := hvalid
    refine ⟨i, hi, ?_⟩
    rw [← hbuf]
    have : i < 8 := by omega
    simpa [this] using hne
  have hfold := controller_bytes_valid buf c.button_states hv
  have hst : (nes_classic_controller c inp).1.button_states
      = ((List.range 8).foldl (controller_byte buf) (false, c.button_states)).2 := by
    simp only [nes_classic_controller, hacc, Bool.false_eq_true, if_false, hnot, hbuf, hfold,
      if_true]
  rw [hst, hfold]
  simp only [hb4, hb5, report_state_eq]
  have h4 := hbit (inp.data 4)
  have h5 := hbit (inp.data 5)
  refine ⟨?_, ?_, ?_, ?_, ?_, ?_, ?_, ?_, ?_, ?_, ?_, hbit⟩
  · simp [Function.update_apply, BUTTON_START, BUTTON_SELECT, BUTTON_DOWN, BUTTON_RIGHT,
      BUTTON_HOME, BUTTON_UP, BUTTON_LEFT, BUTTON_A, BUTTON_B]
  · simp [Function.update_apply, BUTTON_START, BUTTON_SELECT, BUTTON_DOWN, BUTTON_RIGHT,
      BUTTON_HOME, BUTTON_UP, BUTTON_LEFT, BUTTON_A, BUTTON_B]
  · simp [Function.update_apply, BUTTON_START, BUTTON_SELECT, BUTTON_DOWN, BUTTON_RIGHT,
      BUTTON_HOME, BUTTON_UP, BUTTON_LEFT, BUTTON_A, BUTTON_B]
  · simp [Function.update_apply, BUTTON_START, BUTTON_SELECT, BUTTON_DOWN, BUTTON_RIGHT,
      BUTTON_HOME, BUTTON_UP, BUTTON_LEFT, BUTTON_A, BUTTON_B]
  · simp [Function.update_apply, BUTTON_START, BUTTON_SELECT, BUTTON_DOWN, BUTTON_RIGHT,
      BUTTON_HOME, BUTTON_UP, BUTTON_LEFT, BUTTON_A, BUTTON_B]
  · simp [Function.update_apply, BUTTON_START, BUTTON_SELECT, BUTTON_DOWN, BUTTON_RIGHT,
      BUTTON_HOME, BUTTON_UP, BUTTON_LEFT, BUTTON_A, BUTTON_B]
  · simp [Function.update_apply, BUTTON_START, BUTTON_SELECT, BUTTON_DOWN, BUTTON_RIGHT,
      BUTTON_HOME, BUTTON_UP, BUTTON_LEFT, BUTTON_A, BUTTON_B]
  · simp [Function.update_apply, BUTTON_START, BUTTON_SELECT, BUTTON_DOWN, BUTTON_RIGHT,
      BUTTON_HOME, BUTTON_UP, BUTTON_LEFT, BUTTON_A, BUTTON_B]
  · simp [Function.update_apply, BUTTON_START, BUTTON_SELECT, BUTTON_DOWN, BUTTON_RIGHT,
      BUTTON_HOME, BUTTON_UP, BUTTON_LEFT, BUTTON_A, BUTTON_B]
  · intro b hb
    simp only [Function.update_apply, BUTTON_START, BUTTON_SELECT, BUTTON_DOWN, BUTTON_RIGHT,
      BUTTON_HOME, BUTTON_UP, BUTTON_LEFT, BUTTON_A, BUTTON_B, BUTTON_COUNT] at hb ⊢
    have hcases : b = 0 ∨ b = 1 ∨ b = 2 ∨ b = 3 ∨ b = 4 ∨ b = 5 ∨ b = 6 ∨ b = 7 ∨ b = 8 := by
      omega
    rcases hcases with rfl | rfl | rfl | rfl | rfl | rfl | rfl | rfl | rfl <;>
      first
        | exact h5 6 | exact h5 4 | exact h5 1 | exact h5 0
        | exact h4 3 | exact h4 7 | exact h4 6 | exact h4 4 | exact h4 2
  · intro b hb
    simp only [Function.update_apply, BUTTON_START, BUTTON_SELECT, BUTTON_DOWN, BUTTON_RIGHT,
      BUTTON_HOME, BUTTON_UP, BUTTON_LEFT, BUTTON_A, BUTTON_B, BUTTON_COUNT] at hb ⊢
    split_ifs <;> first | rfl | omega

/-- Witness of C25: a report with byte 4 = 0xFB (only bit 2 clear) and the
other bytes 0: Start is pressed. -/
theorem report_decoding_witness :
    (nes_classic_controller sample_console
        { current_micros := 30000, ret := 8, data := fun i => if i = 4 then 0xFB else 0,
          later_micros := 31000 }).1.button_states BUTTON_START
      = report_bit ((fun i => if i = 4 then 0xFB else 0) 4) 2 :=
  (report_decoding sample_console
    { current_micros := 30000, ret := 8, data := fun i => if i = 4 then 0xFB else 0,
      later_micros := 31000 }
    (by decide) (by decide) ⟨0, by decide, by decide⟩).1

/-! ## Bounds of the table reads and of the reported length -/

/-- C21: for every sample in 0..3, every scheme_offset that is a multiple of 4 in
0..144 and every accent offset in 0..3, the palette reads stay inside the
table: sample + scheme_offset and scheme_offset + accent offset are below the
length of colors, 148; and (uint8_t)scheme_offset equals scheme_offset, so the
appended pixels and the first-pixel slot of single_scanline read the same
palette entry for the same sample. -/
theorem palette_reads_in_bounds (p : Platform) (sample : Nat) (scheme_offset accent : Int)
    (hs : sample ≤ 3)
    (hso : scheme_offset % 4 = 0 ∧ 0 ≤ scheme_offset ∧ scheme_offset ≤ 144)
    (ha : 0 ≤ accent ∧ accent ≤ 3) :
    0 ≤ (sample : Int) + scheme_offset
      ∧ ((sample : Int) + scheme_offset).toNat < (colors p).length
      ∧ 0 ≤ scheme_offset + accent
      ∧ (scheme_offset + accent).toNat < (colors p).length
      ∧ (colors p).length = 148
      ∧ to_uint8 scheme_offset = scheme_offset
      ∧ colors_at p ((sample : Int) + to_uint8 scheme_offset)
          = colors_at p ((sample : Int) + scheme_offset) := by
  obtain ⟨h1, h2, h3⟩ := hso
  obtain ⟨h4, h5⟩ := ha
  have hu : to_uint8 scheme_offset = scheme_offset := to_uint8_of_range _ h2 (by omega)
  rw [colors_length, hu]
  refine ⟨by omega, by omega, by omega, by omega, rfl, rfl, rfl⟩

/-- Witness of C21: the last scheme, the last sample and the last accent
offset. -/
theorem palette_reads_in_bounds_witness :
    (((3 : Nat) : Int) + 144).toNat < (colors sample_platform).length
      ∧ ((144 : Int) + 3).toNat < (colors sample_platform).length :=
  have h := palette_reads_in_bounds sample_platform 3 144 3 (by decide) (by decide)
    (by decide)
  ⟨h.2.1, h.2.2.2.1⟩

/-- C23, the code measured: single_solid_line writes 12 words of 16 bits and
returns 6, which covers them; single_scanline writes 491 words of 16 bits, an
odd number, and returns 245, so twice the returned value is 490 and the
end-of-line marker, word 490, lies outside the reported length. -/
theorem words_used_lengths (p : Platform) (s : Settings) (m : VideoMem) (o : Overlay)
    (y color : Nat) :
    (single_solid_line p s color).length = 12
      ∧ words_used (single_solid_line p s color) = 6
      ∧ (single_solid_line p s color)[11]? = some p.COMPOSABLE_EOL_ALIGN
      ∧ (single_scanline p s m o y).length = 491
      ∧ words_used (single_scanline p s m o y) = 245
      ∧ (single_scanline p s m o y)[490]? = some p.COMPOSABLE_EOL_ALIGN
      ∧ 2 * words_used (single_scanline p s m o y) < (single_scanline p s m o y).length
      ∧ ¬ (single_scanline p s m o y).length % 2 = 0 := by
  have hl := single_scanline_length p s m o y
  have hw : words_used (single_scanline p s m o y) = 245 := by
    unfold words_used; rw [hl]
  have hp16 : (scan_loop p s m o y).p16.length = 479 := by
    simp [scan_loop_p16, PIXELS_X, PIXEL_SCALE]
  have hlast : (single_scanline p s m o y)[490]? = some p.COMPOSABLE_EOL_ALIGN := by
    have e : single_scanline p s m o y
        = ([p.COMPOSABLE_COLOR_RUN, border_colors_at p s.border_color_index,
              BORDER_HORZ - MIN_RUN - 1, p.COMPOSABLE_RAW_RUN,
              (scan_loop p s m o y).first_pixel, PIXELS_X * PIXEL_SCALE - MIN_RUN]
            ++ (scan_loop p s m o y).p16)
          ++ [p.COMPOSABLE_COLOR_RUN, border_colors_at p s.border_color_index,
              BORDER_HORZ - MIN_RUN, p.COMPOSABLE_RAW_1P, 0, p.COMPOSABLE_EOL_ALIGN] := rfl
    have hpre : ([p.COMPOSABLE_COLOR_RUN, border_colors_at p s.border_color_index,
          BORDER_HORZ - MIN_RUN - 1, p.COMPOSABLE_RAW_RUN,
          (scan_loop p s m o y).first_pixel, PIXELS_X * PIXEL_SCALE - MIN_RUN]
        ++ (scan_loop p s m o y).p16).length = 485 := by
      simp [hp16]
    rw [e, List.getElem?_append_right (by omega), hpre]
    rfl
  have hsolid : words_used (single_solid_line p s color) = 6 := by
    simp [words_used, single_solid_line]
  refine ⟨rfl, hsolid, rfl, hl, hw, hlast, ?_, ?_⟩
  · rw [hw, hl]; decide
  · rw [hl]; decide

/-- The copy loop of command_check, on the button state vectors. -/
theorem command_check_buttons (p : Platform) (change_line : Overlay → Int → Overlay)
    (c : Console) :
    (command_check p change_line c).1.button_states
        = (command_dispatch p change_line c).1.button_states
      ∧ (∀ i, (command_check p change_line c).1.button_states_previous i
          = if i < BUTTON_COUNT then (command_dispatch p change_line c).1.button_states i
            else (command_dispatch p change_line c).1.button_states_previous i) := by
  obtain ⟨_, _, h3, h4⟩ := copy_button_fold (command_dispatch p change_line c).1
  simp only [command_check]
  exact ⟨h3, h4⟩

/-- The switch on the active line writes no button state. -/
theorem command_line_action_buttons (p : Platform) (c : Console) (leftbtn : Bool) :
    (command_line_action p c leftbtn).1.button_states = c.button_states := by
  unfold command_line_action
  dsimp only
  repeat' split
  all_goals rfl

/-- The dispatch of command_check writes no button state. -/
theorem command_dispatch_buttons (p : Platform) (change_line : Overlay → Int → Overlay)
    (c : Console) :
    (command_dispatch p change_line c).1.button_states = c.button_states := by
  unfold command_dispatch
  repeat' split
  all_goals first | rfl | exact command_line_action_buttons p c _

/-- C24: after every call of command_check the previous state of each of the nine
buttons equals its current state, so button_was_released is false for every
button, and a second command_check on the unchanged button states makes no
call (no toggle, no cursor move, no reset pulse) and changes neither the
settings nor the overlay. -/
theorem release_edge_consumed (p : Platform) (change_line : Overlay → Int → Overlay)
    (c : Console) :
    (∀ i, i < BUTTON_COUNT →
        (command_check p change_line c).1.button_states_previous i
          = (command_check p change_line c).1.button_states i)
      ∧ (command_check p change_line c).1.button_states = c.button_states
      ∧ (∀ i, i < BUTTON_COUNT →
          button_was_released (command_check p change_line c).1 i = false)
      ∧ (command_check p change_line (command_check p change_line c).1).2 = []
      ∧ (command_check p change_line (command_check p change_line c).1).1.settings
          = (command_check p change_line c).1.settings
      ∧ (command_check p change_line (command_check p change_line c).1).1.overlay
          = (command_check p change_line c).1.overlay := by
  obtain ⟨b1, b2⟩ := command_check_buttons p change_line c
  have hcopy : ∀ i, i < BUTTON_COUNT →
      (command_check p change_line c).1.button_states_previous i
        = (command_check p change_line c).1.button_states i := by
    intro i hi
    rw [b2 i, if_pos hi, b1]
  have hstates : (command_check p change_line c).1.button_states = c.button_states := by
    rw [b1, command_dispatch_buttons]
  have hrel : ∀ i, i < BUTTON_COUNT →
      button_was_released (command_check p change_line c).1 i = false := by
    intro i hi
    have := hcopy i hi
    simp only [button_was_released, this]
    cases hd : decide ((command_check p change_line c).1.button_states i = 1)
    · rfl
    · have h1 : (command_check p change_line c).1.button_states i = 1 := by simpa using hd
      simp [h1]
  clear b1 b2
  generalize command_check p change_line c = r at hcopy hstates hrel ⊢
  obtain ⟨g1, g2, g3⟩ := command_check_fields p change_line r.1
  have hd : command_dispatch p change_line r.1 = (r.1, []) := by
    simp [command_dispatch, hrel BUTTON_HOME (by decide), hrel BUTTON_DOWN (by decide),
      hrel BUTTON_UP (by decide), hrel BUTTON_RIGHT (by decide),
      hrel BUTTON_LEFT (by decide), hrel BUTTON_A (by decide)]
  rw [g1, g2, g3, hd]
  exact ⟨hcopy, hstates, hrel, rfl, rfl, rfl⟩

/-- Witness of C24: a Home release edge is consumed by the first call; the second
call makes no call. -/
theorem release_edge_consumed_witness :
    (command_check sample_platform sample_change_line
        (command_check sample_platform sample_change_line
          { sample_console with button_states_previous := fun _ => 0 }).1).2 = [] :=
  (release_edge_consumed sample_platform sample_change_line
    { sample_console with button_states_previous := fun _ => 0 }).2.2.2.1

/-- The value of in_osd after column n is the one set when the column was
entered. -/
theorem scan_col_in_osd (p : Platform) (s : Settings) (m : VideoMem) (o : Overlay)
    (y n : Nat) (v : ScanVars) (h : ScanInv p s m o y n v) :
    (scan_col p s m o y v n).in_osd = in_overlay p o y n := by
  obtain ⟨hb, hp, hi, _, _⟩ := h
  have hpos : v.osd_pos ≥ 0 := by rw [hp]; exact Int.ofNat_nonneg _
  have hv1 : (if osd_row p o y = true ∧ v.osd_pos ≥ 0 then
        { v with in_osd := decide (n ≥ osd_start_x p) && decide (n < osd_end_x p) }
      else v) = { v with in_osd := in_overlay p o y n } := by
    cases hr : osd_row p o y
    · have := hi hr
      cases v
      simp_all [in_overlay]
    · simp [in_overlay, hr, hpos]
  unfold scan_col
  simp only [hv1]
  rcases Nat.eq_zero_or_pos n with hn | hn
  · subst hn
    rw [scan_sub_fold_zero p s m o y { v with in_osd := in_overlay p o y 0 } hb rfl hp]
    cases hio : in_overlay p o y 0 <;> simp [hio]
  · rw [scan_sub_fold_pos p s m o y n { v with in_osd := in_overlay p o y n } (by omega) hb
      rfl hp]
    cases hio : in_overlay p o y n <;> simp [hio]

/-- C22: for an overlay no larger than the game image (OSD_WIDTH <= PIXELS_X,
OSD_HEIGHT <= PIXELS_Y) and every column x at which single_scanline reads the
overlay (in_osd true in column x), the locals osd_start_x, osd_end_x,
osd_start_y, osd_end_y and nnn hold their values without 8-bit or 16-bit
wrap-around, osd_pos equals x - osd_start_x, and the index nnn + osd_pos
equals (y - osd_start_y)*OSD_WIDTH + (x - osd_start_x) and is below
OSD_HEIGHT*OSD_WIDTH. -/
theorem overlay_reads_in_bounds (p : Platform) (s : Settings) (m : VideoMem) (o : Overlay)
    (y x : Nat)
    (hw : p.OSD_WIDTH ≤ PIXELS_X) (hh : p.OSD_HEIGHT ≤ PIXELS_Y)
    (hin : (scan_after p s m o y (x + 1)).in_osd = true) :
    Int.tdiv ((PIXELS_X : Int) - (OSD_get_width p : Int)) 2 = (osd_start_x p : Int)
      ∧ (osd_start_x p : Int) + (OSD_get_width p : Int) = (osd_end_x p : Int)
      ∧ Int.tdiv ((PIXELS_Y : Int) - (OSD_get_height p : Int)) 2 = (osd_start_y p : Int)
      ∧ (osd_start_y p : Int) + (OSD_get_height p : Int) = (osd_end_y p : Int)
      ∧ ((y : Int) - (osd_start_y p : Int)) * (p.OSD_WIDTH : Int) = (osd_nnn p y : Int)
      ∧ y < PIXELS_Y ∧ x < PIXELS_X
      ∧ (scan_after p s m o y x).osd_pos = (x : Int) - (osd_start_x p : Int)
      ∧ 0 ≤ (scan_after p s m o y x).osd_pos
      ∧ ((osd_nnn p y : Int) + (scan_after p s m o y x).osd_pos).toNat
          = (y - osd_start_y p) * p.OSD_WIDTH + (x - osd_start_x p)
      ∧ ((osd_nnn p y : Int) + (scan_after p s m o y x).osd_pos).toNat
          < p.OSD_HEIGHT * p.OSD_WIDTH := by
  have hov : in_overlay p o y x = true := by
    rw [scan_after_succ, scan_col_in_osd p s m o y x _ (scan_after_inv p s m o y x)] at hin
    exact hin
  have hposeq := (scan_after_inv p s m o y x).osd_pos_eq
  obtain ⟨hsx, hex⟩ := osd_start_x_eq p hw
  obtain ⟨hsy, hey⟩ := osd_start_y_eq p hh
  have hidx := overlay_index_eq p o y x hw hh hov
  have hmem := hov
  simp only [in_overlay, osd_row, Bool.and_eq_true, decide_eq_true_eq, hsx, hex, hsy, hey,
    and_assoc] at hmem
  obtain ⟨_, hy1, hy2, hx1, hx2⟩ := hmem
  have hrow : osd_row p o y = true := by
    simp only [in_overlay, Bool.and_eq_true] at hov
    exact hov.1.1
  have hpos : overlay_pos p o y x = x - (PIXELS_X - p.OSD_WIDTH) / 2 := by
    simp only [overlay_pos, hrow, if_true, hsx, hex]
    omega
  have hprod : (y - (PIXELS_Y - p.OSD_HEIGHT) / 2) * p.OSD_WIDTH ≤ 144 * 160 := by
    apply Nat.mul_le_mul
    · simp only [PIXELS_Y] at hh hy2 ⊢; omega
    · simpa [PIXELS_X] using hw
  have hc : ((y : Int) - ((PIXELS_Y - p.OSD_HEIGHT) / 2 : Nat)) * (p.OSD_WIDTH : Int)
      = (((y - (PIXELS_Y - p.OSD_HEIGHT) / 2) * p.OSD_WIDTH : Nat) : Int) := by
    rw [Nat.cast_mul, Nat.cast_sub hy1]
  have hnnn : osd_nnn p y = (y - (PIXELS_Y - p.OSD_HEIGHT) / 2) * p.OSD_WIDTH := by
    simp only [osd_nnn, hsy, to_uint16, hc]
    omega
  have hbound : (y - (PIXELS_Y - p.OSD_HEIGHT) / 2) * p.OSD_WIDTH
      + (x - (PIXELS_X - p.OSD_WIDTH) / 2) < p.OSD_HEIGHT * p.OSD_WIDTH := by
    have h1 : y - (PIXELS_Y - p.OSD_HEIGHT) / 2 + 1 ≤ p.OSD_HEIGHT := by omega
    have h2 := Nat.mul_le_mul_right p.OSD_WIDTH h1
    rw [Nat.add_mul, Nat.one_mul] at h2
    omega
  have h0x : (0 : Int) ≤ (PIXELS_X : Int) - (p.OSD_WIDTH : Int) := by omega
  have h0y : (0 : Int) ≤ (PIXELS_Y : Int) - (p.OSD_HEIGHT : Int) := by omega
  rw [hposeq, hidx]
  refine ⟨?_, ?_, ?_, ?_, ?_, ?_, ?_, ?_, ?_, ?_, ?_⟩
  · rw [hsx, OSD_get_width, Int.tdiv_eq_ediv h0x (by decide : (0 : Int) ≤ 2)]
    simp only [PIXELS_X] at hw ⊢
    omega
  · rw [hsx, hex, OSD_get_width]
    push_cast
    rfl
  · rw [hsy, OSD_get_height, Int.tdiv_eq_ediv h0y (by decide : (0 : Int) ≤ 2)]
    simp only [PIXELS_Y] at hh ⊢
    omega
  · rw [hsy, hey, OSD_get_height]
    push_cast
    rfl
  · rw [hnnn, hsy, hc]
  · simp only [PIXELS_Y] at hh hy2 ⊢; omega
  · simp only [PIXELS_X] at hw hx2 ⊢; omega
  · rw [hpos, hsx]; omega
  · exact Int.ofNat_nonneg _
  · rw [hsx, hsy]
  · exact hbound

/-- Witness of C22: column 78 of source row 70 lies inside the 8 by 8 overlay of
the sample platform, and the cell read is below OSD_HEIGHT*OSD_WIDTH = 64. -/
theorem overlay_reads_in_bounds_witness :
    ((osd_nnn sample_platform 70 : Int)
        + (scan_after sample_platform (boot sample_platform) sample_mem
            { enabled := true } 70 78).osd_pos).toNat
      < sample_platform.OSD_HEIGHT * sample_platform.OSD_WIDTH :=
  (overlay_reads_in_bounds sample_platform (boot sample_platform) sample_mem
    { enabled := true } 70 78 (by decide) (by decide)
    (by
      rw [scan_after_succ, scan_col_in_osd sample_platform (boot sample_platform)
        sample_mem { enabled := true } 70 78 _ (scan_after_inv _ _ _ _ 70 78)]
      decide)).2.2.2.2.2.2.2.2.2.2

end GbVga
